import Mathlib

/-!
# Decision tree induction over continuous attributes (`src/js/decision_tree.js`)

A shallow embedding of the core of the script: the entropy evaluator `entropyOf`,
the split evaluator `totalEntropyOfAttribute`, the selector
`mostInformativeAttribute`, the builder `decisionTree` and `classify`, and of the
train/test split `divideData`.

Modelling conventions.

* A sample is a JavaScript array of strings.  The script obtains every sample from
  `datum.split(',')` on a non-empty line, which always has at least one element, so
  a sample is a list of attribute fields followed by one label field
  (`sample.at(-1)`).
* The built-in `parseFloat` is a parameter `parseFloat : String → JSNum`; every
  statement holds for every such function.  A number it returns is `NaN`, an infinity
  or a finite value, and `<=` is false whenever a side is `NaN`.
* The entropy functions come in two forms.  In `entropyOf`, `totalEntropyOfAttribute`
  and `mostInformativeAttribute` the logarithm is `Real.logb 2` and the arithmetic is
  exact real arithmetic: they carry the statements about the entropy as a quantity and
  about the shape of the tree.  In `entropyOfD`, `totalEntropyOfAttributeD` and
  `mostInformativeAttributeD` every operation is the double operation the script
  performs, `Math.log2` is a parameter `log2 : ℚ → ℚ`, and the properties of
  `valueDistribution` are visited in the order of the `for ... in` loop: they carry the
  statement about which candidate the selector returns, which rounding can change.  In
  both forms the one `NaN` an entropy computation can produce (`0 / 0` for an empty
  sample array) is `none`.
* The object `valueDistribution` is an association list in insertion order; the
  property name `__proto__`, which a plain object inherits as an accessor, never
  becomes a key.
* A thrown `TypeError` is `none` in the result of the function that throws.
* The global `maxDepth` is a parameter of `decisionTree`, and `depth` is a natural
  number (the default 0, incremented by the recursion).
* `Math.random()` is a parameter of `divideData`: the sequence `random : Nat → Draw`
  of the values of its successive calls, each in `[0, 1)`.  The proportion is a finite
  double and `samples.length * proportion` is the double product: the exact product
  rounded to the nearest double (`roundDouble`).
-/

namespace DecisionTree

/-! ## Data model -/

/-- A JavaScript number as far as the script compares them: `NaN`, the two
infinities, or a finite value. -/
inductive JSNum where
  | nan
  | negInf
  | fin (q : ℚ)
  | posInf
  deriving DecidableEq

/-- The comparison `a <= b` on JavaScript numbers: false as soon as one side is `NaN`. -/
def JSNum.le : JSNum → JSNum → Bool
  | .nan, _ => false
  | _, .nan => false
  | .negInf, _ => true
  | _, .posInf => true
  | .posInf, _ => false
  | _, .negInf => false
  | .fin a, .fin b => decide (a ≤ b)

/-- A sample: the attribute fields and the class label, the last field of the array. -/
structure Sample where
  attrs : List String
  label : String
  deriving DecidableEq

/-- The array the sample stands for. -/
def Sample.fields (s : Sample) : List String := s.attrs ++ [s.label]

/-- The property read `sample[i]`.  The index is a number, possibly `NaN` (`none`);
the result is `undefined` (`none`) when there is no such element. -/
def Sample.get (s : Sample) : Option Nat → Option String
  | none => none
  | some i => s.fields[i]?

/-- The call `parseFloat(x)` on what a property read returned: `undefined` is
converted to the string "undefined", which has no numeric prefix, hence `NaN`. -/
def parseField (parseFloat : String → JSNum) : Option String → JSNum
  | none => JSNum.nan
  | some str => parseFloat str

/-- The test `parseFloat(sample[index]) <= limit` that sends a sample to the
smaller list. -/
def goesLow (parseFloat : String → JSNum) (index : Option Nat) (limit : JSNum)
    (sample : Sample) : Bool :=
  JSNum.le (parseField parseFloat (sample.get index)) limit

/-- The tree: `Leaf(decision, samples)` or
`Node(attribute, attributeValue, children, attributeIndex)`; the field `attribute`
is called `attr` here, an array read that may be `undefined`. -/
inductive Tree where
  | Leaf (decision : String) (samples : List Sample)
  | Node (attr : Option String) (attributeValue : JSNum) (children : List Tree)
      (attributeIndex : Option Nat)

/-! ## entropyOf -/

/-- The loop that collects the distinct labels in order of first occurrence. -/
def valueKeys (samples : List Sample) : List String :=
  samples.foldl
    (fun keys sample => if keys.contains sample.label then keys else keys ++ [sample.label]) []

/-- The UTF-16 code units of a string, the sequence `Array.prototype.sort` compares. -/
def utf16Units (s : String) : List Nat :=
  s.toList.flatMap fun c =>
    if c.toNat < 0x10000 then [c.toNat]
    else [0xD800 + (c.toNat - 0x10000) / 0x400, 0xDC00 + (c.toNat - 0x10000) % 0x400]

/-- Lexicographic order on code unit sequences. -/
def unitsLe : List Nat → List Nat → Bool
  | [], _ => true
  | _ :: _, [] => false
  | a :: as, b :: bs => a < b || (a == b && unitsLe as bs)

/-- The call `valueKeys.sort()` with the default comparator. -/
def sortKeys (keys : List String) : List String :=
  keys.insertionSort fun a b => unitsLe (utf16Units a) (utf16Units b) = true

/-- A plain object used as a dictionary from property names to counters, in
insertion order. -/
abbrev Dict := List (String × Nat)

/-- The property read `dict[key]` of a counter. -/
def Dict.get (d : Dict) (key : String) : Nat :=
  match d.find? (fun e => e.1 == key) with
  | some e => e.2
  | none => 0

/-- The assignment `dict[key] = v`.  The name `__proto__` is the inherited accessor
of `Object.prototype`: assigning a number to it changes nothing and creates no
property. -/
def Dict.set (d : Dict) (key : String) (v : Nat) : Dict :=
  if key = "__proto__" then d
  else if d.any (fun e => e.1 == key) then d.map (fun e => if e.1 == key then (key, v) else e)
  else d ++ [(key, v)]

/-- The loop that fills `valueDistribution`: every key is set to 0 and then
incremented once for every sample carrying that label. -/
def valueDistribution (samples : List Sample) : Dict :=
  (sortKeys (valueKeys samples)).foldl
    (fun dist key =>
      samples.foldl
        (fun dist sample => if sample.label == key then dist.set key (dist.get key + 1) else dist)
        (dist.set key 0))
    []

/-- The function `entropyOf`.  The `for ... in` loop subtracts one term per property
of `valueDistribution`; the sum does not depend on the order of enumeration. -/
noncomputable def entropyOf (samples : List Sample) : ℝ :=
  let size : ℝ := samples.length
  (valueDistribution samples).foldl
    (fun entropy e => entropy - ((e.2 : ℝ) / size) * Real.logb 2 ((e.2 : ℝ) / size)) 0

/-! ## totalEntropyOfAttribute and mostInformativeAttribute -/

/-- The function `totalEntropyOfAttribute`.  For an empty `samples` both weights are
`0 / 0`, the result is `NaN`: `none`. -/
noncomputable def totalEntropyOfAttribute (parseFloat : String → JSNum) (samples : List Sample)
    (attrIndex : Nat) (attrLimit : JSNum) : Option ℝ :=
  let size := samples.length
  let smallerList := samples.filter (goesLow parseFloat (some attrIndex) attrLimit)
  let largerList := samples.filter (fun s => !goesLow parseFloat (some attrIndex) attrLimit s)
  if size = 0 then none
  else
    some (0 + ((smallerList.length : ℝ) / (size : ℝ)) * entropyOf smallerList
            + ((largerList.length : ℝ) / (size : ℝ)) * entropyOf largerList)

/-- The three variables the selector updates together. -/
structure Best where
  entropy : ℝ
  bestAttributeIndex : Option Nat
  bestAttributeValue : JSNum

/-- The body of the inner loop of `mostInformativeAttribute` for column `i` and
sample `sample`. -/
noncomputable def selectStep (parseFloat : String → JSNum) (samples : List Sample) (i : Nat)
    (st : Best) (sample : Sample) : Best :=
  let attributeValue := parseField parseFloat (sample.get (some i))
  match totalEntropyOfAttribute parseFloat samples i attributeValue with
  | some nextEntropy =>
    if nextEntropy < st.entropy then ⟨nextEntropy, some i, attributeValue⟩ else st
  | none => st

/-- The function `mostInformativeAttribute`; `samples[0].length` throws for an empty
array.  `attributeNumber` is `samples[0].length - 1`. -/
noncomputable def mostInformativeAttribute (parseFloat : String → JSNum) (samples : List Sample) :
    Option (Option Nat × JSNum) :=
  match samples with
  | [] => none
  | s0 :: _ =>
    let attributeNumber := s0.fields.length - 1
    let st := (List.range attributeNumber).foldl
      (fun st i => samples.foldl (selectStep parseFloat samples i) st)
      (⟨5, none, JSNum.nan⟩ : Best)
    some (st.bestAttributeIndex, st.bestAttributeValue)

/-! ## decisionTree and classify -/

/-- The function `areSameDecision`; `samples[0].at(-1)` throws for an empty array. -/
def areSameDecision (samples : List Sample) : Option Bool :=
  match samples with
  | [] => none
  | s0 :: _ =>
    some (samples.foldl (fun same sample => if sample.label ≠ s0.label then false else same) true)

/-- String concatenation with a value that may be `undefined`. -/
def jsToString : Option String → String
  | none => "undefined"
  | some s => s

/-- The function `decisionTree`, with the global `maxDepth` as a parameter.  The
test `depth == maxDepth` compares the integer `depth` with the number `maxDepth`. -/
noncomputable def decisionTree (parseFloat : String → JSNum) (maxDepth : JSNum)
    (samples : List Sample) (attributes : List String) (depth : Nat) : Option Tree :=
  match areSameDecision samples, samples.head? with
  | some same, some s0 =>
    if same = true ∨ JSNum.fin depth = maxDepth then
      some (Tree.Leaf s0.label samples)
    else
      match mostInformativeAttribute parseFloat samples with
      | none => none
      | some (bestAttributeIndex, bestAttributeValue) =>
        let smallerChild := samples.filter (goesLow parseFloat bestAttributeIndex bestAttributeValue)
        let largerChild :=
          samples.filter (fun s => !goesLow parseFloat bestAttributeIndex bestAttributeValue s)
        if _h : smallerChild.length = 0 ∨ largerChild.length = 0 then
          some (Tree.Leaf (jsToString attributes.getLast? ++ ": " ++ s0.label) samples)
        else
          match decisionTree parseFloat maxDepth smallerChild attributes (depth + 1),
                decisionTree parseFloat maxDepth largerChild attributes (depth + 1) with
          | some child0, some child1 =>
            some (Tree.Node (bestAttributeIndex.bind fun i => attributes[i]?) bestAttributeValue
              [child0, child1] bestAttributeIndex)
          | _, _ => none
  | _, _ => none
termination_by samples.length
decreasing_by
  all_goals simp_wf
  all_goals
    have h0 : ¬ ((samples.filter (goesLow parseFloat bestAttributeIndex bestAttributeValue)).length = 0
        ∨ (samples.filter
            (fun s => !goesLow parseFloat bestAttributeIndex bestAttributeValue s)).length = 0) := _h
    have h2 := List.length_eq_length_filter_add
      (goesLow parseFloat bestAttributeIndex bestAttributeValue) (l := samples)
    omega

/-- The function `classify`.  A child that does not exist is `undefined`, and reading
`attributeIndex` of it throws.  `parseFloat(tree.attributeValue)` converts the number
to a string and back, which returns the number itself. -/
def classify (parseFloat : String → JSNum) (sample : Sample) : Tree → Option String
  | Tree.Leaf decision _ => some decision
  | Tree.Node _ _ [] _ => none
  | Tree.Node _ attributeValue [child0] attributeIndex =>
    if JSNum.le (parseField parseFloat (sample.get attributeIndex)) attributeValue then
      classify parseFloat sample child0
    else none
  | Tree.Node _ attributeValue (child0 :: child1 :: _) attributeIndex =>
    if JSNum.le (parseField parseFloat (sample.get attributeIndex)) attributeValue then
      classify parseFloat sample child0
    else classify parseFloat sample child1

/-! ## Vocabulary of the statements -/

/-- The number of attribute columns the selector scans: `samples[0].length - 1`. -/
def attributeNumber (samples : List Sample) : Nat :=
  match samples with
  | [] => 0
  | s0 :: _ => s0.fields.length - 1

/-- The candidates `(column, threshold)` in the order the selector visits them:
column after column, and within a column sample after sample. -/
def candidates (parseFloat : String → JSNum) (samples : List Sample) : List (Nat × JSNum) :=
  (List.range (attributeNumber samples)).flatMap fun i =>
    samples.map fun sample => (i, parseField parseFloat (sample.get (some i)))

/-- Number of samples carrying the label. -/
def labelCount (samples : List Sample) (key : String) : Nat :=
  samples.countP fun s => s.label == key

/-- Number of distinct labels occurring in the samples. -/
def distinctLabels (samples : List Sample) : Nat :=
  (samples.map Sample.label).toFinset.card

/-- All samples carry the same label. -/
def SameLabel (samples : List Sample) : Prop :=
  ∀ s ∈ samples, ∀ t ∈ samples, s.label = t.label

instance (samples : List Sample) : Decidable (SameLabel samples) := by
  unfold SameLabel; infer_instance

/-- A Leaf of a tree: its decision and the samples it retains. -/
structure LeafInfo where
  decision : String
  samples : List Sample

mutual
/-- The Leaves of a tree, from left to right. -/
def Tree.leaves : Tree → List LeafInfo
  | Tree.Leaf decision samples => [⟨decision, samples⟩]
  | Tree.Node _ _ children _ => Tree.leavesOfList children
/-- The Leaves of a list of children. -/
def Tree.leavesOfList : List Tree → List LeafInfo
  | [] => []
  | child :: rest => child.leaves ++ Tree.leavesOfList rest
end

mutual
/-- The height of a tree: the largest number of edges from the root to a Leaf. -/
def Tree.height : Tree → Nat
  | Tree.Leaf _ _ => 0
  | Tree.Node _ _ children _ => Tree.heightOfList children + 1
/-- The largest height among a list of children. -/
def Tree.heightOfList : List Tree → Nat
  | [] => 0
  | child :: rest => max child.height (Tree.heightOfList rest)
end

/-- The invariant of the Nodes of a tree built from `input`: a Leaf retains `input`;
a Node has exactly two children, the first built from the samples of `input` whose
parsed value at the attribute index is `<=` the threshold, the second from the others,
both lists are non-empty and together they are a rearrangement of `input`. -/
def NodesSplit (parseFloat : String → JSNum) : List Sample → Tree → Prop
  | input, Tree.Leaf _ samples => samples = input
  | input, Tree.Node _ v [child0, child1] index =>
    input.filter (fun s => JSNum.le (parseField parseFloat (s.get index)) v) ≠ []
      ∧ input.filter (fun s => !JSNum.le (parseField parseFloat (s.get index)) v) ≠ []
      ∧ (input.filter (fun s => JSNum.le (parseField parseFloat (s.get index)) v)
          ++ input.filter (fun s => !JSNum.le (parseField parseFloat (s.get index)) v)).Perm input
      ∧ NodesSplit parseFloat
          (input.filter (fun s => JSNum.le (parseField parseFloat (s.get index)) v)) child0
      ∧ NodesSplit parseFloat
          (input.filter (fun s => !JSNum.le (parseField parseFloat (s.get index)) v)) child1
  | _, Tree.Node _ _ _ _ => False

/-- The comparison `a < b` on JavaScript numbers: false as soon as one side is `NaN`. -/
def JSNum.lt : JSNum → JSNum → Bool
  | .nan, _ => false
  | _, .nan => false
  | _, .negInf => false
  | .posInf, _ => false
  | .negInf, _ => true
  | _, .posInf => true
  | .fin a, .fin b => decide (a < b)

/-- The invariant `NodesSplit` with the second child described by the comparison
`value > threshold` instead of the failure of `value <= threshold`. -/
def NodesSplitGt (parseFloat : String → JSNum) : List Sample → Tree → Prop
  | input, Tree.Leaf _ samples => samples = input
  | input, Tree.Node _ v [child0, child1] index =>
    input.filter (fun s => JSNum.le (parseField parseFloat (s.get index)) v) ≠ []
      ∧ input.filter (fun s => JSNum.lt v (parseField parseFloat (s.get index))) ≠ []
      ∧ (input.filter (fun s => JSNum.le (parseField parseFloat (s.get index)) v)
          ++ input.filter (fun s => JSNum.lt v (parseField parseFloat (s.get index)))).Perm input
      ∧ NodesSplitGt parseFloat
          (input.filter (fun s => JSNum.le (parseField parseFloat (s.get index)) v)) child0
      ∧ NodesSplitGt parseFloat
          (input.filter (fun s => JSNum.lt v (parseField parseFloat (s.get index)))) child1
  | _, Tree.Node _ _ _ _ => False

/-- A stand-in for `parseFloat` at concrete inputs: the value of a non-empty string
of decimal digits, `NaN` for every other string. -/
def parseDigits (s : String) : JSNum :=
  if s.toList ≠ [] ∧ s.toList.all Char.isDigit = true then
    JSNum.fin ((s.toList.foldl (fun n c => 10 * n + (c.toNat - 48)) 0 : Nat) : ℚ)
  else JSNum.nan

mutual
/-- The Leaves of a tree with their depth, for a root lying at depth `d`. -/
def Tree.leavesAt : Nat → Tree → List (Nat × LeafInfo)
  | d, Tree.Leaf decision samples => [(d, ⟨decision, samples⟩)]
  | d, Tree.Node _ _ children _ => Tree.leavesAtOfList (d + 1) children
/-- The Leaves, with their depth, of a list of children lying at depth `d`. -/
def Tree.leavesAtOfList : Nat → List Tree → List (Nat × LeafInfo)
  | _, [] => []
  | d, child :: rest => child.leavesAt d ++ Tree.leavesAtOfList d rest
end

/-- Thirty-two samples with the same attribute value and pairwise distinct labels. -/
def thirtyTwoLabels : List Sample :=
  [⟨["1"], "c0"⟩, ⟨["1"], "c1"⟩, ⟨["1"], "c2"⟩, ⟨["1"], "c3"⟩,
   ⟨["1"], "c4"⟩, ⟨["1"], "c5"⟩, ⟨["1"], "c6"⟩, ⟨["1"], "c7"⟩,
   ⟨["1"], "c8"⟩, ⟨["1"], "c9"⟩, ⟨["1"], "c10"⟩, ⟨["1"], "c11"⟩,
   ⟨["1"], "c12"⟩, ⟨["1"], "c13"⟩, ⟨["1"], "c14"⟩, ⟨["1"], "c15"⟩,
   ⟨["1"], "c16"⟩, ⟨["1"], "c17"⟩, ⟨["1"], "c18"⟩, ⟨["1"], "c19"⟩,
   ⟨["1"], "c20"⟩, ⟨["1"], "c21"⟩, ⟨["1"], "c22"⟩, ⟨["1"], "c23"⟩,
   ⟨["1"], "c24"⟩, ⟨["1"], "c25"⟩, ⟨["1"], "c26"⟩, ⟨["1"], "c27"⟩,
   ⟨["1"], "c28"⟩, ⟨["1"], "c29"⟩, ⟨["1"], "c30"⟩, ⟨["1"], "c31"⟩]

/-! ## Double-precision arithmetic

A JavaScript number is an IEEE-754 binary64 value.  A finite one is a rational number,
and an arithmetic operation returns the exact result rounded to the nearest double, a
tie going to the double with the even significand.  Overflow to an infinity is not
represented: the operands met here keep every result far below `2 ^ 1024`. -/

/-- Rounding of a rational to the nearest integer, a tie going to the even one. -/
def roundHalfEven (x : ℚ) : ℤ :=
  if x - ⌊x⌋ < 1 / 2 then ⌊x⌋
  else if 1 / 2 < x - ⌊x⌋ then ⌊x⌋ + 1
  else if ⌊x⌋ % 2 = 0 then ⌊x⌋ else ⌊x⌋ + 1

/-- The distance between neighbouring doubles at `q`: `2 ^ (e - 52)` for
`2 ^ e <= |q| < 2 ^ (e + 1)`, and `2 ^ (-1074)` in the subnormal range. -/
def ulp (q : ℚ) : ℚ := 2 ^ (max (Int.log 2 |q|) (-1022) - 52)

/-- The double nearest to the rational `q`. -/
def roundDouble (q : ℚ) : ℚ := (roundHalfEven (q / ulp q) : ℚ) * ulp q

/-- The sum `a + b` of two doubles. -/
def fadd (a b : ℚ) : ℚ := roundDouble (a + b)

/-- The difference `a - b` of two doubles. -/
def fsub (a b : ℚ) : ℚ := roundDouble (a - b)

/-- The product `a * b` of two doubles. -/
def fmul (a b : ℚ) : ℚ := roundDouble (a * b)

/-- The quotient `a / b` of two doubles, for `b` other than zero. -/
def fdiv (a b : ℚ) : ℚ := roundDouble (a / b)

/-! ## divideData -/

/-- A value returned by `Math.random()`: a number `r` with `0 <= r < 1`. -/
structure Draw where
  value : ℚ
  nonneg : 0 ≤ value
  lt_one : value < 1

/-- The function `getRandomInt`, for the value `r` its call of `Math.random()` returns:
the product `r * max`, in general not an integer. -/
def getRandomInt (r : Draw) (max : Nat) : ℚ := r.value * max

/-- The loop of `divideData`; `random n` is the value of the `n`-th call of
`Math.random()`.  `testData.splice(i, 1)` truncates `i` to an index, removes the element
there when there is one, and `[0]` of what it returns is that element or `undefined`
(`none`). -/
def divideLoop (random : Nat → Draw) (targetLength : ℚ) (n : Nat)
    (trainingData : List (Option Sample)) (testData : List Sample) :
    List (Option Sample) × List Sample :=
  if _h : (trainingData.length : ℚ) < targetLength then
    let i := getRandomInt (random n) testData.length
    divideLoop random targetLength (n + 1) (trainingData ++ [testData[⌊i⌋₊]?])
      (testData.eraseIdx ⌊i⌋₊)
  else (trainingData, testData)
termination_by ⌈targetLength⌉₊ - trainingData.length
decreasing_by
  simp_wf
  have hlt := Nat.lt_ceil.2 _h
  omega

/-- The function `divideData`: it returns the pair `[trainingData, testData]`.  The
proportion is a finite double, and `targetLength` is the double product
`samples.length * proportion`. -/
def divideData (random : Nat → Draw) (samples : List Sample) (proportion : ℚ) :
    List (Option Sample) × List Sample :=
  divideLoop random (fmul (samples.length : ℚ) proportion) 0 [] samples

/-- The value of `Math.round(x)`: the integer nearest to `x`, the larger one at a tie. -/
def mathRound (x : ℚ) : ℤ := ⌊x + 1 / 2⌋

/-- The draw 0. -/
def drawZero : Draw := ⟨0, le_refl 0, by norm_num⟩

/-! ## The selector in double-precision arithmetic

The same three functions with every arithmetic operation rounded as the script performs
it.  `Math.log2` is a parameter `log2 : ℚ → ℚ`, the double it returns for a positive
double. -/

/-- The array index a property name stands for, if it is one: the decimal numeral,
without a leading zero, of a natural number below `2 ^ 32 - 1`. -/
def arrayIndex? (key : String) : Option Nat :=
  let cs := key.toList
  if cs = [] ∨ cs.all Char.isDigit = false ∨ (cs.head? = some '0' ∧ cs.length ≠ 1) then none
  else
    let n := cs.foldl (fun n c => 10 * n + (c.toNat - 48)) 0
    if n < 4294967295 then some n else none

/-- The order in which `for ... in` visits the properties of a plain object: the names
that are array indices in ascending numeric order, then the other names in the order of
their creation. -/
def forInOrder (d : Dict) : Dict :=
  (d.filter fun e => (arrayIndex? e.1).isSome).insertionSort
      (fun a b => (arrayIndex? a.1).getD 0 ≤ (arrayIndex? b.1).getD 0)
    ++ d.filter fun e => (arrayIndex? e.1).isNone

/-- The function `entropyOf` in double arithmetic: for every property of
`valueDistribution`, in the order of the `for ... in` loop, the statement
`entropy -= (freq / size) * Math.log2(freq / size)`. -/
def entropyOfD (log2 : ℚ → ℚ) (samples : List Sample) : ℚ :=
  let size : ℚ := samples.length
  (forInOrder (valueDistribution samples)).foldl
    (fun entropy e => fsub entropy (fmul (fdiv e.2 size) (log2 (fdiv e.2 size)))) 0

/-- The function `totalEntropyOfAttribute` in double arithmetic: `entropy = 0` followed
by the two statements `entropy += (list.length / size) * entropyOf(list)`.  For an empty
`samples` both weights are `0 / 0` and the result is `NaN`: `none`. -/
def totalEntropyOfAttributeD (log2 : ℚ → ℚ) (parseFloat : String → JSNum)
    (samples : List Sample) (attrIndex : Nat) (attrLimit : JSNum) : Option ℚ :=
  let size := samples.length
  let smallerList := samples.filter (goesLow parseFloat (some attrIndex) attrLimit)
  let largerList := samples.filter (fun s => !goesLow parseFloat (some attrIndex) attrLimit s)
  if size = 0 then none
  else
    some (fadd (fadd 0 (fmul (fdiv smallerList.length size) (entropyOfD log2 smallerList)))
      (fmul (fdiv largerList.length size) (entropyOfD log2 largerList)))

/-- The three variables the selector updates together, the entropy being a double. -/
structure BestD where
  entropy : ℚ
  bestAttributeIndex : Option Nat
  bestAttributeValue : JSNum

/-- The body of the inner loop of `mostInformativeAttribute` for column `i` and sample
`sample`, the comparison `nextEntropy < entropy` being one of doubles. -/
def selectStepD (log2 : ℚ → ℚ) (parseFloat : String → JSNum) (samples : List Sample) (i : Nat)
    (st : BestD) (sample : Sample) : BestD :=
  let attributeValue := parseField parseFloat (sample.get (some i))
  match totalEntropyOfAttributeD log2 parseFloat samples i attributeValue with
  | some nextEntropy =>
    if nextEntropy < st.entropy then ⟨nextEntropy, some i, attributeValue⟩ else st
  | none => st

/-- The function `mostInformativeAttribute` in double arithmetic; `samples[0].length`
throws for an empty array. -/
def mostInformativeAttributeD (log2 : ℚ → ℚ) (parseFloat : String → JSNum)
    (samples : List Sample) : Option (Option Nat × JSNum) :=
  match samples with
  | [] => none
  | s0 :: _ =>
    let attributeNumber := s0.fields.length - 1
    let st := (List.range attributeNumber).foldl
      (fun st i => samples.foldl (selectStepD log2 parseFloat samples i) st)
      (⟨5, none, JSNum.nan⟩ : BestD)
    some (st.bestAttributeIndex, st.bestAttributeValue)

/-- The body of the inner loop of the double-precision selector, on the pair
`(i, attributeValue)`. -/
def candStepD (log2 : ℚ → ℚ) (parseFloat : String → JSNum) (samples : List Sample)
    (st : BestD) (c : Nat × JSNum) : BestD :=
  match totalEntropyOfAttributeD log2 parseFloat samples c.1 c.2 with
  | some nextEntropy => if nextEntropy < st.entropy then ⟨nextEntropy, some c.1, c.2⟩ else st
  | none => st

/-- A stand-in for `Math.log2` at concrete inputs: the double nearest to the logarithm
at 1/32, at the doubles nearest to 1/7, 1/6, 2/7, 1/3, 3/7 and 2/3, at 1/4, 1/2 and 1,
and 0 at every other argument. -/
def log2Table (x : ℚ) : ℚ :=
  if x = 1 / 32 then -5
  else if x = 2573485501354569 / 18014398509481984 then -6321601290437677 / 2251799813685248
  else if x = 6004799503160661 / 36028797018963968 then -1455204519376813 / 562949953421312
  else if x = 1 / 4 then -2
  else if x = 2573485501354569 / 9007199254740992 then -4069801476752429 / 2251799813685248
  else if x = 6004799503160661 / 18014398509481984 then -7138036527644009 / 4503599627370496
  else if x = 7720456504063707 / 18014398509481984 then -2752583026615673 / 2251799813685248
  else if x = 1 / 2 then -1
  else if x = 6004799503160661 / 9007199254740992 then -2634436900273513 / 4503599627370496
  else if x = 1 then 0
  else 0

/-- Seven samples with two attribute columns on which the candidates `(0, 2)` and
`(1, 1)` have the same weighted entropy `4/7 + (3/7) * log2(3)`. -/
def tieSamples : List Sample :=
  [⟨["2", "1"], "C"⟩, ⟨["2", "1"], "C"⟩, ⟨["2", "9"], "D"⟩, ⟨["2", "1"], "B"⟩,
   ⟨["9", "1"], "B"⟩, ⟨["9", "1"], "A"⟩, ⟨["9", "1"], "B"⟩]

/-! ## The update of the selector as a function of the candidate -/

/-- The body of the inner loop of the selector, on the pair `(i, attributeValue)`. -/
noncomputable def candStep (parseFloat : String → JSNum) (samples : List Sample)
    (st : Best) (c : Nat × JSNum) : Best :=
  match totalEntropyOfAttribute parseFloat samples c.1 c.2 with
  | some nextEntropy => if nextEntropy < st.entropy then ⟨nextEntropy, some c.1, c.2⟩ else st
  | none => st

/-! ## The scan of the selector -/

theorem foldl_selectStep (parseFloat : String → JSNum) (samples : List Sample) (i : Nat)
    (l : List Sample) (st : Best) :
    l.foldl (selectStep parseFloat samples i) st
      = (l.map fun sample => (i, parseField parseFloat (sample.get (some i)))).foldl
          (candStep parseFloat samples) st := by
  induction l generalizing st with
  | nil => rfl
  | cons a t ih => simp only [List.foldl_cons, List.map_cons]; rw [ih]; rfl

theorem foldl_columns (parseFloat : String → JSNum) (samples : List Sample)
    (cols : List Nat) (st : Best) :
    cols.foldl (fun st i => samples.foldl (selectStep parseFloat samples i) st) st
      = (cols.flatMap fun i =>
            samples.map fun sample => (i, parseField parseFloat (sample.get (some i)))).foldl
          (candStep parseFloat samples) st := by
  induction cols generalizing st with
  | nil => rfl
  | cons a t ih =>
    simp only [List.foldl_cons, List.flatMap_cons, List.foldl_append]
    rw [ih, foldl_selectStep]

theorem mostInformativeAttribute_eq (parseFloat : String → JSNum) (samples : List Sample)
    (hne : samples ≠ []) :
    mostInformativeAttribute parseFloat samples
      = some (((candidates parseFloat samples).foldl (candStep parseFloat samples)
                (⟨5, none, JSNum.nan⟩ : Best)).bestAttributeIndex,
              ((candidates parseFloat samples).foldl (candStep parseFloat samples)
                (⟨5, none, JSNum.nan⟩ : Best)).bestAttributeValue) := by
  cases samples with
  | nil => exact absurd rfl hne
  | cons s0 t =>
    simp only [mostInformativeAttribute, candidates, attributeNumber]
    rw [foldl_columns]

/-- The scan keeps the first candidate whose weighted entropy is the least one below
the initial value: either nothing was below it, or the candidates split around the
one kept. -/
theorem foldl_candStep_first_min (parseFloat : String → JSNum) (samples : List Sample)
    (hne : samples ≠ []) (cs : List (Nat × JSNum)) (st : Best) :
    ((cs.foldl (candStep parseFloat samples) st = st) ∧
        ∀ c ∈ cs, ∃ e, totalEntropyOfAttribute parseFloat samples c.1 c.2 = some e
          ∧ st.entropy ≤ e)
    ∨ ∃ pre c post e, cs = pre ++ c :: post
        ∧ cs.foldl (candStep parseFloat samples) st = ⟨e, some c.1, c.2⟩
        ∧ totalEntropyOfAttribute parseFloat samples c.1 c.2 = some e
        ∧ e < st.entropy
        ∧ (∀ x ∈ pre, ∃ e1, totalEntropyOfAttribute parseFloat samples x.1 x.2 = some e1
            ∧ e < e1)
        ∧ (∀ x ∈ post, ∃ e1, totalEntropyOfAttribute parseFloat samples x.1 x.2 = some e1
            ∧ e ≤ e1) := by
  induction cs generalizing st with
  | nil => left; simp
  | cons a t ih =>
    have hsome : ∃ ea, totalEntropyOfAttribute parseFloat samples a.1 a.2 = some ea := by
      have : samples.length ≠ 0 := by simpa using hne
      simp [totalEntropyOfAttribute, this]
    obtain ⟨ea, hea⟩ := hsome
    by_cases hlt : ea < st.entropy
    · have hstep : candStep parseFloat samples st a = ⟨ea, some a.1, a.2⟩ := by
        simp [candStep, hea, hlt]
      rcases ih ⟨ea, some a.1, a.2⟩ with ⟨heq, hall⟩ | ⟨pre, c, post, e, hcs, hres, hce, hlt2, hpre, hpost⟩
      · right
        refine ⟨[], a, t, ea, rfl, ?_, hea, hlt, by simp, ?_⟩
        · simp only [List.foldl_cons, hstep, heq]
        · exact hall
      · right
        refine ⟨a :: pre, c, post, e, by simp [hcs], ?_, hce, lt_trans hlt2 hlt, ?_, hpost⟩
        · simp only [List.foldl_cons, hstep, hres]
        · intro x hx
          rcases List.mem_cons.1 hx with rfl | hx
          · exact ⟨ea, hea, hlt2⟩
          · exact hpre x hx
    · have hstep : candStep parseFloat samples st a = st := by
        simp [candStep, hea, hlt]
      rcases ih st with ⟨heq, hall⟩ | ⟨pre, c, post, e, hcs, hres, hce, hlt2, hpre, hpost⟩
      · left
        refine ⟨by simp only [List.foldl_cons, hstep, heq], ?_⟩
        intro c hc
        rcases List.mem_cons.1 hc with rfl | hc
        · exact ⟨ea, hea, not_lt.1 hlt⟩
        · exact hall c hc
      · right
        refine ⟨a :: pre, c, post, e, by simp [hcs], ?_, hce, hlt2, ?_, hpost⟩
        · simp only [List.foldl_cons, hstep, hres]
        · intro x hx
          rcases List.mem_cons.1 hx with rfl | hx
          · exact ⟨ea, hea, lt_of_lt_of_le hlt2 (not_lt.1 hlt)⟩
          · exact hpre x hx


/-! ## The label dictionary -/

theorem valueKeys_fold_spec (l : List Sample) (acc : List String) (hacc : acc.Nodup) :
    (l.foldl (fun keys sample =>
        if keys.contains sample.label then keys else keys ++ [sample.label]) acc).Nodup
    ∧ ∀ k, k ∈ l.foldl (fun keys sample =>
        if keys.contains sample.label then keys else keys ++ [sample.label]) acc
          ↔ k ∈ acc ∨ ∃ s ∈ l, s.label = k := by
  induction l generalizing acc with
  | nil => simp [hacc]
  | cons a t ih =>
    simp only [List.foldl_cons]
    by_cases hc : acc.contains a.label = true
    · rw [if_pos hc]
      obtain ⟨h1, h2⟩ := ih acc hacc
      refine ⟨h1, fun k => ?_⟩
      rw [h2 k]
      have hmem : a.label ∈ acc := by simpa using hc
      constructor
      · rintro (h | ⟨s, hs, rfl⟩)
        · exact Or.inl h
        · exact Or.inr ⟨s, List.mem_cons_of_mem _ hs, rfl⟩
      · rintro (h | ⟨s, hs, rfl⟩)
        · exact Or.inl h
        · rcases List.mem_cons.1 hs with rfl | hs
          · exact Or.inl hmem
          · exact Or.inr ⟨s, hs, rfl⟩
    · rw [if_neg hc]
      have hmem : a.label ∉ acc := by simpa using hc
      have hnd : (acc ++ [a.label]).Nodup := by
        rw [List.nodup_append]
        refine ⟨hacc, List.nodup_singleton _, ?_⟩
        intro x hx hx2
        rw [List.mem_singleton] at hx2
        exact hmem (hx2 ▸ hx)
      obtain ⟨h1, h2⟩ := ih (acc ++ [a.label]) hnd
      refine ⟨h1, fun k => ?_⟩
      rw [h2 k]
      simp only [List.mem_append, List.mem_singleton, List.mem_cons, List.not_mem_nil, or_false]
      constructor
      · rintro ((h | rfl) | ⟨s, hs, rfl⟩)
        · exact Or.inl h
        · exact Or.inr ⟨a, Or.inl rfl, rfl⟩
        · exact Or.inr ⟨s, Or.inr hs, rfl⟩
      · rintro (h | ⟨s, (rfl | hs), rfl⟩)
        · exact Or.inl (Or.inl h)
        · exact Or.inl (Or.inr rfl)
        · exact Or.inr ⟨s, hs, rfl⟩

theorem valueKeys_nodup (samples : List Sample) : (valueKeys samples).Nodup :=
  (valueKeys_fold_spec samples [] List.nodup_nil).1

theorem mem_valueKeys (samples : List Sample) (k : String) :
    k ∈ valueKeys samples ↔ ∃ s ∈ samples, s.label = k := by
  have := (valueKeys_fold_spec samples [] List.nodup_nil).2 k
  simpa [valueKeys] using this

theorem sortKeys_perm (keys : List String) : (sortKeys keys).Perm keys :=
  List.perm_insertionSort _ _

theorem Dict.set_fresh (d : Dict) (key : String) (v : Nat) (hp : key ≠ "__proto__")
    (hk : key ∉ d.map Prod.fst) : d.set key v = d ++ [(key, v)] := by
  unfold Dict.set
  rw [if_neg hp, if_neg]
  simp only [List.any_eq_true, beq_iff_eq, not_exists, not_and]
  intro e he heq
  exact hk (List.mem_map.2 ⟨e, he, heq⟩)

theorem Dict.set_append_fresh (d : Dict) (key : String) (c v : Nat) (hp : key ≠ "__proto__")
    (hk : key ∉ d.map Prod.fst) : (d ++ [(key, c)]).set key v = d ++ [(key, v)] := by
  unfold Dict.set
  rw [if_neg hp, if_pos (by simp)]
  rw [List.map_append]
  congr 1
  · conv_rhs => rw [← List.map_id d]
    apply List.map_congr_left
    intro e he
    have : e.1 ≠ key := fun h => hk (List.mem_map.2 ⟨e, he, h⟩)
    simp [this]
  · simp

theorem Dict.get_append_fresh (d : Dict) (key : String) (c : Nat)
    (hk : key ∉ d.map Prod.fst) : (d ++ [(key, c)]).get key = c := by
  unfold Dict.get
  have h1 : d.find? (fun e => e.1 == key) = none := by
    rw [List.find?_eq_none]
    intro e he
    have : e.1 ≠ key := fun h => hk (List.mem_map.2 ⟨e, he, h⟩)
    simp [this]
  rw [List.find?_append, h1]
  simp

theorem inner_count (samples : List Sample) (d : Dict) (key : String) (c : Nat)
    (hp : key ≠ "__proto__") (hk : key ∉ d.map Prod.fst) :
    samples.foldl
        (fun dist sample => if sample.label == key then dist.set key (dist.get key + 1) else dist)
        (d ++ [(key, c)])
      = d ++ [(key, c + labelCount samples key)] := by
  induction samples generalizing c with
  | nil => simp [labelCount]
  | cons a t ih =>
    simp only [List.foldl_cons]
    by_cases ha : (a.label == key) = true
    · rw [if_pos ha, Dict.get_append_fresh d key c hk, Dict.set_append_fresh d key c _ hp hk, ih]
      simp [labelCount, List.countP_cons, ha]
      omega
    · rw [if_neg ha, ih]
      simp [labelCount, List.countP_cons, ha]

theorem inner_proto (samples : List Sample) (d : Dict) :
    samples.foldl
        (fun dist sample =>
          if sample.label == "__proto__" then dist.set "__proto__" (dist.get "__proto__" + 1)
          else dist) d = d := by
  induction samples with
  | nil => rfl
  | cons a t ih =>
    simp only [List.foldl_cons]
    have : d.set "__proto__" (d.get "__proto__" + 1) = d := by simp [Dict.set]
    rw [this]
    simpa using ih

theorem outer_dict (samples : List Sample) (keys : List String) (d : Dict)
    (hnd : keys.Nodup) (hdis : ∀ k ∈ keys, k ∉ d.map Prod.fst) :
    keys.foldl
        (fun dist key =>
          samples.foldl
            (fun dist sample =>
              if sample.label == key then dist.set key (dist.get key + 1) else dist)
            (dist.set key 0)) d
      = d ++ (keys.filter fun k => k != "__proto__").map fun k => (k, labelCount samples k) := by
  induction keys generalizing d with
  | nil => simp
  | cons a t ih =>
    simp only [List.foldl_cons]
    have hat : a ∉ t := (List.nodup_cons.1 hnd).1
    have hnt : t.Nodup := (List.nodup_cons.1 hnd).2
    by_cases hp : a = "__proto__"
    · subst hp
      have h0 : d.set "__proto__" 0 = d := by simp [Dict.set]
      rw [h0, inner_proto, ih d hnt (fun k hk => hdis k (List.mem_cons_of_mem _ hk))]
      simp
    · have ha : a ∉ d.map Prod.fst := hdis a (List.mem_cons_self _ _)
      rw [Dict.set_fresh d a 0 hp ha, inner_count samples d a 0 hp ha, ih _ hnt]
      · simp [hp]
      · intro k hk
        simp only [List.map_append, List.map_cons, List.map_nil, List.mem_append,
          List.mem_singleton, not_or]
        refine ⟨hdis k (List.mem_cons_of_mem _ hk), ?_⟩
        rintro rfl
        exact hat hk

theorem valueDistribution_eq (samples : List Sample) :
    valueDistribution samples
      = ((sortKeys (valueKeys samples)).filter fun k => k != "__proto__").map
          fun k => (k, labelCount samples k) := by
  unfold valueDistribution
  rw [outer_dict samples _ [] ((sortKeys_perm _).nodup_iff.2 (valueKeys_nodup samples))
    (by simp)]
  simp


/-! ## The entropy as a sum over the observed labels -/

theorem foldl_sub_eq (l : List (String × Nat)) (g : String × Nat → ℝ) (a : ℝ) :
    l.foldl (fun e x => e - g x) a = a - (l.map g).sum := by
  induction l generalizing a with
  | nil => simp
  | cons x t ih => simp only [List.foldl_cons, List.map_cons, List.sum_cons]; rw [ih]; ring

theorem entropyOf_eq_sum (samples : List Sample) :
    entropyOf samples
      = - ∑ k in (samples.map Sample.label).toFinset.filter (fun k => k ≠ "__proto__"),
          ((labelCount samples k : ℝ) / (samples.length : ℝ))
            * Real.logb 2 ((labelCount samples k : ℝ) / (samples.length : ℝ)) := by
  unfold entropyOf
  simp only []
  rw [valueDistribution_eq, foldl_sub_eq, List.map_map, zero_sub]
  congr 1
  have hnd : ((sortKeys (valueKeys samples)).filter fun k => k != "__proto__").Nodup :=
    List.Nodup.filter _ ((sortKeys_perm _).nodup_iff.2 (valueKeys_nodup samples))
  have hset : ((sortKeys (valueKeys samples)).filter fun k => k != "__proto__").toFinset
      = (samples.map Sample.label).toFinset.filter (fun k => k ≠ "__proto__") := by
    ext k
    simp only [List.mem_toFinset, List.mem_filter, Finset.mem_filter, (sortKeys_perm _).mem_iff,
      mem_valueKeys, List.mem_map, bne_iff_ne, ne_eq]
  rw [← hset, List.sum_toFinset _ hnd]
  rfl

theorem labelCount_le (samples : List Sample) (k : String) :
    labelCount samples k ≤ samples.length := List.countP_le_length _

theorem labelCount_pos (samples : List Sample) (k : String)
    (hk : k ∈ (samples.map Sample.label).toFinset) : 0 < labelCount samples k := by
  rw [List.mem_toFinset, List.mem_map] at hk
  obtain ⟨s, hs, rfl⟩ := hk
  exact List.countP_pos_iff.2 ⟨s, hs, by simp⟩

theorem labelCount_eq_length_iff (samples : List Sample) (k : String) :
    labelCount samples k = samples.length ↔ ∀ s ∈ samples, s.label = k := by
  unfold labelCount
  rw [List.countP_eq_length]
  simp

theorem sum_labelCount (samples : List Sample) :
    ∑ k in (samples.map Sample.label).toFinset, labelCount samples k = samples.length := by
  have h := List.sum_toFinset_count_eq_length (samples.map Sample.label)
  rw [List.length_map] at h
  rw [← h]
  apply Finset.sum_congr rfl
  intro k _
  unfold labelCount
  rw [List.count, List.countP_map]
  rfl

theorem term_nonpos (c n : Nat) (hc : 0 < c) (hcn : c ≤ n) :
    ((c : ℝ) / (n : ℝ)) * Real.logb 2 ((c : ℝ) / (n : ℝ)) ≤ 0 := by
  have hn : (0 : ℝ) < n := by exact_mod_cast lt_of_lt_of_le hc hcn
  have hp : (0 : ℝ) < (c : ℝ) / n := div_pos (by exact_mod_cast hc) hn
  have hp1 : (c : ℝ) / n ≤ 1 := by
    rw [div_le_one hn]; exact_mod_cast hcn
  exact mul_nonpos_of_nonneg_of_nonpos hp.le (Real.logb_nonpos (by norm_num) hp.le hp1)

theorem term_eq_zero_iff (c n : Nat) (hc : 0 < c) (hcn : c ≤ n) :
    ((c : ℝ) / (n : ℝ)) * Real.logb 2 ((c : ℝ) / (n : ℝ)) = 0 ↔ c = n := by
  have hn : (0 : ℝ) < n := by exact_mod_cast lt_of_lt_of_le hc hcn
  have hp : (0 : ℝ) < (c : ℝ) / n := div_pos (by exact_mod_cast hc) hn
  constructor
  · intro h
    rcases mul_eq_zero.1 h with h0 | h0
    · exact absurd h0 hp.ne'
    · by_contra hne
      have hlt : c < n := lt_of_le_of_ne hcn hne
      have hp1 : (c : ℝ) / n < 1 := by
        rw [div_lt_one hn]; exact_mod_cast hlt
      have := Real.logb_neg (b := 2) (by norm_num) hp hp1
      linarith
  · rintro rfl
    rw [div_self hn.ne']
    simp

theorem entropyOf_nonneg (samples : List Sample) : 0 ≤ entropyOf samples := by
  rw [entropyOf_eq_sum, neg_nonneg]
  apply Finset.sum_nonpos
  intro k hk
  exact term_nonpos _ _ (labelCount_pos samples k (Finset.mem_filter.1 hk).1)
    (labelCount_le samples k)

theorem entropyOf_eq_zero_iff_sameLabel (samples : List Sample) :
    entropyOf samples = 0 ↔ SameLabel samples := by
  rw [entropyOf_eq_sum, neg_eq_zero]
  constructor
  · intro h
    have hall := (Finset.sum_eq_zero_iff_of_nonpos (fun k hk =>
      term_nonpos _ _ (labelCount_pos samples k (Finset.mem_filter.1 hk).1)
        (labelCount_le samples k))).1 h
    by_cases hex : ∃ s ∈ samples, s.label ≠ "__proto__"
    · obtain ⟨s0, hs0, hne0⟩ := hex
      have hmem : s0.label ∈ (samples.map Sample.label).toFinset.filter
          (fun k => k ≠ "__proto__") := by
        simp only [Finset.mem_filter, List.mem_toFinset, List.mem_map]
        exact ⟨⟨s0, hs0, rfl⟩, hne0⟩
      have h1 := hall _ hmem
      rw [term_eq_zero_iff _ _ (labelCount_pos samples _ (Finset.mem_filter.1 hmem).1)
        (labelCount_le samples _), labelCount_eq_length_iff] at h1
      intro s hs t ht
      rw [h1 s hs, h1 t ht]
    · have hp : ∀ s ∈ samples, s.label = "__proto__" := by
        intro s hs
        by_contra hne
        exact hex ⟨s, hs, hne⟩
      intro s hs t ht
      rw [hp s hs, hp t ht]
  · intro hsame
    apply Finset.sum_eq_zero
    intro k hk
    have hk1 := (Finset.mem_filter.1 hk).1
    rw [term_eq_zero_iff _ _ (labelCount_pos samples k hk1) (labelCount_le samples k),
      labelCount_eq_length_iff]
    rw [List.mem_toFinset, List.mem_map] at hk1
    obtain ⟨s0, hs0, rfl⟩ := hk1
    intro s hs
    exact hsame s hs s0 hs0


theorem sum_prob_eq_one (samples : List Sample) (hne : samples ≠ []) :
    ∑ k in (samples.map Sample.label).toFinset,
        (labelCount samples k : ℝ) / (samples.length : ℝ) = 1 := by
  have hn : (samples.length : ℝ) ≠ 0 := by
    have : samples.length ≠ 0 := by simpa using hne
    exact_mod_cast this
  rw [← Finset.sum_div, ← Nat.cast_sum, sum_labelCount, div_self hn]

theorem gibbs_term (p m : ℝ) (hp : 0 < p) (hm : 0 < m) :
    -(p * Real.log p) - p * Real.log m ≤ 1 / m - p := by
  have h1 : Real.log (1 / (m * p)) ≤ 1 / (m * p) - 1 :=
    Real.log_le_sub_one_of_pos (by positivity)
  have h2 : Real.log (1 / (m * p)) = -(Real.log m + Real.log p) := by
    rw [one_div, Real.log_inv, Real.log_mul hm.ne' hp.ne']
  rw [h2] at h1
  have h3 := mul_le_mul_of_nonneg_left h1 hp.le
  have h4 : p * (1 / (m * p) - 1) = 1 / m - p := by
    field_simp
    ring
  rw [h4] at h3
  linarith

theorem full_entropy_le (samples : List Sample) (hne : samples ≠ []) :
    - ∑ k in (samples.map Sample.label).toFinset,
        ((labelCount samples k : ℝ) / (samples.length : ℝ))
          * Real.logb 2 ((labelCount samples k : ℝ) / (samples.length : ℝ))
      ≤ Real.logb 2 (distinctLabels samples) := by
  have hlen : 0 < samples.length := List.length_pos.2 hne
  have hn : (0 : ℝ) < samples.length := by exact_mod_cast hlen
  have hcard : 0 < distinctLabels samples := by
    unfold distinctLabels
    rw [Finset.card_pos]
    obtain ⟨s, hs⟩ := List.exists_mem_of_ne_nil samples hne
    exact ⟨s.label, by simp only [List.mem_toFinset, List.mem_map]; exact ⟨s, hs, rfl⟩⟩
  have hm : (0 : ℝ) < distinctLabels samples := by exact_mod_cast hcard
  have hlog2 : 0 < Real.log 2 := Real.log_pos (by norm_num)
  have hsum : ∑ k in (samples.map Sample.label).toFinset,
      (-(((labelCount samples k : ℝ) / (samples.length : ℝ))
          * Real.log ((labelCount samples k : ℝ) / (samples.length : ℝ)))
        - ((labelCount samples k : ℝ) / (samples.length : ℝ))
          * Real.log (distinctLabels samples))
      ≤ ∑ k in (samples.map Sample.label).toFinset,
          (1 / (distinctLabels samples : ℝ)
            - (labelCount samples k : ℝ) / (samples.length : ℝ)) := by
    apply Finset.sum_le_sum
    intro k hk
    exact gibbs_term _ _
      (div_pos (by exact_mod_cast labelCount_pos samples k hk) hn) hm
  rw [Finset.sum_sub_distrib, Finset.sum_sub_distrib, ← Finset.sum_mul,
    sum_prob_eq_one samples hne, Finset.sum_const, one_mul, Finset.sum_neg_distrib] at hsum
  have hc : (samples.map Sample.label).toFinset.card • (1 / (distinctLabels samples : ℝ)) = 1 := by
    rw [nsmul_eq_mul]
    unfold distinctLabels at hm ⊢
    field_simp
  rw [hc] at hsum
  have hle : - ∑ k in (samples.map Sample.label).toFinset,
      ((labelCount samples k : ℝ) / (samples.length : ℝ))
        * Real.log ((labelCount samples k : ℝ) / (samples.length : ℝ))
      ≤ Real.log (distinctLabels samples) := by linarith
  have hconv : ∑ k in (samples.map Sample.label).toFinset,
      ((labelCount samples k : ℝ) / (samples.length : ℝ))
        * Real.logb 2 ((labelCount samples k : ℝ) / (samples.length : ℝ))
      = (∑ k in (samples.map Sample.label).toFinset,
          ((labelCount samples k : ℝ) / (samples.length : ℝ))
            * Real.log ((labelCount samples k : ℝ) / (samples.length : ℝ))) / Real.log 2 := by
    rw [Finset.sum_div]
    apply Finset.sum_congr rfl
    intro k _
    rw [Real.logb, mul_div_assoc]
  rw [hconv, Real.logb, ← neg_div]
  exact div_le_div_of_nonneg_right hle hlog2.le

theorem entropyOf_le_logb (samples : List Sample) (hne : samples ≠ []) :
    entropyOf samples ≤ Real.logb 2 (distinctLabels samples) := by
  refine le_trans ?_ (full_entropy_le samples hne)
  rw [entropyOf_eq_sum, neg_le_neg_iff]
  have hsub : (samples.map Sample.label).toFinset.filter (fun k => k ≠ "__proto__")
      ⊆ (samples.map Sample.label).toFinset := Finset.filter_subset _ _
  rw [← Finset.sum_sdiff hsub]
  have hrest : ∑ k in (samples.map Sample.label).toFinset \
        (samples.map Sample.label).toFinset.filter (fun k => k ≠ "__proto__"),
      ((labelCount samples k : ℝ) / (samples.length : ℝ))
        * Real.logb 2 ((labelCount samples k : ℝ) / (samples.length : ℝ)) ≤ 0 := by
    apply Finset.sum_nonpos
    intro k hk
    exact term_nonpos _ _ (labelCount_pos samples k (Finset.mem_sdiff.1 hk).1)
      (labelCount_le samples k)
  linarith


/-! ## The recursion of the builder -/

theorem foldl_same (x : String) (l : List Sample) (b : Bool) :
    l.foldl (fun same sample => if sample.label ≠ x then false else same) b
      = (b && l.all fun s => s.label == x) := by
  induction l generalizing b with
  | nil => simp
  | cons a t ih =>
    simp only [List.foldl_cons, List.all_cons]
    rw [ih]
    by_cases h : a.label = x <;> simp [h]

theorem areSameDecision_cons (s0 : Sample) (rest : List Sample) :
    areSameDecision (s0 :: rest) = some (decide (SameLabel (s0 :: rest))) := by
  simp only [areSameDecision, foldl_same, Bool.true_and, Option.some.injEq]
  rw [Bool.eq_iff_iff]
  simp only [List.all_eq_true, beq_iff_eq, decide_eq_true_eq, SameLabel]
  constructor
  · intro h s hs t ht
    rw [h s hs, h t ht]
  · intro h s hs
    exact h s hs s0 (List.mem_cons_self _ _)

/-- The three ways `decisionTree` returns, as an induction principle: every non-empty
input yields a tree, and a property that holds for the two kinds of Leaf and passes
from the two children to the Node holds for the tree. -/
theorem decisionTree_cases (parseFloat : String → JSNum) (maxDepth : JSNum)
    (attributes : List String) (P : List Sample → Nat → Tree → Prop)
    (hleaf : ∀ (s0 : Sample) (rest : List Sample) (depth : Nat),
      SameLabel (s0 :: rest) ∨ JSNum.fin depth = maxDepth →
      P (s0 :: rest) depth (Tree.Leaf s0.label (s0 :: rest)))
    (hfall : ∀ (s0 : Sample) (rest : List Sample) (depth : Nat) (i : Option Nat) (v : JSNum),
      ¬ SameLabel (s0 :: rest) → JSNum.fin depth ≠ maxDepth →
      mostInformativeAttribute parseFloat (s0 :: rest) = some (i, v) →
      ((s0 :: rest).filter (goesLow parseFloat i v) = []
        ∨ (s0 :: rest).filter (fun s => !goesLow parseFloat i v s) = []) →
      P (s0 :: rest) depth
        (Tree.Leaf (jsToString attributes.getLast? ++ ": " ++ s0.label) (s0 :: rest)))
    (hnode : ∀ (s0 : Sample) (rest : List Sample) (depth : Nat) (i : Option Nat) (v : JSNum)
      (child0 child1 : Tree),
      ¬ SameLabel (s0 :: rest) → JSNum.fin depth ≠ maxDepth →
      mostInformativeAttribute parseFloat (s0 :: rest) = some (i, v) →
      (s0 :: rest).filter (goesLow parseFloat i v) ≠ [] →
      (s0 :: rest).filter (fun s => !goesLow parseFloat i v s) ≠ [] →
      P ((s0 :: rest).filter (goesLow parseFloat i v)) (depth + 1) child0 →
      P ((s0 :: rest).filter (fun s => !goesLow parseFloat i v s)) (depth + 1) child1 →
      P (s0 :: rest) depth
        (Tree.Node (i.bind fun j => attributes[j]?) v [child0, child1] i))
    (samples : List Sample) (depth : Nat) (hne : samples ≠ []) :
    ∃ t, decisionTree parseFloat maxDepth samples attributes depth = some t
      ∧ P samples depth t := by
  obtain ⟨n, hlen⟩ : ∃ n, samples.length = n := ⟨_, rfl⟩
  induction n using Nat.strong_induction_on generalizing samples depth with
  | _ n ih =>
    cases samples with
    | nil => exact absurd rfl hne
    | cons s0 rest =>
      rw [decisionTree]
      simp only [List.head?_cons, areSameDecision_cons, decide_eq_true_eq]
      by_cases hstop : SameLabel (s0 :: rest) ∨ JSNum.fin depth = maxDepth
      · rw [if_pos hstop]
        exact ⟨_, rfl, hleaf s0 rest depth hstop⟩
      · rw [if_neg hstop]
        rw [not_or] at hstop
        obtain ⟨⟨i, v⟩, hsel⟩ : ∃ r, mostInformativeAttribute parseFloat (s0 :: rest) = some r :=
          ⟨_, mostInformativeAttribute_eq parseFloat (s0 :: rest) (by simp)⟩
        rw [hsel]
        simp only []
        by_cases hdeg : ((s0 :: rest).filter (goesLow parseFloat i v)).length = 0
            ∨ ((s0 :: rest).filter (fun s => !goesLow parseFloat i v s)).length = 0
        · rw [dif_pos hdeg]
          refine ⟨_, rfl, hfall s0 rest depth i v hstop.1 hstop.2 hsel ?_⟩
          simpa only [List.length_eq_zero] using hdeg
        · rw [dif_neg hdeg]
          have hdeg2 := hdeg
          simp only [List.length_eq_zero, not_or] at hdeg2
          have hsum := List.length_eq_length_filter_add (goesLow parseFloat i v)
            (l := s0 :: rest)
          have hl0 : 0 < ((s0 :: rest).filter (goesLow parseFloat i v)).length :=
            List.length_pos.2 hdeg2.1
          have hl1 : 0 < ((s0 :: rest).filter (fun s => !goesLow parseFloat i v s)).length :=
            List.length_pos.2 hdeg2.2
          obtain ⟨c0, hc0, hP0⟩ := ih _ (by omega) _ (depth + 1) hdeg2.1 rfl
          obtain ⟨c1, hc1, hP1⟩ := ih _ (by omega) _ (depth + 1) hdeg2.2 rfl
          rw [hc0, hc1]
          exact ⟨_, rfl, hnode s0 rest depth i v c0 c1 hstop.1 hstop.2 hsel hdeg2.1 hdeg2.2
            hP0 hP1⟩

/-! ## The split evaluator -/

theorem totalEntropyOfAttribute_eq (parseFloat : String → JSNum) (samples : List Sample)
    (attrIndex : Nat) (attrLimit : JSNum) (hne : samples ≠ []) :
    totalEntropyOfAttribute parseFloat samples attrIndex attrLimit
      = some (((samples.filter (goesLow parseFloat (some attrIndex) attrLimit)).length : ℝ)
                / (samples.length : ℝ)
              * entropyOf (samples.filter (goesLow parseFloat (some attrIndex) attrLimit))
            + ((samples.filter
                  (fun s => !goesLow parseFloat (some attrIndex) attrLimit s)).length : ℝ)
                / (samples.length : ℝ)
              * entropyOf (samples.filter
                  (fun s => !goesLow parseFloat (some attrIndex) attrLimit s))) := by
  have hlen : samples.length ≠ 0 := by simpa using hne
  simp only [totalEntropyOfAttribute, if_neg hlen, zero_add]

theorem totalEntropyOfAttribute_nonneg (parseFloat : String → JSNum) (samples : List Sample)
    (attrIndex : Nat) (attrLimit : JSNum) (e : ℝ)
    (he : totalEntropyOfAttribute parseFloat samples attrIndex attrLimit = some e) : 0 ≤ e := by
  by_cases hne : samples = []
  · subst hne
    simp [totalEntropyOfAttribute] at he
  · rw [totalEntropyOfAttribute_eq parseFloat samples attrIndex attrLimit hne] at he
    injection he with he
    rw [← he]
    have h1 := entropyOf_nonneg (samples.filter (goesLow parseFloat (some attrIndex) attrLimit))
    have h2 := entropyOf_nonneg
      (samples.filter (fun s => !goesLow parseFloat (some attrIndex) attrLimit s))
    positivity

theorem sameLabel_filter (samples : List Sample) (p : Sample → Bool) (h : SameLabel samples) :
    SameLabel (samples.filter p) :=
  fun s hs t ht => h s (List.mem_of_mem_filter hs) t (List.mem_of_mem_filter ht)

theorem totalEntropyOfAttribute_of_pure_sides (parseFloat : String → JSNum)
    (samples : List Sample) (attrIndex : Nat) (attrLimit : JSNum) (hne : samples ≠ [])
    (hlow : SameLabel (samples.filter (goesLow parseFloat (some attrIndex) attrLimit)))
    (hhigh : SameLabel
      (samples.filter (fun s => !goesLow parseFloat (some attrIndex) attrLimit s))) :
    totalEntropyOfAttribute parseFloat samples attrIndex attrLimit = some 0 := by
  rw [totalEntropyOfAttribute_eq parseFloat samples attrIndex attrLimit hne,
    (entropyOf_eq_zero_iff_sameLabel _).2 hlow, (entropyOf_eq_zero_iff_sameLabel _).2 hhigh]
  simp

theorem mem_candidates (parseFloat : String → JSNum) (samples : List Sample) (c : Nat × JSNum) :
    c ∈ candidates parseFloat samples
      ↔ c.1 < attributeNumber samples
        ∧ ∃ s ∈ samples, c.2 = parseField parseFloat (s.get (some c.1)) := by
  obtain ⟨i, v⟩ := c
  simp only [candidates, List.mem_flatMap, List.mem_range, List.mem_map, Prod.mk.injEq]
  constructor
  · rintro ⟨j, hj, s, hs, rfl, rfl⟩
    exact ⟨hj, s, hs, rfl⟩
  · rintro ⟨hj, s, hs, hv⟩
    exact ⟨i, hj, s, hs, rfl, hv.symm⟩

/-! ## The equations of the builder and of the tree functions -/

theorem decisionTree_stop (parseFloat : String → JSNum) (maxDepth : JSNum) (s0 : Sample)
    (rest : List Sample) (attributes : List String) (depth : Nat)
    (h : SameLabel (s0 :: rest) ∨ JSNum.fin depth = maxDepth) :
    decisionTree parseFloat maxDepth (s0 :: rest) attributes depth
      = some (Tree.Leaf s0.label (s0 :: rest)) := by
  rw [decisionTree]
  simp only [List.head?_cons, areSameDecision_cons, decide_eq_true_eq]
  rw [if_pos h]

theorem decisionTree_node (parseFloat : String → JSNum) (maxDepth : JSNum) (s0 : Sample)
    (rest : List Sample) (attributes : List String) (depth : Nat) (i : Option Nat) (v : JSNum)
    (child0 child1 : Tree)
    (hsame : ¬ SameLabel (s0 :: rest)) (hdepth : JSNum.fin depth ≠ maxDepth)
    (hsel : mostInformativeAttribute parseFloat (s0 :: rest) = some (i, v))
    (hlow : (s0 :: rest).filter (goesLow parseFloat i v) ≠ [])
    (hhigh : (s0 :: rest).filter (fun s => !goesLow parseFloat i v s) ≠ [])
    (h0 : decisionTree parseFloat maxDepth ((s0 :: rest).filter (goesLow parseFloat i v))
      attributes (depth + 1) = some child0)
    (h1 : decisionTree parseFloat maxDepth
      ((s0 :: rest).filter (fun s => !goesLow parseFloat i v s)) attributes (depth + 1)
        = some child1) :
    decisionTree parseFloat maxDepth (s0 :: rest) attributes depth
      = some (Tree.Node (i.bind fun j => attributes[j]?) v [child0, child1] i) := by
  rw [decisionTree]
  simp only [List.head?_cons, areSameDecision_cons, decide_eq_true_eq]
  rw [if_neg (not_or.2 ⟨hsame, hdepth⟩), hsel]
  simp only []
  rw [dif_neg (by simp only [List.length_eq_zero, not_or]; exact ⟨hlow, hhigh⟩), h0, h1]

theorem leaves_leaf (decision : String) (samples : List Sample) :
    (Tree.Leaf decision samples).leaves = [⟨decision, samples⟩] := by
  simp [Tree.leaves]

theorem leaves_node (a : Option String) (v : JSNum) (child0 child1 : Tree) (i : Option Nat) :
    (Tree.Node a v [child0, child1] i).leaves = child0.leaves ++ child1.leaves := by
  simp [Tree.leaves, Tree.leavesOfList]

theorem height_node (a : Option String) (v : JSNum) (child0 child1 : Tree) (i : Option Nat) :
    (Tree.Node a v [child0, child1] i).height = max child0.height child1.height + 1 := by
  simp [Tree.height, Tree.heightOfList]

theorem classify_node (parseFloat : String → JSNum) (sample : Sample) (a : Option String)
    (v : JSNum) (child0 child1 : Tree) (i : Option Nat) :
    classify parseFloat sample (Tree.Node a v [child0, child1] i)
      = if goesLow parseFloat i v sample = true then classify parseFloat sample child0
        else classify parseFloat sample child1 := by
  simp [classify, goesLow]

theorem foldl_candStep_zero (parseFloat : String → JSNum) (samples : List Sample)
    (cs : List (Nat × JSNum)) (st : Best) (h0 : st.entropy = 0) :
    cs.foldl (candStep parseFloat samples) st = st := by
  induction cs with
  | nil => rfl
  | cons a t ih =>
    have hstep : candStep parseFloat samples st a = st := by
      unfold candStep
      cases he : totalEntropyOfAttribute parseFloat samples a.1 a.2 with
      | none => rfl
      | some e =>
        have hnn := totalEntropyOfAttribute_nonneg parseFloat samples a.1 a.2 e he
        simp only []
        rw [if_neg (by rw [h0]; exact not_lt.2 hnn)]
    rw [List.foldl_cons, hstep, ih]

theorem filter_not_eq_self_of_filter_eq_nil (samples : List Sample) (p : Sample → Bool)
    (h : samples.filter p = []) : samples.filter (fun s => !p s) = samples := by
  rw [List.filter_eq_self]
  intro s hs
  have := (List.filter_eq_nil_iff.1 h) s hs
  simpa using this

theorem filter_eq_self_of_filter_not_eq_nil (samples : List Sample) (p : Sample → Bool)
    (h : samples.filter (fun s => !p s) = []) : samples.filter p = samples := by
  rw [List.filter_eq_self]
  intro s hs
  have := (List.filter_eq_nil_iff.1 h) s hs
  simpa using this

/-! ## The error and fallback paths -/

theorem decisionTree_nil (parseFloat : String → JSNum) (maxDepth : JSNum)
    (attributes : List String) (depth : Nat) :
    decisionTree parseFloat maxDepth [] attributes depth = none := by
  rw [decisionTree]
  simp [areSameDecision]

theorem decisionTree_fallback (parseFloat : String → JSNum) (maxDepth : JSNum) (s0 : Sample)
    (rest : List Sample) (attributes : List String) (depth : Nat) (i : Option Nat) (v : JSNum)
    (hsame : ¬ SameLabel (s0 :: rest)) (hdepth : JSNum.fin depth ≠ maxDepth)
    (hsel : mostInformativeAttribute parseFloat (s0 :: rest) = some (i, v))
    (hdeg : (s0 :: rest).filter (goesLow parseFloat i v) = []
      ∨ (s0 :: rest).filter (fun s => !goesLow parseFloat i v s) = []) :
    decisionTree parseFloat maxDepth (s0 :: rest) attributes depth
      = some (Tree.Leaf (jsToString attributes.getLast? ++ ": " ++ s0.label) (s0 :: rest)) := by
  rw [decisionTree]
  simp only [List.head?_cons, areSameDecision_cons, decide_eq_true_eq]
  rw [if_neg (not_or.2 ⟨hsame, hdepth⟩), hsel]
  simp only []
  rw [dif_pos (by simpa only [List.length_eq_zero] using hdeg)]

theorem mostInformativeAttribute_no_column (parseFloat : String → JSNum)
    (samples : List Sample) (hne : samples ≠ []) (hcol : attributeNumber samples = 0) :
    mostInformativeAttribute parseFloat samples = some (none, JSNum.nan) := by
  rw [mostInformativeAttribute_eq parseFloat samples hne]
  simp [candidates, hcol]

theorem goesLow_nan_index (parseFloat : String → JSNum) (v : JSNum) (s : Sample) :
    goesLow parseFloat none v s = false := by
  simp [goesLow, Sample.get, parseField, JSNum.le]

theorem goesLow_of_nan (parseFloat : String → JSNum) (i : Option Nat) (v : JSNum) (s : Sample)
    (h : parseField parseFloat (s.get i) = JSNum.nan) : goesLow parseFloat i v s = false := by
  simp [goesLow, h, JSNum.le]

theorem JSNum.le_self (v : JSNum) (h : v ≠ JSNum.nan) : JSNum.le v v = true := by
  cases v with
  | nan => exact absurd rfl h
  | negInf => rfl
  | fin q => simp [JSNum.le]
  | posInf => rfl
/-! ## The bound on the weighted entropy and the outcome of the scan -/

theorem distinctLabels_pos (samples : List Sample) (hne : samples ≠ []) :
    0 < distinctLabels samples := by
  unfold distinctLabels
  rw [Finset.card_pos]
  obtain ⟨s, hs⟩ := List.exists_mem_of_ne_nil samples hne
  exact ⟨s.label, by simp only [List.mem_toFinset, List.mem_map]; exact ⟨s, hs, rfl⟩⟩

theorem distinctLabels_filter_le (samples : List Sample) (p : Sample → Bool) :
    distinctLabels (samples.filter p) ≤ distinctLabels samples := by
  unfold distinctLabels
  apply Finset.card_le_card
  intro k hk
  simp only [List.mem_toFinset, List.mem_map] at hk ⊢
  obtain ⟨s, hs, rfl⟩ := hk
  exact ⟨s, List.mem_of_mem_filter hs, rfl⟩

theorem entropyOf_filter_le (samples : List Sample) (p : Sample → Bool) (hne : samples ≠ []) :
    entropyOf (samples.filter p) ≤ Real.logb 2 (distinctLabels samples) := by
  have hk : (1 : ℝ) ≤ distinctLabels samples := by
    exact_mod_cast distinctLabels_pos samples hne
  by_cases hsub : samples.filter p = []
  · rw [hsub, (entropyOf_eq_zero_iff_sameLabel []).2 (by decide)]
    exact Real.logb_nonneg (by norm_num) hk
  · refine le_trans (entropyOf_le_logb _ hsub) ?_
    apply Real.logb_le_logb_of_le (by norm_num)
    · exact_mod_cast distinctLabels_pos _ hsub
    · exact_mod_cast distinctLabels_filter_le samples p

theorem weighted_le (a b x y m : ℝ) (ha : 0 ≤ a) (hb : 0 ≤ b) (hab : a + b = 1)
    (hx : x ≤ m) (hy : y ≤ m) : a * x + b * y ≤ m := by
  have h1 := mul_le_mul_of_nonneg_left hx ha
  have h2 := mul_le_mul_of_nonneg_left hy hb
  calc a * x + b * y ≤ a * m + b * m := by linarith
    _ = (a + b) * m := by ring
    _ = m := by rw [hab, one_mul]

theorem totalEntropyOfAttribute_le_logb (parseFloat : String → JSNum) (samples : List Sample)
    (attrIndex : Nat) (attrLimit : JSNum) (e : ℝ)
    (he : totalEntropyOfAttribute parseFloat samples attrIndex attrLimit = some e) :
    e ≤ Real.logb 2 (distinctLabels samples) := by
  by_cases hne : samples = []
  · subst hne
    simp [totalEntropyOfAttribute] at he
  · rw [totalEntropyOfAttribute_eq parseFloat samples attrIndex attrLimit hne] at he
    injection he with he
    rw [← he]
    have h1 := entropyOf_filter_le samples (goesLow parseFloat (some attrIndex) attrLimit) hne
    have h2 := entropyOf_filter_le samples
      (fun s => !goesLow parseFloat (some attrIndex) attrLimit s) hne
    have hlen := List.length_eq_length_filter_add
      (goesLow parseFloat (some attrIndex) attrLimit) (l := samples)
    have hn : (0 : ℝ) < samples.length := by
      exact_mod_cast List.length_pos.2 hne
    have hsum : ((samples.filter (goesLow parseFloat (some attrIndex) attrLimit)).length : ℝ)
          / (samples.length : ℝ)
        + ((samples.filter
            (fun s => !goesLow parseFloat (some attrIndex) attrLimit s)).length : ℝ)
          / (samples.length : ℝ) = 1 := by
      rw [← add_div, ← Nat.cast_add, ← hlen, div_self hn.ne']
    have ha : (0 : ℝ) ≤ ((samples.filter (goesLow parseFloat (some attrIndex) attrLimit)).length : ℝ)
          / (samples.length : ℝ) := by positivity
    have hb : (0 : ℝ) ≤ ((samples.filter
            (fun s => !goesLow parseFloat (some attrIndex) attrLimit s)).length : ℝ)
          / (samples.length : ℝ) := by positivity
    exact weighted_le _ _ _ _ _ ha hb hsum h1 h2

theorem logb_two_thirty_two : Real.logb 2 32 = 5 := by
  have h : (32 : ℝ) = 2 ^ (5 : ℕ) := by norm_num
  rw [h, Real.logb_pow, Real.logb_self_eq_one (by norm_num)]
  norm_num

theorem logb_two_lt_five (k : Nat) (hk : 0 < k) (hk32 : k < 32) : Real.logb 2 (k : ℝ) < 5 := by
  rw [← logb_two_thirty_two]
  apply Real.logb_lt_logb (by norm_num)
  · exact_mod_cast hk
  · exact_mod_cast hk32

theorem totalEntropyOfAttribute_lt_five (parseFloat : String → JSNum) (samples : List Sample)
    (attrIndex : Nat) (attrLimit : JSNum) (e : ℝ) (hfew : distinctLabels samples < 32)
    (he : totalEntropyOfAttribute parseFloat samples attrIndex attrLimit = some e) : e < 5 := by
  have hne : samples ≠ [] := by
    rintro rfl
    simp [totalEntropyOfAttribute] at he
  exact lt_of_le_of_lt (totalEntropyOfAttribute_le_logb parseFloat samples attrIndex attrLimit e he)
    (logb_two_lt_five _ (distinctLabels_pos samples hne) hfew)

theorem mostInformativeAttribute_of_candidate (parseFloat : String → JSNum)
    (samples : List Sample) (hne : samples ≠ [])
    (hex : ∃ c ∈ candidates parseFloat samples, ∃ e,
      totalEntropyOfAttribute parseFloat samples c.1 c.2 = some e ∧ e < 5) :
    ∃ c ∈ candidates parseFloat samples,
      mostInformativeAttribute parseFloat samples = some (some c.1, c.2) := by
  rcases foldl_candStep_first_min parseFloat samples hne (candidates parseFloat samples)
      (⟨5, none, JSNum.nan⟩ : Best) with
    ⟨_, hall⟩ | ⟨pre, c, post, e, hcs, hres, _, _, _, _⟩
  · obtain ⟨c, hc, e, he, hlt⟩ := hex
    obtain ⟨e1, he1, hle⟩ := hall c hc
    rw [he] at he1
    injection he1 with he1
    subst he1
    exact absurd hlt (not_lt.2 hle)
  · refine ⟨c, ?_, ?_⟩
    · rw [hcs]; exact List.mem_append_right _ (List.mem_cons_self _ _)
    · rw [mostInformativeAttribute_eq parseFloat samples hne, hres]

theorem mostInformativeAttribute_of_no_candidate (parseFloat : String → JSNum)
    (samples : List Sample) (hne : samples ≠ [])
    (hall : ∀ c ∈ candidates parseFloat samples, ∀ e,
      totalEntropyOfAttribute parseFloat samples c.1 c.2 = some e → 5 ≤ e) :
    mostInformativeAttribute parseFloat samples = some (none, JSNum.nan) := by
  rcases foldl_candStep_first_min parseFloat samples hne (candidates parseFloat samples)
      (⟨5, none, JSNum.nan⟩ : Best) with
    ⟨heq, _⟩ | ⟨pre, c, post, e, hcs, _, hce, hlt, _, _⟩
  · rw [mostInformativeAttribute_eq parseFloat samples hne, heq]
  · have hmem : c ∈ candidates parseFloat samples := by
      rw [hcs]; exact List.mem_append_right _ (List.mem_cons_self _ _)
    exact absurd hlt (not_lt.2 (hall c hmem e hce))

theorem leavesAt_leaf (d : Nat) (decision : String) (samples : List Sample) :
    (Tree.Leaf decision samples).leavesAt d = [(d, ⟨decision, samples⟩)] := by
  simp [Tree.leavesAt]

theorem leavesAt_node (d : Nat) (a : Option String) (v : JSNum) (child0 child1 : Tree)
    (i : Option Nat) :
    (Tree.Node a v [child0, child1] i).leavesAt d
      = child0.leavesAt (d + 1) ++ child1.leavesAt (d + 1) := by
  simp [Tree.leavesAt, Tree.leavesAtOfList]

theorem length_filter_lt_of_other_ne_nil (samples : List Sample) (p : Sample → Bool)
    (h : samples.filter (fun s => !p s) ≠ []) :
    (samples.filter p).length < samples.length := by
  have hsum := List.length_eq_length_filter_add p (l := samples)
  have hpos := List.length_pos.2 h
  omega

theorem length_filter_not_lt_of_other_ne_nil (samples : List Sample) (p : Sample → Bool)
    (h : samples.filter p ≠ []) :
    (samples.filter (fun s => !p s)).length < samples.length := by
  have hsum := List.length_eq_length_filter_add p (l := samples)
  have hpos := List.length_pos.2 h
  omega

/-! ## Uniform label distributions -/

theorem entropyOf_uniform (samples : List Sample) (m : Nat) (hne : samples ≠ [])
    (hproto : ∀ s ∈ samples, s.label ≠ "__proto__")
    (hm : ∀ s ∈ samples, labelCount samples s.label = m) :
    entropyOf samples = Real.logb 2 (distinctLabels samples) := by
  have hk : 0 < distinctLabels samples := distinctLabels_pos samples hne
  have hfilter : (samples.map Sample.label).toFinset.filter (fun k => k ≠ "__proto__")
      = (samples.map Sample.label).toFinset := by
    apply Finset.filter_true_of_mem
    intro k hk
    rw [List.mem_toFinset, List.mem_map] at hk
    obtain ⟨s, hs, rfl⟩ := hk
    exact hproto s hs
  have hcount : ∀ k ∈ (samples.map Sample.label).toFinset, labelCount samples k = m := by
    intro k hk
    rw [List.mem_toFinset, List.mem_map] at hk
    obtain ⟨s, hs, rfl⟩ := hk
    exact hm s hs
  have hn : samples.length = distinctLabels samples * m := by
    rw [← sum_labelCount samples, Finset.sum_congr rfl hcount, Finset.sum_const, smul_eq_mul]
    rfl
  have hmpos : 0 < m := by
    obtain ⟨s, hs⟩ := List.exists_mem_of_ne_nil samples hne
    rw [← hm s hs]
    exact labelCount_pos samples s.label
      (by rw [List.mem_toFinset, List.mem_map]; exact ⟨s, hs, rfl⟩)
  have hterm : ∀ k ∈ (samples.map Sample.label).toFinset,
      ((labelCount samples k : ℝ) / (samples.length : ℝ))
        * Real.logb 2 ((labelCount samples k : ℝ) / (samples.length : ℝ))
      = (1 / (distinctLabels samples : ℝ)) * Real.logb 2 (1 / (distinctLabels samples : ℝ)) := by
    intro k hmem
    have hk0 : (distinctLabels samples : ℝ) ≠ 0 := by exact_mod_cast hk.ne'
    have hm0 : (m : ℝ) ≠ 0 := by exact_mod_cast hmpos.ne'
    have hdiv : (labelCount samples k : ℝ) / (samples.length : ℝ)
        = 1 / (distinctLabels samples : ℝ) := by
      rw [hcount k hmem, hn, Nat.cast_mul]
      field_simp
      ring
    rw [hdiv]
  have hk0 : (distinctLabels samples : ℝ) ≠ 0 := by exact_mod_cast hk.ne'
  rw [entropyOf_eq_sum, hfilter, Finset.sum_congr rfl hterm, Finset.sum_const, nsmul_eq_mul,
    one_div, Real.logb_inv]
  have hcard : ((samples.map Sample.label).toFinset.card : ℝ) = (distinctLabels samples : ℝ) := rfl
  rw [hcard]
  field_simp

theorem totalEntropyOfAttribute_of_high_empty (parseFloat : String → JSNum)
    (samples : List Sample) (attrIndex : Nat) (attrLimit : JSNum) (hne : samples ≠ [])
    (hhigh : samples.filter
      (fun s => !goesLow parseFloat (some attrIndex) attrLimit s) = []) :
    totalEntropyOfAttribute parseFloat samples attrIndex attrLimit
      = some (entropyOf samples) := by
  have hn : (samples.length : ℝ) ≠ 0 := by
    have : samples.length ≠ 0 := by simpa using hne
    exact_mod_cast this
  rw [totalEntropyOfAttribute_eq parseFloat samples attrIndex attrLimit hne, hhigh,
    filter_eq_self_of_filter_not_eq_nil samples _ hhigh, div_self hn]
  simp

/-! ## Rounding to the nearest double -/

theorem roundHalfEven_of_near (x : ℚ) (n : ℤ) (h1 : x - n < 1 / 2)
    (h2 : (n : ℚ) - x < 1 / 2) : roundHalfEven x = n := by
  unfold roundHalfEven
  by_cases hx : (n : ℚ) ≤ x
  · have hfl : ⌊x⌋ = n := by
      rw [Int.floor_eq_iff]
      exact ⟨hx, by linarith⟩
    rw [hfl, if_pos h1]
  · have hx2 : x < n := lt_of_not_le hx
    have hfl : ⌊x⌋ = n - 1 := by
      rw [Int.floor_eq_iff]
      push_cast
      exact ⟨by linarith, by linarith⟩
    rw [hfl]
    push_cast
    rw [if_neg (by linarith), if_pos (by linarith)]
    ring

theorem roundHalfEven_le (x : ℚ) (k : ℤ) (h : x ≤ k) : roundHalfEven x ≤ k := by
  have hfl : ⌊x⌋ ≤ k := by
    have h1 : (⌊x⌋ : ℚ) ≤ k := (Int.floor_le x).trans h
    exact_mod_cast h1
  unfold roundHalfEven
  by_cases hlt : ⌊x⌋ < k
  · split_ifs <;> omega
  · have heq : ⌊x⌋ = k := le_antisymm hfl (not_lt.1 hlt)
    have hx : x - ⌊x⌋ ≤ 0 := by rw [heq]; linarith
    rw [if_pos (by linarith)]
    exact hfl

theorem ulp_pos (q : ℚ) : 0 < ulp q := by
  unfold ulp
  positivity

theorem log_two_abs_eq (q : ℚ) (e : ℤ) (h1 : 2 ^ e ≤ |q|) (h2 : |q| < 2 ^ (e + 1)) :
    Int.log 2 |q| = e := by
  have hpos : 0 < |q| := lt_of_lt_of_le (by positivity) h1
  apply le_antisymm
  · have hlt := (Int.lt_zpow_iff_log_lt (by norm_num : 1 < 2) hpos).1 (by exact_mod_cast h2)
    omega
  · exact (Int.zpow_le_iff_le_log (by norm_num : 1 < 2) hpos).1 (by exact_mod_cast h1)

/-- Evaluation of `roundDouble`: `q` lies in the binade of `2 ^ e`, `d` is a multiple of
the spacing there and is nearer to `q` than half the spacing. -/
theorem roundDouble_eq_of_near (q d : ℚ) (e n : ℤ) (he : -1022 ≤ e) (h1 : 2 ^ e ≤ |q|)
    (h2 : |q| < 2 ^ (e + 1)) (hd : d = n * 2 ^ (e - 52)) (hnear : |q - d| < 2 ^ (e - 53)) :
    roundDouble q = d := by
  have hulp : ulp q = 2 ^ (e - 52) := by
    unfold ulp
    rw [log_two_abs_eq q e h1 h2, max_eq_left he]
  have hpos : (0 : ℚ) < 2 ^ (e - 52) := by positivity
  have hhalf : (2 : ℚ) ^ (e - 53) = 2 ^ (e - 52) / 2 := by
    rw [show e - 52 = (e - 53) + 1 by ring, zpow_add₀ (by norm_num), zpow_one]
    ring
  rw [hhalf, abs_lt] at hnear
  have hx : q / 2 ^ (e - 52) - n < 1 / 2 ∧ (n : ℚ) - q / 2 ^ (e - 52) < 1 / 2 := by
    constructor
    · rw [div_sub' _ _ _ hpos.ne', div_lt_iff₀ hpos]
      rw [hd] at hnear
      linarith [hnear.2]
    · rw [sub_div' _ _ _ hpos.ne', div_lt_iff₀ hpos]
      rw [hd] at hnear
      linarith [hnear.1]
  unfold roundDouble
  rw [hulp, roundHalfEven_of_near _ n hx.1 hx.2, hd]

theorem roundDouble_zero : roundDouble 0 = 0 := by
  simp [roundDouble, roundHalfEven]

/-- A double product or quotient that is at most the integer `N < 2 ^ 53` exactly is at
most `N` after rounding: `N` is itself a double. -/
theorem roundDouble_le_nat (q : ℚ) (N : Nat) (hq : q ≤ N) (hN : N < 2 ^ 53) :
    roundDouble q ≤ N := by
  have hu := ulp_pos q
  rcases le_or_lt q 0 with h0 | h0
  · have h1 : roundHalfEven (q / ulp q) ≤ 0 :=
      roundHalfEven_le _ 0 (by simpa using div_nonpos_of_nonpos_of_nonneg h0 hu.le)
    have h2 : ((roundHalfEven (q / ulp q) : ℤ) : ℚ) ≤ 0 := by exact_mod_cast h1
    unfold roundDouble
    exact (mul_nonpos_of_nonpos_of_nonneg h2 hu.le).trans (Nat.cast_nonneg N)
  · have hlt : |q| < (2 : ℚ) ^ (53 : ℤ) := by
      rw [abs_of_pos h0]
      refine lt_of_le_of_lt hq ?_
      have h53 : ((N : ℕ) : ℚ) < ((2 ^ 53 : ℕ) : ℚ) := Nat.cast_lt.2 hN
      rw [Nat.cast_pow, Nat.cast_ofNat] at h53
      rw [zpow_ofNat]
      exact h53
    have hlog : Int.log 2 |q| < 53 :=
      (Int.lt_zpow_iff_log_lt (by norm_num) (abs_pos.2 h0.ne')).1 (by exact_mod_cast hlt)
    obtain ⟨m, hm⟩ : ∃ m : ℕ, max (Int.log 2 |q|) (-1022) - 52 = -(m : ℤ) :=
      ⟨(52 - max (Int.log 2 |q|) (-1022)).toNat, by omega⟩
    have hulp : ulp q = ((2 : ℚ) ^ m)⁻¹ := by
      unfold ulp
      rw [hm, zpow_neg, zpow_natCast]
    have hk : (N : ℚ) / ulp q = ((N * 2 ^ m : ℕ) : ℤ) := by
      rw [hulp]
      push_cast
      rw [div_inv_eq_mul]
    have h1 : roundHalfEven (q / ulp q) ≤ ((N * 2 ^ m : ℕ) : ℤ) :=
      roundHalfEven_le _ _ (by rw [← hk]; exact div_le_div_of_nonneg_right hq hu.le)
    have h2 : ((roundHalfEven (q / ulp q) : ℤ) : ℚ) ≤ (N : ℚ) / ulp q := by
      rw [hk]
      exact_mod_cast h1
    unfold roundDouble
    calc ((roundHalfEven (q / ulp q) : ℤ) : ℚ) * ulp q ≤ (N : ℚ) / ulp q * ulp q :=
          mul_le_mul_of_nonneg_right h2 hu.le
      _ = N := div_mul_cancel₀ _ hu.ne'

theorem roundHalfEven_of_tie (x : ℚ) (n m : ℤ) (hx : x = n + 1 / 2) (hm : m = n ∨ m = n + 1)
    (heven : m % 2 = 0) : roundHalfEven x = m := by
  have hfl : ⌊x⌋ = n := by
    rw [Int.floor_eq_iff, hx]
    constructor <;> linarith
  unfold roundHalfEven
  rw [hfl, hx, if_neg (by norm_num), if_neg (by norm_num)]
  rcases hm with rfl | rfl
  · rw [if_pos heven]
  · rw [if_neg (by omega)]

/-- Evaluation of `roundDouble` at a tie: `q` is halfway between the neighbouring doubles
`n * 2 ^ (e - 52)` and `(n + 1) * 2 ^ (e - 52)`, and `d` is the one with the even
multiplier. -/
theorem roundDouble_eq_of_tie (q d : ℚ) (e n m : ℤ) (he : -1022 ≤ e) (h1 : 2 ^ e ≤ |q|)
    (h2 : |q| < 2 ^ (e + 1)) (hq : q = (n + 1 / 2) * 2 ^ (e - 52)) (hm : m = n ∨ m = n + 1)
    (heven : m % 2 = 0) (hd : d = m * 2 ^ (e - 52)) : roundDouble q = d := by
  have hulp : ulp q = 2 ^ (e - 52) := by
    unfold ulp
    rw [log_two_abs_eq q e h1 h2, max_eq_left he]
  have hpos : (0 : ℚ) < 2 ^ (e - 52) := by positivity
  have hx : q / 2 ^ (e - 52) = n + 1 / 2 := by
    rw [div_eq_iff hpos.ne']
    exact hq
  unfold roundDouble
  rw [hulp, roundHalfEven_of_tie _ n m hx hm heven, hd]

/-- The double nearest to `28 / 100`. -/
theorem fdiv_28_100 : fdiv 28 100 = 1261007895663739 / 4503599627370496 :=
  roundDouble_eq_of_near _ _ (-2) 5044031582654956 (by norm_num)
    (by rw [abs_of_pos (by norm_num)]; norm_num) (by rw [abs_of_pos (by norm_num)]; norm_num)
    (by norm_num) (abs_lt.2 ⟨by norm_num, by norm_num⟩)

/-- The double product `25 * 0.28`, one spacing above 7. -/
theorem fmul_25_fdiv_28_100 :
    fmul 25 (fdiv 28 100) = 7881299347898369 / 1125899906842624 := by
  rw [fdiv_28_100]
  exact roundDouble_eq_of_near _ _ 2 7881299347898369 (by norm_num)
    (by rw [abs_of_pos (by norm_num)]; norm_num) (by rw [abs_of_pos (by norm_num)]; norm_num)
    (by norm_num) (abs_lt.2 ⟨by norm_num, by norm_num⟩)

/-- The double nearest to `10 / 100`. -/
theorem fdiv_10_100 : fdiv 10 100 = 3602879701896397 / 36028797018963968 :=
  roundDouble_eq_of_near _ _ (-4) 7205759403792794 (by norm_num)
    (by rw [abs_of_pos (by norm_num)]; norm_num) (by rw [abs_of_pos (by norm_num)]; norm_num)
    (by norm_num) (abs_lt.2 ⟨by norm_num, by norm_num⟩)

/-- The double product `10 * 0.1` is 1, although the exact product of 10 and the double
`0.1` is above 1. -/
theorem fmul_10_fdiv_10_100 : fmul 10 (fdiv 10 100) = 1 := by
  rw [fdiv_10_100]
  exact roundDouble_eq_of_near _ _ 0 4503599627370496 (by norm_num)
    (by rw [abs_of_pos (by norm_num)]; norm_num) (by rw [abs_of_pos (by norm_num)]; norm_num)
    (by norm_num) (abs_lt.2 ⟨by norm_num, by norm_num⟩)

/-! ## The loop of divideData -/

theorem cons_eraseIdx_perm (l : List Sample) (j : Nat) (x : Sample) (h : l[j]? = some x) :
    (x :: l.eraseIdx j).Perm l := by
  induction l generalizing j with
  | nil => simp at h
  | cons a t ih =>
    cases j with
    | zero =>
      simp only [List.getElem?_cons_zero, Option.some.injEq] at h
      subst h
      simp
    | succ j =>
      simp only [List.getElem?_cons_succ] at h
      simp only [List.eraseIdx_cons_succ]
      exact (List.Perm.swap a x _).trans ((ih j h).cons a)

theorem splice_index_lt (r : Draw) (len : Nat) (hlen : 0 < len) :
    ⌊getRandomInt r len⌋₊ < len := by
  have hpos : (0 : ℚ) < len := by exact_mod_cast hlen
  unfold getRandomInt
  rw [Nat.floor_lt (mul_nonneg r.nonneg hpos.le)]
  calc r.value * (len : ℚ) < 1 * (len : ℚ) := mul_lt_mul_of_pos_right r.lt_one hpos
    _ = len := one_mul _

theorem divideLoop_spec (random : Nat → Draw) (targetLength : ℚ) :
    ∀ (k n : Nat) (tr te : List Sample),
      ⌈targetLength⌉₊ - tr.length = k → tr.length ≤ ⌈targetLength⌉₊ →
      ⌈targetLength⌉₊ ≤ tr.length + te.length →
      ∃ training, (divideLoop random targetLength n (tr.map some) te).1 = training.map some
        ∧ training.length = ⌈targetLength⌉₊
        ∧ (training ++ (divideLoop random targetLength n (tr.map some) te).2).Perm
            (tr ++ te) := by
  intro k
  induction k with
  | zero =>
    intro n tr te hk hle _
    have hstop : ¬ (((tr.map some).length : ℚ) < targetLength) := by
      rw [List.length_map, ← Nat.lt_ceil]
      omega
    rw [divideLoop, dif_neg hstop]
    exact ⟨tr, rfl, by omega, List.Perm.refl _⟩
  | succ k ih =>
    intro n tr te hk hle hroom
    have hgo : ((tr.map some).length : ℚ) < targetLength := by
      rw [List.length_map, ← Nat.lt_ceil]
      omega
    have hte : 0 < te.length := by omega
    have hj := splice_index_lt (random n) te.length hte
    obtain ⟨x, hx⟩ : ∃ x, te[⌊getRandomInt (random n) te.length⌋₊]? = some x :=
      ⟨_, List.getElem?_eq_getElem hj⟩
    rw [divideLoop, dif_pos hgo]
    simp only []
    have hpush : tr.map some ++ [te[⌊getRandomInt (random n) te.length⌋₊]?]
        = (tr ++ [x]).map some := by
      rw [hx]; simp
    rw [hpush]
    have hlen : (te.eraseIdx ⌊getRandomInt (random n) te.length⌋₊).length + 1 = te.length :=
      List.length_eraseIdx_add_one hj
    obtain ⟨training, h1, h2, h3⟩ := ih (n + 1) (tr ++ [x])
      (te.eraseIdx ⌊getRandomInt (random n) te.length⌋₊)
      (by rw [List.length_append, List.length_singleton]; omega)
      (by rw [List.length_append, List.length_singleton]; omega)
      (by rw [List.length_append, List.length_singleton]; omega)
    refine ⟨training, h1, h2, h3.trans ?_⟩
    rw [List.append_assoc]
    exact List.Perm.append_left tr (cons_eraseIdx_perm te _ x hx)

theorem divideData_spec (random : Nat → Draw) (samples : List Sample) (proportion : ℚ)
    (h1 : proportion ≤ 1) (hlen53 : samples.length < 2 ^ 53) :
    ∃ training, (divideData random samples proportion).1 = training.map some
      ∧ training.length = ⌈fmul (samples.length : ℚ) proportion⌉₊
      ∧ (divideData random samples proportion).2.length
          = samples.length - ⌈fmul (samples.length : ℚ) proportion⌉₊
      ∧ (training ++ (divideData random samples proportion).2).Perm samples := by
  have hceil : ⌈fmul (samples.length : ℚ) proportion⌉₊ ≤ samples.length := by
    rw [Nat.ceil_le]
    refine roundDouble_le_nat _ _ ?_ hlen53
    calc (samples.length : ℚ) * proportion ≤ (samples.length : ℚ) * 1 :=
          mul_le_mul_of_nonneg_left h1 (Nat.cast_nonneg _)
      _ = samples.length := mul_one _
  obtain ⟨training, h1, h2, h3⟩ := divideLoop_spec random
    (fmul (samples.length : ℚ) proportion) _ 0 [] samples rfl (Nat.zero_le _)
    (by simpa using hceil)
  refine ⟨training, h1, h2, ?_, by simpa using h3⟩
  have hlen : training.length + (divideData random samples proportion).2.length
      = samples.length := by
    simpa using h3.length_eq
  generalize (divideData random samples proportion).2.length = r at hlen ⊢
  generalize ⌈fmul (samples.length : ℚ) proportion⌉₊ = c at h2 ⊢
  omega

/-! ## The scan of the double-precision selector -/

theorem foldl_selectStepD (log2 : ℚ → ℚ) (parseFloat : String → JSNum) (samples : List Sample)
    (i : Nat) (l : List Sample) (st : BestD) :
    l.foldl (selectStepD log2 parseFloat samples i) st
      = (l.map fun sample => (i, parseField parseFloat (sample.get (some i)))).foldl
          (candStepD log2 parseFloat samples) st := by
  induction l generalizing st with
  | nil => rfl
  | cons a t ih => simp only [List.foldl_cons, List.map_cons]; rw [ih]; rfl

theorem foldl_columnsD (log2 : ℚ → ℚ) (parseFloat : String → JSNum) (samples : List Sample)
    (cols : List Nat) (st : BestD) :
    cols.foldl (fun st i => samples.foldl (selectStepD log2 parseFloat samples i) st) st
      = (cols.flatMap fun i =>
            samples.map fun sample => (i, parseField parseFloat (sample.get (some i)))).foldl
          (candStepD log2 parseFloat samples) st := by
  induction cols generalizing st with
  | nil => rfl
  | cons a t ih =>
    simp only [List.foldl_cons, List.flatMap_cons, List.foldl_append]
    rw [ih, foldl_selectStepD]

theorem mostInformativeAttributeD_eq (log2 : ℚ → ℚ) (parseFloat : String → JSNum)
    (samples : List Sample) (hne : samples ≠ []) :
    mostInformativeAttributeD log2 parseFloat samples
      = some (((candidates parseFloat samples).foldl (candStepD log2 parseFloat samples)
                (⟨5, none, JSNum.nan⟩ : BestD)).bestAttributeIndex,
              ((candidates parseFloat samples).foldl (candStepD log2 parseFloat samples)
                (⟨5, none, JSNum.nan⟩ : BestD)).bestAttributeValue) := by
  cases samples with
  | nil => exact absurd rfl hne
  | cons s0 t =>
    simp only [mostInformativeAttributeD, candidates, attributeNumber]
    rw [foldl_columnsD]

theorem totalEntropyOfAttributeD_isSome (log2 : ℚ → ℚ) (parseFloat : String → JSNum)
    (samples : List Sample) (hne : samples ≠ []) (attrIndex : Nat) (attrLimit : JSNum) :
    ∃ e, totalEntropyOfAttributeD log2 parseFloat samples attrIndex attrLimit = some e := by
  have hlen : samples.length ≠ 0 := by simpa using hne
  simp [totalEntropyOfAttributeD, hlen]

/-- The scan in double arithmetic keeps the first candidate whose computed weighted
entropy is the least one below the initial value: either nothing was below it, or the
candidates split around the one kept. -/
theorem foldl_candStepD_first_min (log2 : ℚ → ℚ) (parseFloat : String → JSNum)
    (samples : List Sample) (hne : samples ≠ []) (cs : List (Nat × JSNum)) (st : BestD) :
    ((cs.foldl (candStepD log2 parseFloat samples) st = st) ∧
        ∀ c ∈ cs, ∃ e, totalEntropyOfAttributeD log2 parseFloat samples c.1 c.2 = some e
          ∧ st.entropy ≤ e)
    ∨ ∃ pre c post e, cs = pre ++ c :: post
        ∧ cs.foldl (candStepD log2 parseFloat samples) st = ⟨e, some c.1, c.2⟩
        ∧ totalEntropyOfAttributeD log2 parseFloat samples c.1 c.2 = some e
        ∧ e < st.entropy
        ∧ (∀ x ∈ pre, ∃ e1, totalEntropyOfAttributeD log2 parseFloat samples x.1 x.2 = some e1
            ∧ e < e1)
        ∧ (∀ x ∈ post, ∃ e1, totalEntropyOfAttributeD log2 parseFloat samples x.1 x.2 = some e1
            ∧ e ≤ e1) := by
  induction cs generalizing st with
  | nil => left; simp
  | cons a t ih =>
    obtain ⟨ea, hea⟩ := totalEntropyOfAttributeD_isSome log2 parseFloat samples hne a.1 a.2
    by_cases hlt : ea < st.entropy
    · have hstep : candStepD log2 parseFloat samples st a = ⟨ea, some a.1, a.2⟩ := by
        simp [candStepD, hea, hlt]
      rcases ih ⟨ea, some a.1, a.2⟩ with
        ⟨heq, hall⟩ | ⟨pre, c, post, e, hcs, hres, hce, hlt2, hpre, hpost⟩
      · right
        refine ⟨[], a, t, ea, rfl, ?_, hea, hlt, by simp, ?_⟩
        · simp only [List.foldl_cons, hstep, heq]
        · exact hall
      · right
        refine ⟨a :: pre, c, post, e, by simp [hcs], ?_, hce, lt_trans hlt2 hlt, ?_, hpost⟩
        · simp only [List.foldl_cons, hstep, hres]
        · intro x hx
          rcases List.mem_cons.1 hx with rfl | hx
          · exact ⟨ea, hea, hlt2⟩
          · exact hpre x hx
    · have hstep : candStepD log2 parseFloat samples st a = st := by
        simp [candStepD, hea, hlt]
      rcases ih st with ⟨heq, hall⟩ | ⟨pre, c, post, e, hcs, hres, hce, hlt2, hpre, hpost⟩
      · left
        refine ⟨by simp only [List.foldl_cons, hstep, heq], ?_⟩
        intro c hc
        rcases List.mem_cons.1 hc with rfl | hc
        · exact ⟨ea, hea, not_lt.1 hlt⟩
        · exact hall c hc
      · right
        refine ⟨a :: pre, c, post, e, by simp [hcs], ?_, hce, hlt2, ?_, hpost⟩
        · simp only [List.foldl_cons, hstep, hres]
        · intro x hx
          rcases List.mem_cons.1 hx with rfl | hx
          · exact ⟨ea, hea, lt_of_lt_of_le hlt2 (not_lt.1 hlt)⟩
          · exact hpre x hx

theorem mostInformativeAttributeD_of_no_candidate (log2 : ℚ → ℚ) (parseFloat : String → JSNum)
    (samples : List Sample) (hne : samples ≠ [])
    (hall : ∀ c ∈ candidates parseFloat samples, ∀ e,
      totalEntropyOfAttributeD log2 parseFloat samples c.1 c.2 = some e → 5 ≤ e) :
    mostInformativeAttributeD log2 parseFloat samples = some (none, JSNum.nan) := by
  rcases foldl_candStepD_first_min log2 parseFloat samples hne (candidates parseFloat samples)
      (⟨5, none, JSNum.nan⟩ : BestD) with
    ⟨heq, _⟩ | ⟨pre, c, post, e, hcs, _, hce, hlt, _, _⟩
  · rw [mostInformativeAttributeD_eq log2 parseFloat samples hne, heq]
  · have hmem : c ∈ candidates parseFloat samples := by
      rw [hcs]; exact List.mem_append_right _ (List.mem_cons_self _ _)
    exact absurd hlt (not_lt.2 (hall c hmem e hce))

/-! ## The weighted entropies of the seven samples in double arithmetic -/

theorem entropyOfD_tie_0_2_low :
    entropyOfD log2Table
        (tieSamples.filter (goesLow parseDigits (some 0) (JSNum.fin 2)))
      = (3 / 2) := by
  have hdist : forInOrder (valueDistribution
      (tieSamples.filter (goesLow parseDigits (some 0) (JSNum.fin 2))))
      = [("B", 1), ("C", 2), ("D", 1)] := by
    decide
  have hsize : (tieSamples.filter (goesLow parseDigits (some 0) (JSNum.fin 2))).length
      = 4 := by
    decide
  have h1 : fdiv 1 4 = (1 / 4) :=
    roundDouble_eq_of_near _ _ (-2) 4503599627370496 (by norm_num)
      (by rw [abs_of_pos (by norm_num)]; norm_num) (by rw [abs_of_pos (by norm_num)]; norm_num)
      (by norm_num) (abs_lt.2 ⟨by norm_num, by norm_num⟩)
  have h2 : log2Table (1 / 4) = (-2) := by
    unfold log2Table
    norm_num
  have h3 : fmul (1 / 4) (-2) = (-1 / 2) :=
    roundDouble_eq_of_near _ _ (-1) (-4503599627370496) (by norm_num)
      (by rw [abs_of_neg (by norm_num)]; norm_num) (by rw [abs_of_neg (by norm_num)]; norm_num)
      (by norm_num) (abs_lt.2 ⟨by norm_num, by norm_num⟩)
  have h4 : fsub 0 (-1 / 2) = (1 / 2) :=
    roundDouble_eq_of_near _ _ (-1) 4503599627370496 (by norm_num)
      (by rw [abs_of_pos (by norm_num)]; norm_num) (by rw [abs_of_pos (by norm_num)]; norm_num)
      (by norm_num) (abs_lt.2 ⟨by norm_num, by norm_num⟩)
  have h5 : fdiv 2 4 = (1 / 2) :=
    roundDouble_eq_of_near _ _ (-1) 4503599627370496 (by norm_num)
      (by rw [abs_of_pos (by norm_num)]; norm_num) (by rw [abs_of_pos (by norm_num)]; norm_num)
      (by norm_num) (abs_lt.2 ⟨by norm_num, by norm_num⟩)
  have h6 : log2Table (1 / 2) = (-1) := by
    unfold log2Table
    norm_num
  have h7 : fmul (1 / 2) (-1) = (-1 / 2) :=
    roundDouble_eq_of_near _ _ (-1) (-4503599627370496) (by norm_num)
      (by rw [abs_of_neg (by norm_num)]; norm_num) (by rw [abs_of_neg (by norm_num)]; norm_num)
      (by norm_num) (abs_lt.2 ⟨by norm_num, by norm_num⟩)
  have h8 : fsub (1 / 2) (-1 / 2) = 1 :=
    roundDouble_eq_of_near _ _ 0 4503599627370496 (by norm_num)
      (by rw [abs_of_pos (by norm_num)]; norm_num) (by rw [abs_of_pos (by norm_num)]; norm_num)
      (by norm_num) (abs_lt.2 ⟨by norm_num, by norm_num⟩)
  have h9 : fsub 1 (-1 / 2) = (3 / 2) :=
    roundDouble_eq_of_near _ _ 0 6755399441055744 (by norm_num)
      (by rw [abs_of_pos (by norm_num)]; norm_num) (by rw [abs_of_pos (by norm_num)]; norm_num)
      (by norm_num) (abs_lt.2 ⟨by norm_num, by norm_num⟩)
  unfold entropyOfD
  rw [hdist, hsize]
  simp only [List.foldl_cons, List.foldl_nil, Nat.cast_ofNat, Nat.cast_one, h1, h2, h3, h4, h5,
    h6, h7, h8, h9]

theorem entropyOfD_tie_0_2_high :
    entropyOfD log2Table
        (tieSamples.filter (fun s => !goesLow parseDigits (some 0) (JSNum.fin 2) s))
      = (2067818388031839 / 2251799813685248) := by
  have hdist : forInOrder (valueDistribution
      (tieSamples.filter (fun s => !goesLow parseDigits (some 0) (JSNum.fin 2) s)))
      = [("A", 1), ("B", 2)] := by
    decide
  have hsize : (tieSamples.filter (fun s => !goesLow parseDigits (some 0) (JSNum.fin 2) s)).length
      = 3 := by
    decide
  have h1 : fdiv 1 3 = (6004799503160661 / 18014398509481984) :=
    roundDouble_eq_of_near _ _ (-2) 6004799503160661 (by norm_num)
      (by rw [abs_of_pos (by norm_num)]; norm_num) (by rw [abs_of_pos (by norm_num)]; norm_num)
      (by norm_num) (abs_lt.2 ⟨by norm_num, by norm_num⟩)
  have h2 : log2Table (6004799503160661 / 18014398509481984)
      = (-7138036527644009 / 4503599627370496) := by
    unfold log2Table
    norm_num
  have h3 : fmul (6004799503160661 / 18014398509481984) (-7138036527644009 / 4503599627370496)
      = (-4758691018429339 / 9007199254740992) :=
    roundDouble_eq_of_near _ _ (-1) (-4758691018429339) (by norm_num)
      (by rw [abs_of_neg (by norm_num)]; norm_num) (by rw [abs_of_neg (by norm_num)]; norm_num)
      (by norm_num) (abs_lt.2 ⟨by norm_num, by norm_num⟩)
  have h4 : fsub 0 (-4758691018429339 / 9007199254740992) = (4758691018429339 / 9007199254740992) :=
    roundDouble_eq_of_near _ _ (-1) 4758691018429339 (by norm_num)
      (by rw [abs_of_pos (by norm_num)]; norm_num) (by rw [abs_of_pos (by norm_num)]; norm_num)
      (by norm_num) (abs_lt.2 ⟨by norm_num, by norm_num⟩)
  have h5 : fdiv 2 3 = (6004799503160661 / 9007199254740992) :=
    roundDouble_eq_of_near _ _ (-1) 6004799503160661 (by norm_num)
      (by rw [abs_of_pos (by norm_num)]; norm_num) (by rw [abs_of_pos (by norm_num)]; norm_num)
      (by norm_num) (abs_lt.2 ⟨by norm_num, by norm_num⟩)
  have h6 : log2Table (6004799503160661 / 9007199254740992)
      = (-2634436900273513 / 4503599627370496) := by
    unfold log2Table
    norm_num
  have h7 : fmul (6004799503160661 / 9007199254740992) (-2634436900273513 / 4503599627370496)
      = (-3512582533698017 / 9007199254740992) :=
    roundDouble_eq_of_near _ _ (-2) (-7025165067396034) (by norm_num)
      (by rw [abs_of_neg (by norm_num)]; norm_num) (by rw [abs_of_neg (by norm_num)]; norm_num)
      (by norm_num) (abs_lt.2 ⟨by norm_num, by norm_num⟩)
  have h8 : fsub (4758691018429339 / 9007199254740992) (-3512582533698017 / 9007199254740992)
      = (2067818388031839 / 2251799813685248) :=
    roundDouble_eq_of_near _ _ (-1) 8271273552127356 (by norm_num)
      (by rw [abs_of_pos (by norm_num)]; norm_num) (by rw [abs_of_pos (by norm_num)]; norm_num)
      (by norm_num) (abs_lt.2 ⟨by norm_num, by norm_num⟩)
  unfold entropyOfD
  rw [hdist, hsize]
  simp only [List.foldl_cons, List.foldl_nil, Nat.cast_ofNat, Nat.cast_one, h1, h2, h3, h4, h5,
    h6, h7, h8]

theorem totalEntropyOfAttributeD_tie_0_2 :
    totalEntropyOfAttributeD log2Table parseDigits tieSamples 0 (JSNum.fin 2)
      = some (5632644013202001 / 4503599627370496) := by
  have hlo : (tieSamples.filter (goesLow parseDigits (some 0) (JSNum.fin 2))).length
      = 4 := by
    decide
  have hhi : (tieSamples.filter (fun s => !goesLow parseDigits (some 0) (JSNum.fin 2) s)).length
      = 3 := by
    decide
  have hsize : tieSamples.length = 7 := by
    decide
  have h1 : fdiv 4 7 = (2573485501354569 / 4503599627370496) :=
    roundDouble_eq_of_near _ _ (-1) 5146971002709138 (by norm_num)
      (by rw [abs_of_pos (by norm_num)]; norm_num) (by rw [abs_of_pos (by norm_num)]; norm_num)
      (by norm_num) (abs_lt.2 ⟨by norm_num, by norm_num⟩)
  have h2 : fmul (2573485501354569 / 4503599627370496) (3 / 2)
      = (7720456504063707 / 9007199254740992) :=
    roundDouble_eq_of_near _ _ (-1) 7720456504063707 (by norm_num)
      (by rw [abs_of_pos (by norm_num)]; norm_num) (by rw [abs_of_pos (by norm_num)]; norm_num)
      (by norm_num) (abs_lt.2 ⟨by norm_num, by norm_num⟩)
  have h3 : fadd 0 (7720456504063707 / 9007199254740992) = (7720456504063707 / 9007199254740992) :=
    roundDouble_eq_of_near _ _ (-1) 7720456504063707 (by norm_num)
      (by rw [abs_of_pos (by norm_num)]; norm_num) (by rw [abs_of_pos (by norm_num)]; norm_num)
      (by norm_num) (abs_lt.2 ⟨by norm_num, by norm_num⟩)
  have h4 : fdiv 3 7 = (7720456504063707 / 18014398509481984) :=
    roundDouble_eq_of_near _ _ (-2) 7720456504063707 (by norm_num)
      (by rw [abs_of_pos (by norm_num)]; norm_num) (by rw [abs_of_pos (by norm_num)]; norm_num)
      (by norm_num) (abs_lt.2 ⟨by norm_num, by norm_num⟩)
  have h5 : fmul (7720456504063707 / 18014398509481984) (2067818388031839 / 2251799813685248)
      = (3544831522340295 / 9007199254740992) :=
    roundDouble_eq_of_near _ _ (-2) 7089663044680590 (by norm_num)
      (by rw [abs_of_pos (by norm_num)]; norm_num) (by rw [abs_of_pos (by norm_num)]; norm_num)
      (by norm_num) (abs_lt.2 ⟨by norm_num, by norm_num⟩)
  have h6 : fadd (7720456504063707 / 9007199254740992) (3544831522340295 / 9007199254740992)
      = (5632644013202001 / 4503599627370496) :=
    roundDouble_eq_of_near _ _ 0 5632644013202001 (by norm_num)
      (by rw [abs_of_pos (by norm_num)]; norm_num) (by rw [abs_of_pos (by norm_num)]; norm_num)
      (by norm_num) (abs_lt.2 ⟨by norm_num, by norm_num⟩)
  unfold totalEntropyOfAttributeD
  simp only [hlo, hhi, hsize, entropyOfD_tie_0_2_low, entropyOfD_tie_0_2_high, Nat.cast_ofNat,
    Nat.cast_one, Nat.cast_zero, OfNat.ofNat_ne_zero, if_false, h1, h2, h3, h4, h5, h6]

theorem entropyOfD_tie_0_9_low :
    entropyOfD log2Table
        (tieSamples.filter (goesLow parseDigits (some 0) (JSNum.fin 9)))
      = (2074325329587659 / 1125899906842624) := by
  have hdist : forInOrder (valueDistribution
      (tieSamples.filter (goesLow parseDigits (some 0) (JSNum.fin 9))))
      = [("A", 1), ("B", 3), ("C", 2), ("D", 1)] := by
    decide
  have hsize : (tieSamples.filter (goesLow parseDigits (some 0) (JSNum.fin 9))).length
      = 7 := by
    decide
  have h1 : fdiv 1 7 = (2573485501354569 / 18014398509481984) :=
    roundDouble_eq_of_near _ _ (-3) 5146971002709138 (by norm_num)
      (by rw [abs_of_pos (by norm_num)]; norm_num) (by rw [abs_of_pos (by norm_num)]; norm_num)
      (by norm_num) (abs_lt.2 ⟨by norm_num, by norm_num⟩)
  have h2 : log2Table (2573485501354569 / 18014398509481984)
      = (-6321601290437677 / 2251799813685248) := by
    unfold log2Table
    norm_num
  have h3 : fmul (2573485501354569 / 18014398509481984) (-6321601290437677 / 2251799813685248)
      = (-3612343594535815 / 9007199254740992) :=
    roundDouble_eq_of_near _ _ (-2) (-7224687189071630) (by norm_num)
      (by rw [abs_of_neg (by norm_num)]; norm_num) (by rw [abs_of_neg (by norm_num)]; norm_num)
      (by norm_num) (abs_lt.2 ⟨by norm_num, by norm_num⟩)
  have h4 : fsub 0 (-3612343594535815 / 9007199254740992) = (3612343594535815 / 9007199254740992) :=
    roundDouble_eq_of_near _ _ (-2) 7224687189071630 (by norm_num)
      (by rw [abs_of_pos (by norm_num)]; norm_num) (by rw [abs_of_pos (by norm_num)]; norm_num)
      (by norm_num) (abs_lt.2 ⟨by norm_num, by norm_num⟩)
  have h5 : fdiv 3 7 = (7720456504063707 / 18014398509481984) :=
    roundDouble_eq_of_near _ _ (-2) 7720456504063707 (by norm_num)
      (by rw [abs_of_pos (by norm_num)]; norm_num) (by rw [abs_of_pos (by norm_num)]; norm_num)
      (by norm_num) (abs_lt.2 ⟨by norm_num, by norm_num⟩)
  have h6 : log2Table (7720456504063707 / 18014398509481984)
      = (-2752583026615673 / 2251799813685248) := by
    unfold log2Table
    norm_num
  have h7 : fmul (7720456504063707 / 18014398509481984) (-2752583026615673 / 2251799813685248)
      = (-2359356879956291 / 4503599627370496) :=
    roundDouble_eq_of_near _ _ (-1) (-4718713759912582) (by norm_num)
      (by rw [abs_of_neg (by norm_num)]; norm_num) (by rw [abs_of_neg (by norm_num)]; norm_num)
      (by norm_num) (abs_lt.2 ⟨by norm_num, by norm_num⟩)
  have h8 : fsub (3612343594535815 / 9007199254740992) (-2359356879956291 / 4503599627370496)
      = (8331057354448397 / 9007199254740992) :=
    roundDouble_eq_of_near _ _ (-1) 8331057354448397 (by norm_num)
      (by rw [abs_of_pos (by norm_num)]; norm_num) (by rw [abs_of_pos (by norm_num)]; norm_num)
      (by norm_num) (abs_lt.2 ⟨by norm_num, by norm_num⟩)
  have h9 : fdiv 2 7 = (2573485501354569 / 9007199254740992) :=
    roundDouble_eq_of_near _ _ (-2) 5146971002709138 (by norm_num)
      (by rw [abs_of_pos (by norm_num)]; norm_num) (by rw [abs_of_pos (by norm_num)]; norm_num)
      (by norm_num) (abs_lt.2 ⟨by norm_num, by norm_num⟩)
  have h10 : log2Table (2573485501354569 / 9007199254740992)
      = (-4069801476752429 / 2251799813685248) := by
    unfold log2Table
    norm_num
  have h11 : fmul (2573485501354569 / 9007199254740992) (-4069801476752429 / 2251799813685248)
      = (-4651201687717061 / 9007199254740992) :=
    roundDouble_eq_of_near _ _ (-1) (-4651201687717061) (by norm_num)
      (by rw [abs_of_neg (by norm_num)]; norm_num) (by rw [abs_of_neg (by norm_num)]; norm_num)
      (by norm_num) (abs_lt.2 ⟨by norm_num, by norm_num⟩)
  have h12 : fsub (8331057354448397 / 9007199254740992) (-4651201687717061 / 9007199254740992)
      = (6491129521082729 / 4503599627370496) :=
    roundDouble_eq_of_near _ _ 0 6491129521082729 (by norm_num)
      (by rw [abs_of_pos (by norm_num)]; norm_num) (by rw [abs_of_pos (by norm_num)]; norm_num)
      (by norm_num) (abs_lt.2 ⟨by norm_num, by norm_num⟩)
  have h13 : fsub (6491129521082729 / 4503599627370496) (-3612343594535815 / 9007199254740992)
      = (2074325329587659 / 1125899906842624) :=
    roundDouble_eq_of_tie _ _ 0 8297301318350636 8297301318350636 (by norm_num)
      (by rw [abs_of_pos (by norm_num)]; norm_num) (by rw [abs_of_pos (by norm_num)]; norm_num)
      (by norm_num) (by norm_num) (by norm_num) (by norm_num)
  unfold entropyOfD
  rw [hdist, hsize]
  simp only [List.foldl_cons, List.foldl_nil, Nat.cast_ofNat, Nat.cast_one, h1, h2, h3, h4, h5,
    h6, h7, h8, h9, h10, h11, h12, h13]

theorem entropyOfD_tie_0_9_high :
    entropyOfD log2Table
        (tieSamples.filter (fun s => !goesLow parseDigits (some 0) (JSNum.fin 9) s))
      = 0 := by
  have hdist : forInOrder (valueDistribution
      (tieSamples.filter (fun s => !goesLow parseDigits (some 0) (JSNum.fin 9) s)))
      = [] := by
    decide
  have hsize : (tieSamples.filter (fun s => !goesLow parseDigits (some 0) (JSNum.fin 9) s)).length
      = 0 := by
    decide
  unfold entropyOfD
  rw [hdist, hsize]
  rfl

theorem totalEntropyOfAttributeD_tie_0_9 :
    totalEntropyOfAttributeD log2Table parseDigits tieSamples 0 (JSNum.fin 9)
      = some (2074325329587659 / 1125899906842624) := by
  have hlo : (tieSamples.filter (goesLow parseDigits (some 0) (JSNum.fin 9))).length
      = 7 := by
    decide
  have hhi : (tieSamples.filter (fun s => !goesLow parseDigits (some 0) (JSNum.fin 9) s)).length
      = 0 := by
    decide
  have hsize : tieSamples.length = 7 := by
    decide
  have h1 : fdiv 7 7 = 1 :=
    roundDouble_eq_of_near _ _ 0 4503599627370496 (by norm_num)
      (by rw [abs_of_pos (by norm_num)]; norm_num) (by rw [abs_of_pos (by norm_num)]; norm_num)
      (by norm_num) (abs_lt.2 ⟨by norm_num, by norm_num⟩)
  have h2 : fmul 1 (2074325329587659 / 1125899906842624) = (2074325329587659 / 1125899906842624) :=
    roundDouble_eq_of_near _ _ 0 8297301318350636 (by norm_num)
      (by rw [abs_of_pos (by norm_num)]; norm_num) (by rw [abs_of_pos (by norm_num)]; norm_num)
      (by norm_num) (abs_lt.2 ⟨by norm_num, by norm_num⟩)
  have h3 : fadd 0 (2074325329587659 / 1125899906842624) = (2074325329587659 / 1125899906842624) :=
    roundDouble_eq_of_near _ _ 0 8297301318350636 (by norm_num)
      (by rw [abs_of_pos (by norm_num)]; norm_num) (by rw [abs_of_pos (by norm_num)]; norm_num)
      (by norm_num) (abs_lt.2 ⟨by norm_num, by norm_num⟩)
  have h4 : fdiv 0 7 = 0 := by
    unfold fdiv
    norm_num [roundDouble_zero]
  have h5 : fmul 0 0 = 0 := by
    unfold fmul
    norm_num [roundDouble_zero]
  have h6 : fadd (2074325329587659 / 1125899906842624) 0 = (2074325329587659 / 1125899906842624) :=
    roundDouble_eq_of_near _ _ 0 8297301318350636 (by norm_num)
      (by rw [abs_of_pos (by norm_num)]; norm_num) (by rw [abs_of_pos (by norm_num)]; norm_num)
      (by norm_num) (abs_lt.2 ⟨by norm_num, by norm_num⟩)
  unfold totalEntropyOfAttributeD
  simp only [hlo, hhi, hsize, entropyOfD_tie_0_9_low, entropyOfD_tie_0_9_high, Nat.cast_ofNat,
    Nat.cast_one, Nat.cast_zero, OfNat.ofNat_ne_zero, if_false, h1, h2, h3, h4, h5, h6]

theorem entropyOfD_tie_1_1_low :
    entropyOfD log2Table
        (tieSamples.filter (goesLow parseDigits (some 1) (JSNum.fin 1)))
      = (3285709007701167 / 2251799813685248) := by
  have hdist : forInOrder (valueDistribution
      (tieSamples.filter (goesLow parseDigits (some 1) (JSNum.fin 1))))
      = [("A", 1), ("B", 3), ("C", 2)] := by
    decide
  have hsize : (tieSamples.filter (goesLow parseDigits (some 1) (JSNum.fin 1))).length
      = 6 := by
    decide
  have h1 : fdiv 1 6 = (6004799503160661 / 36028797018963968) :=
    roundDouble_eq_of_near _ _ (-3) 6004799503160661 (by norm_num)
      (by rw [abs_of_pos (by norm_num)]; norm_num) (by rw [abs_of_pos (by norm_num)]; norm_num)
      (by norm_num) (abs_lt.2 ⟨by norm_num, by norm_num⟩)
  have h2 : log2Table (6004799503160661 / 36028797018963968)
      = (-1455204519376813 / 562949953421312) := by
    unfold log2Table
    norm_num
  have h3 : fmul (6004799503160661 / 36028797018963968) (-1455204519376813 / 562949953421312)
      = (-7761090770009669 / 18014398509481984) :=
    roundDouble_eq_of_near _ _ (-2) (-7761090770009669) (by norm_num)
      (by rw [abs_of_neg (by norm_num)]; norm_num) (by rw [abs_of_neg (by norm_num)]; norm_num)
      (by norm_num) (abs_lt.2 ⟨by norm_num, by norm_num⟩)
  have h4 : fsub 0 (-7761090770009669 / 18014398509481984)
      = (7761090770009669 / 18014398509481984) :=
    roundDouble_eq_of_near _ _ (-2) 7761090770009669 (by norm_num)
      (by rw [abs_of_pos (by norm_num)]; norm_num) (by rw [abs_of_pos (by norm_num)]; norm_num)
      (by norm_num) (abs_lt.2 ⟨by norm_num, by norm_num⟩)
  have h5 : fdiv 3 6 = (1 / 2) :=
    roundDouble_eq_of_near _ _ (-1) 4503599627370496 (by norm_num)
      (by rw [abs_of_pos (by norm_num)]; norm_num) (by rw [abs_of_pos (by norm_num)]; norm_num)
      (by norm_num) (abs_lt.2 ⟨by norm_num, by norm_num⟩)
  have h6 : log2Table (1 / 2) = (-1) := by
    unfold log2Table
    norm_num
  have h7 : fmul (1 / 2) (-1) = (-1 / 2) :=
    roundDouble_eq_of_near _ _ (-1) (-4503599627370496) (by norm_num)
      (by rw [abs_of_neg (by norm_num)]; norm_num) (by rw [abs_of_neg (by norm_num)]; norm_num)
      (by norm_num) (abs_lt.2 ⟨by norm_num, by norm_num⟩)
  have h8 : fsub (7761090770009669 / 18014398509481984) (-1 / 2)
      = (4192072506187665 / 4503599627370496) :=
    roundDouble_eq_of_tie _ _ (-1) 8384145012375330 8384145012375330 (by norm_num)
      (by rw [abs_of_pos (by norm_num)]; norm_num) (by rw [abs_of_pos (by norm_num)]; norm_num)
      (by norm_num) (by norm_num) (by norm_num) (by norm_num)
  have h9 : fdiv 2 6 = (6004799503160661 / 18014398509481984) :=
    roundDouble_eq_of_near _ _ (-2) 6004799503160661 (by norm_num)
      (by rw [abs_of_pos (by norm_num)]; norm_num) (by rw [abs_of_pos (by norm_num)]; norm_num)
      (by norm_num) (abs_lt.2 ⟨by norm_num, by norm_num⟩)
  have h10 : log2Table (6004799503160661 / 18014398509481984)
      = (-7138036527644009 / 4503599627370496) := by
    unfold log2Table
    norm_num
  have h11 : fmul (6004799503160661 / 18014398509481984) (-7138036527644009 / 4503599627370496)
      = (-4758691018429339 / 9007199254740992) :=
    roundDouble_eq_of_near _ _ (-1) (-4758691018429339) (by norm_num)
      (by rw [abs_of_neg (by norm_num)]; norm_num) (by rw [abs_of_neg (by norm_num)]; norm_num)
      (by norm_num) (abs_lt.2 ⟨by norm_num, by norm_num⟩)
  have h12 : fsub (4192072506187665 / 4503599627370496) (-4758691018429339 / 9007199254740992)
      = (3285709007701167 / 2251799813685248) :=
    roundDouble_eq_of_tie _ _ 0 6571418015402334 6571418015402334 (by norm_num)
      (by rw [abs_of_pos (by norm_num)]; norm_num) (by rw [abs_of_pos (by norm_num)]; norm_num)
      (by norm_num) (by norm_num) (by norm_num) (by norm_num)
  unfold entropyOfD
  rw [hdist, hsize]
  simp only [List.foldl_cons, List.foldl_nil, Nat.cast_ofNat, Nat.cast_one, h1, h2, h3, h4, h5,
    h6, h7, h8, h9, h10, h11, h12]

theorem entropyOfD_tie_1_1_high :
    entropyOfD log2Table
        (tieSamples.filter (fun s => !goesLow parseDigits (some 1) (JSNum.fin 1) s))
      = 0 := by
  have hdist : forInOrder (valueDistribution
      (tieSamples.filter (fun s => !goesLow parseDigits (some 1) (JSNum.fin 1) s)))
      = [("D", 1)] := by
    decide
  have hsize : (tieSamples.filter (fun s => !goesLow parseDigits (some 1) (JSNum.fin 1) s)).length
      = 1 := by
    decide
  have h1 : fdiv 1 1 = 1 :=
    roundDouble_eq_of_near _ _ 0 4503599627370496 (by norm_num)
      (by rw [abs_of_pos (by norm_num)]; norm_num) (by rw [abs_of_pos (by norm_num)]; norm_num)
      (by norm_num) (abs_lt.2 ⟨by norm_num, by norm_num⟩)
  have h2 : log2Table 1 = 0 := by
    unfold log2Table
    norm_num
  have h3 : fmul 1 0 = 0 := by
    unfold fmul
    norm_num [roundDouble_zero]
  have h4 : fsub 0 0 = 0 := by
    unfold fsub
    norm_num [roundDouble_zero]
  unfold entropyOfD
  rw [hdist, hsize]
  simp only [List.foldl_cons, List.foldl_nil, Nat.cast_ofNat, Nat.cast_one, h1, h2, h3, h4]

theorem totalEntropyOfAttributeD_tie_1_1 :
    totalEntropyOfAttributeD log2Table parseDigits tieSamples 1 (JSNum.fin 1)
      = some (352040250825125 / 281474976710656) := by
  have hlo : (tieSamples.filter (goesLow parseDigits (some 1) (JSNum.fin 1))).length
      = 6 := by
    decide
  have hhi : (tieSamples.filter (fun s => !goesLow parseDigits (some 1) (JSNum.fin 1) s)).length
      = 1 := by
    decide
  have hsize : tieSamples.length = 7 := by
    decide
  have h1 : fdiv 6 7 = (7720456504063707 / 9007199254740992) :=
    roundDouble_eq_of_near _ _ (-1) 7720456504063707 (by norm_num)
      (by rw [abs_of_pos (by norm_num)]; norm_num) (by rw [abs_of_pos (by norm_num)]; norm_num)
      (by norm_num) (abs_lt.2 ⟨by norm_num, by norm_num⟩)
  have h2 : fmul (7720456504063707 / 9007199254740992) (3285709007701167 / 2251799813685248)
      = (352040250825125 / 281474976710656) :=
    roundDouble_eq_of_near _ _ 0 5632644013202000 (by norm_num)
      (by rw [abs_of_pos (by norm_num)]; norm_num) (by rw [abs_of_pos (by norm_num)]; norm_num)
      (by norm_num) (abs_lt.2 ⟨by norm_num, by norm_num⟩)
  have h3 : fadd 0 (352040250825125 / 281474976710656) = (352040250825125 / 281474976710656) :=
    roundDouble_eq_of_near _ _ 0 5632644013202000 (by norm_num)
      (by rw [abs_of_pos (by norm_num)]; norm_num) (by rw [abs_of_pos (by norm_num)]; norm_num)
      (by norm_num) (abs_lt.2 ⟨by norm_num, by norm_num⟩)
  have h4 : fdiv 1 7 = (2573485501354569 / 18014398509481984) :=
    roundDouble_eq_of_near _ _ (-3) 5146971002709138 (by norm_num)
      (by rw [abs_of_pos (by norm_num)]; norm_num) (by rw [abs_of_pos (by norm_num)]; norm_num)
      (by norm_num) (abs_lt.2 ⟨by norm_num, by norm_num⟩)
  have h5 : fmul (2573485501354569 / 18014398509481984) 0 = 0 := by
    unfold fmul
    norm_num [roundDouble_zero]
  have h6 : fadd (352040250825125 / 281474976710656) 0 = (352040250825125 / 281474976710656) :=
    roundDouble_eq_of_near _ _ 0 5632644013202000 (by norm_num)
      (by rw [abs_of_pos (by norm_num)]; norm_num) (by rw [abs_of_pos (by norm_num)]; norm_num)
      (by norm_num) (abs_lt.2 ⟨by norm_num, by norm_num⟩)
  unfold totalEntropyOfAttributeD
  simp only [hlo, hhi, hsize, entropyOfD_tie_1_1_low, entropyOfD_tie_1_1_high, Nat.cast_ofNat,
    Nat.cast_one, Nat.cast_zero, OfNat.ofNat_ne_zero, if_false, h1, h2, h3, h4, h5, h6]

theorem entropyOfD_tie_1_9_low :
    entropyOfD log2Table
        (tieSamples.filter (goesLow parseDigits (some 1) (JSNum.fin 9)))
      = (2074325329587659 / 1125899906842624) := by
  have hdist : forInOrder (valueDistribution
      (tieSamples.filter (goesLow parseDigits (some 1) (JSNum.fin 9))))
      = [("A", 1), ("B", 3), ("C", 2), ("D", 1)] := by
    decide
  have hsize : (tieSamples.filter (goesLow parseDigits (some 1) (JSNum.fin 9))).length
      = 7 := by
    decide
  have h1 : fdiv 1 7 = (2573485501354569 / 18014398509481984) :=
    roundDouble_eq_of_near _ _ (-3) 5146971002709138 (by norm_num)
      (by rw [abs_of_pos (by norm_num)]; norm_num) (by rw [abs_of_pos (by norm_num)]; norm_num)
      (by norm_num) (abs_lt.2 ⟨by norm_num, by norm_num⟩)
  have h2 : log2Table (2573485501354569 / 18014398509481984)
      = (-6321601290437677 / 2251799813685248) := by
    unfold log2Table
    norm_num
  have h3 : fmul (2573485501354569 / 18014398509481984) (-6321601290437677 / 2251799813685248)
      = (-3612343594535815 / 9007199254740992) :=
    roundDouble_eq_of_near _ _ (-2) (-7224687189071630) (by norm_num)
      (by rw [abs_of_neg (by norm_num)]; norm_num) (by rw [abs_of_neg (by norm_num)]; norm_num)
      (by norm_num) (abs_lt.2 ⟨by norm_num, by norm_num⟩)
  have h4 : fsub 0 (-3612343594535815 / 9007199254740992) = (3612343594535815 / 9007199254740992) :=
    roundDouble_eq_of_near _ _ (-2) 7224687189071630 (by norm_num)
      (by rw [abs_of_pos (by norm_num)]; norm_num) (by rw [abs_of_pos (by norm_num)]; norm_num)
      (by norm_num) (abs_lt.2 ⟨by norm_num, by norm_num⟩)
  have h5 : fdiv 3 7 = (7720456504063707 / 18014398509481984) :=
    roundDouble_eq_of_near _ _ (-2) 7720456504063707 (by norm_num)
      (by rw [abs_of_pos (by norm_num)]; norm_num) (by rw [abs_of_pos (by norm_num)]; norm_num)
      (by norm_num) (abs_lt.2 ⟨by norm_num, by norm_num⟩)
  have h6 : log2Table (7720456504063707 / 18014398509481984)
      = (-2752583026615673 / 2251799813685248) := by
    unfold log2Table
    norm_num
  have h7 : fmul (7720456504063707 / 18014398509481984) (-2752583026615673 / 2251799813685248)
      = (-2359356879956291 / 4503599627370496) :=
    roundDouble_eq_of_near _ _ (-1) (-4718713759912582) (by norm_num)
      (by rw [abs_of_neg (by norm_num)]; norm_num) (by rw [abs_of_neg (by norm_num)]; norm_num)
      (by norm_num) (abs_lt.2 ⟨by norm_num, by norm_num⟩)
  have h8 : fsub (3612343594535815 / 9007199254740992) (-2359356879956291 / 4503599627370496)
      = (8331057354448397 / 9007199254740992) :=
    roundDouble_eq_of_near _ _ (-1) 8331057354448397 (by norm_num)
      (by rw [abs_of_pos (by norm_num)]; norm_num) (by rw [abs_of_pos (by norm_num)]; norm_num)
      (by norm_num) (abs_lt.2 ⟨by norm_num, by norm_num⟩)
  have h9 : fdiv 2 7 = (2573485501354569 / 9007199254740992) :=
    roundDouble_eq_of_near _ _ (-2) 5146971002709138 (by norm_num)
      (by rw [abs_of_pos (by norm_num)]; norm_num) (by rw [abs_of_pos (by norm_num)]; norm_num)
      (by norm_num) (abs_lt.2 ⟨by norm_num, by norm_num⟩)
  have h10 : log2Table (2573485501354569 / 9007199254740992)
      = (-4069801476752429 / 2251799813685248) := by
    unfold log2Table
    norm_num
  have h11 : fmul (2573485501354569 / 9007199254740992) (-4069801476752429 / 2251799813685248)
      = (-4651201687717061 / 9007199254740992) :=
    roundDouble_eq_of_near _ _ (-1) (-4651201687717061) (by norm_num)
      (by rw [abs_of_neg (by norm_num)]; norm_num) (by rw [abs_of_neg (by norm_num)]; norm_num)
      (by norm_num) (abs_lt.2 ⟨by norm_num, by norm_num⟩)
  have h12 : fsub (8331057354448397 / 9007199254740992) (-4651201687717061 / 9007199254740992)
      = (6491129521082729 / 4503599627370496) :=
    roundDouble_eq_of_near _ _ 0 6491129521082729 (by norm_num)
      (by rw [abs_of_pos (by norm_num)]; norm_num) (by rw [abs_of_pos (by norm_num)]; norm_num)
      (by norm_num) (abs_lt.2 ⟨by norm_num, by norm_num⟩)
  have h13 : fsub (6491129521082729 / 4503599627370496) (-3612343594535815 / 9007199254740992)
      = (2074325329587659 / 1125899906842624) :=
    roundDouble_eq_of_tie _ _ 0 8297301318350636 8297301318350636 (by norm_num)
      (by rw [abs_of_pos (by norm_num)]; norm_num) (by rw [abs_of_pos (by norm_num)]; norm_num)
      (by norm_num) (by norm_num) (by norm_num) (by norm_num)
  unfold entropyOfD
  rw [hdist, hsize]
  simp only [List.foldl_cons, List.foldl_nil, Nat.cast_ofNat, Nat.cast_one, h1, h2, h3, h4, h5,
    h6, h7, h8, h9, h10, h11, h12, h13]

theorem entropyOfD_tie_1_9_high :
    entropyOfD log2Table
        (tieSamples.filter (fun s => !goesLow parseDigits (some 1) (JSNum.fin 9) s))
      = 0 := by
  have hdist : forInOrder (valueDistribution
      (tieSamples.filter (fun s => !goesLow parseDigits (some 1) (JSNum.fin 9) s)))
      = [] := by
    decide
  have hsize : (tieSamples.filter (fun s => !goesLow parseDigits (some 1) (JSNum.fin 9) s)).length
      = 0 := by
    decide
  unfold entropyOfD
  rw [hdist, hsize]
  rfl

theorem totalEntropyOfAttributeD_tie_1_9 :
    totalEntropyOfAttributeD log2Table parseDigits tieSamples 1 (JSNum.fin 9)
      = some (2074325329587659 / 1125899906842624) := by
  have hlo : (tieSamples.filter (goesLow parseDigits (some 1) (JSNum.fin 9))).length
      = 7 := by
    decide
  have hhi : (tieSamples.filter (fun s => !goesLow parseDigits (some 1) (JSNum.fin 9) s)).length
      = 0 := by
    decide
  have hsize : tieSamples.length = 7 := by
    decide
  have h1 : fdiv 7 7 = 1 :=
    roundDouble_eq_of_near _ _ 0 4503599627370496 (by norm_num)
      (by rw [abs_of_pos (by norm_num)]; norm_num) (by rw [abs_of_pos (by norm_num)]; norm_num)
      (by norm_num) (abs_lt.2 ⟨by norm_num, by norm_num⟩)
  have h2 : fmul 1 (2074325329587659 / 1125899906842624) = (2074325329587659 / 1125899906842624) :=
    roundDouble_eq_of_near _ _ 0 8297301318350636 (by norm_num)
      (by rw [abs_of_pos (by norm_num)]; norm_num) (by rw [abs_of_pos (by norm_num)]; norm_num)
      (by norm_num) (abs_lt.2 ⟨by norm_num, by norm_num⟩)
  have h3 : fadd 0 (2074325329587659 / 1125899906842624) = (2074325329587659 / 1125899906842624) :=
    roundDouble_eq_of_near _ _ 0 8297301318350636 (by norm_num)
      (by rw [abs_of_pos (by norm_num)]; norm_num) (by rw [abs_of_pos (by norm_num)]; norm_num)
      (by norm_num) (abs_lt.2 ⟨by norm_num, by norm_num⟩)
  have h4 : fdiv 0 7 = 0 := by
    unfold fdiv
    norm_num [roundDouble_zero]
  have h5 : fmul 0 0 = 0 := by
    unfold fmul
    norm_num [roundDouble_zero]
  have h6 : fadd (2074325329587659 / 1125899906842624) 0 = (2074325329587659 / 1125899906842624) :=
    roundDouble_eq_of_near _ _ 0 8297301318350636 (by norm_num)
      (by rw [abs_of_pos (by norm_num)]; norm_num) (by rw [abs_of_pos (by norm_num)]; norm_num)
      (by norm_num) (abs_lt.2 ⟨by norm_num, by norm_num⟩)
  unfold totalEntropyOfAttributeD
  simp only [hlo, hhi, hsize, entropyOfD_tie_1_9_low, entropyOfD_tie_1_9_high, Nat.cast_ofNat,
    Nat.cast_one, Nat.cast_zero, OfNat.ofNat_ne_zero, if_false, h1, h2, h3, h4, h5, h6]

/-! ## The scan on the seven samples -/

theorem candidates_tieSamples :
    candidates parseDigits tieSamples
      = [(0, JSNum.fin 2), (0, JSNum.fin 2), (0, JSNum.fin 2), (0, JSNum.fin 2),
          (0, JSNum.fin 9), (0, JSNum.fin 9), (0, JSNum.fin 9)]
        ++ (1, JSNum.fin 1) ::
          [(1, JSNum.fin 1), (1, JSNum.fin 9), (1, JSNum.fin 1), (1, JSNum.fin 1),
            (1, JSNum.fin 1), (1, JSNum.fin 1)] := by
  decide

theorem mostInformativeAttributeD_tieSamples :
    mostInformativeAttributeD log2Table parseDigits tieSamples = some (some 1, JSNum.fin 1) := by
  rw [mostInformativeAttributeD_eq log2Table parseDigits tieSamples (by decide),
    candidates_tieSamples]
  simp only [List.cons_append, List.nil_append, List.foldl_cons, List.foldl_nil, candStepD,
    totalEntropyOfAttributeD_tie_0_2, totalEntropyOfAttributeD_tie_0_9,
    totalEntropyOfAttributeD_tie_1_1, totalEntropyOfAttributeD_tie_1_9]
  norm_num

theorem logb_two_half : Real.logb 2 (1 / 2) = -1 := by
  rw [one_div, Real.logb_inv, Real.logb_self_eq_one (by norm_num)]

theorem logb_two_quarter : Real.logb 2 (1 / 4) = -2 := by
  rw [one_div, Real.logb_inv, show (4 : ℝ) = 2 ^ (2 : ℕ) by norm_num, Real.logb_pow,
    Real.logb_self_eq_one (by norm_num)]
  norm_num

theorem logb_two_third : Real.logb 2 (1 / 3) = -Real.logb 2 3 := by
  rw [one_div, Real.logb_inv]

theorem logb_two_two_thirds : Real.logb 2 (2 / 3) = 1 - Real.logb 2 3 := by
  rw [Real.logb_div (by norm_num) (by norm_num), Real.logb_self_eq_one (by norm_num)]

theorem logb_two_sixth : Real.logb 2 (1 / 6) = -1 - Real.logb 2 3 := by
  rw [one_div, Real.logb_inv, show (6 : ℝ) = 2 * 3 by norm_num,
    Real.logb_mul (by norm_num) (by norm_num), Real.logb_self_eq_one (by norm_num)]
  ring

theorem entropyOf_tie_0_2_low :
    entropyOf (tieSamples.filter (goesLow parseDigits (some 0) (JSNum.fin 2))) = 3 / 2 := by
  have hdist : valueDistribution (tieSamples.filter (goesLow parseDigits (some 0) (JSNum.fin 2)))
      = [("B", 1), ("C", 2), ("D", 1)] := by
    decide
  have hsize : (tieSamples.filter (goesLow parseDigits (some 0) (JSNum.fin 2))).length = 4 := by
    decide
  unfold entropyOf
  rw [hdist, hsize]
  simp only [List.foldl_cons, List.foldl_nil, Nat.cast_ofNat, Nat.cast_one]
  rw [show (2 : ℝ) / 4 = 1 / 2 by norm_num, logb_two_quarter, logb_two_half]
  norm_num

theorem entropyOf_tie_0_2_high :
    entropyOf (tieSamples.filter (fun s => !goesLow parseDigits (some 0) (JSNum.fin 2) s))
      = Real.logb 2 3 - 2 / 3 := by
  have hdist : valueDistribution
      (tieSamples.filter (fun s => !goesLow parseDigits (some 0) (JSNum.fin 2) s))
      = [("A", 1), ("B", 2)] := by
    decide
  have hsize : (tieSamples.filter
      (fun s => !goesLow parseDigits (some 0) (JSNum.fin 2) s)).length = 3 := by
    decide
  unfold entropyOf
  rw [hdist, hsize]
  simp only [List.foldl_cons, List.foldl_nil, Nat.cast_ofNat, Nat.cast_one]
  rw [logb_two_third, logb_two_two_thirds]
  ring

theorem entropyOf_tie_1_1_low :
    entropyOf (tieSamples.filter (goesLow parseDigits (some 1) (JSNum.fin 1)))
      = 2 / 3 + 1 / 2 * Real.logb 2 3 := by
  have hdist : valueDistribution (tieSamples.filter (goesLow parseDigits (some 1) (JSNum.fin 1)))
      = [("A", 1), ("B", 3), ("C", 2)] := by
    decide
  have hsize : (tieSamples.filter (goesLow parseDigits (some 1) (JSNum.fin 1))).length = 6 := by
    decide
  unfold entropyOf
  rw [hdist, hsize]
  simp only [List.foldl_cons, List.foldl_nil, Nat.cast_ofNat, Nat.cast_one]
  rw [show (3 : ℝ) / 6 = 1 / 2 by norm_num, show (2 : ℝ) / 6 = 1 / 3 by norm_num,
    logb_two_sixth, logb_two_half, logb_two_third]
  ring

theorem entropyOf_tie_1_1_high :
    entropyOf (tieSamples.filter (fun s => !goesLow parseDigits (some 1) (JSNum.fin 1) s))
      = 0 := by
  have hdist : valueDistribution
      (tieSamples.filter (fun s => !goesLow parseDigits (some 1) (JSNum.fin 1) s))
      = [("D", 1)] := by
    decide
  have hsize : (tieSamples.filter
      (fun s => !goesLow parseDigits (some 1) (JSNum.fin 1) s)).length = 1 := by
    decide
  unfold entropyOf
  rw [hdist, hsize]
  simp

/-- In exact arithmetic the candidate `(0, 2)` has the weighted entropy
`4/7 + (3/7) * log2(3)` on the seven samples. -/
theorem totalEntropyOfAttribute_tie_0_2 :
    totalEntropyOfAttribute parseDigits tieSamples 0 (JSNum.fin 2)
      = some (4 / 7 + 3 / 7 * Real.logb 2 3) := by
  have hlo : (tieSamples.filter (goesLow parseDigits (some 0) (JSNum.fin 2))).length = 4 := by
    decide
  have hhi : (tieSamples.filter
      (fun s => !goesLow parseDigits (some 0) (JSNum.fin 2) s)).length = 3 := by
    decide
  have hsize : tieSamples.length = 7 := by
    decide
  rw [totalEntropyOfAttribute_eq parseDigits tieSamples 0 (JSNum.fin 2) (by decide),
    entropyOf_tie_0_2_low, entropyOf_tie_0_2_high, hlo, hhi, hsize]
  congr 1
  push_cast
  ring

/-- In exact arithmetic the candidate `(1, 1)` has the same weighted entropy
`4/7 + (3/7) * log2(3)` on the seven samples. -/
theorem totalEntropyOfAttribute_tie_1_1 :
    totalEntropyOfAttribute parseDigits tieSamples 1 (JSNum.fin 1)
      = some (4 / 7 + 3 / 7 * Real.logb 2 3) := by
  have hlo : (tieSamples.filter (goesLow parseDigits (some 1) (JSNum.fin 1))).length = 6 := by
    decide
  have hhi : (tieSamples.filter
      (fun s => !goesLow parseDigits (some 1) (JSNum.fin 1) s)).length = 1 := by
    decide
  have hsize : tieSamples.length = 7 := by
    decide
  rw [totalEntropyOfAttribute_eq parseDigits tieSamples 1 (JSNum.fin 1) (by decide),
    entropyOf_tie_1_1_low, entropyOf_tie_1_1_high, hlo, hhi, hsize]
  congr 1
  push_cast
  ring

/-! ## The thirty-two labels in double arithmetic -/

set_option maxRecDepth 100000

theorem entropyOfD_thirtyTwo_0_1_low :
    entropyOfD log2Table
        (thirtyTwoLabels.filter (goesLow parseDigits (some 0) (JSNum.fin 1)))
      = 5 := by
  have hdist : forInOrder (valueDistribution
      (thirtyTwoLabels.filter (goesLow parseDigits (some 0) (JSNum.fin 1))))
      = [("c0", 1), ("c1", 1), ("c10", 1), ("c11", 1), ("c12", 1), ("c13", 1), ("c14", 1), ("c15", 1),
          ("c16", 1), ("c17", 1), ("c18", 1), ("c19", 1), ("c2", 1), ("c20", 1), ("c21", 1),
          ("c22", 1), ("c23", 1), ("c24", 1), ("c25", 1), ("c26", 1), ("c27", 1), ("c28", 1),
          ("c29", 1), ("c3", 1), ("c30", 1), ("c31", 1), ("c4", 1), ("c5", 1), ("c6", 1),
          ("c7", 1), ("c8", 1), ("c9", 1)] := by
    decide
  have hsize : (thirtyTwoLabels.filter (goesLow parseDigits (some 0) (JSNum.fin 1))).length
      = 32 := by
    decide
  have h1 : fdiv 1 32 = (1 / 32) :=
    roundDouble_eq_of_near _ _ (-5) 4503599627370496 (by norm_num)
      (by rw [abs_of_pos (by norm_num)]; norm_num) (by rw [abs_of_pos (by norm_num)]; norm_num)
      (by norm_num) (abs_lt.2 ⟨by norm_num, by norm_num⟩)
  have h2 : log2Table (1 / 32) = (-5) := by
    unfold log2Table
    norm_num
  have h3 : fmul (1 / 32) (-5) = (-5 / 32) :=
    roundDouble_eq_of_near _ _ (-3) (-5629499534213120) (by norm_num)
      (by rw [abs_of_neg (by norm_num)]; norm_num) (by rw [abs_of_neg (by norm_num)]; norm_num)
      (by norm_num) (abs_lt.2 ⟨by norm_num, by norm_num⟩)
  have h4 : fsub 0 (-5 / 32) = (5 / 32) :=
    roundDouble_eq_of_near _ _ (-3) 5629499534213120 (by norm_num)
      (by rw [abs_of_pos (by norm_num)]; norm_num) (by rw [abs_of_pos (by norm_num)]; norm_num)
      (by norm_num) (abs_lt.2 ⟨by norm_num, by norm_num⟩)
  have h5 : fsub (5 / 32) (-5 / 32) = (5 / 16) :=
    roundDouble_eq_of_near _ _ (-2) 5629499534213120 (by norm_num)
      (by rw [abs_of_pos (by norm_num)]; norm_num) (by rw [abs_of_pos (by norm_num)]; norm_num)
      (by norm_num) (abs_lt.2 ⟨by norm_num, by norm_num⟩)
  have h6 : fsub (5 / 16) (-5 / 32) = (15 / 32) :=
    roundDouble_eq_of_near _ _ (-2) 8444249301319680 (by norm_num)
      (by rw [abs_of_pos (by norm_num)]; norm_num) (by rw [abs_of_pos (by norm_num)]; norm_num)
      (by norm_num) (abs_lt.2 ⟨by norm_num, by norm_num⟩)
  have h7 : fsub (15 / 32) (-5 / 32) = (5 / 8) :=
    roundDouble_eq_of_near _ _ (-1) 5629499534213120 (by norm_num)
      (by rw [abs_of_pos (by norm_num)]; norm_num) (by rw [abs_of_pos (by norm_num)]; norm_num)
      (by norm_num) (abs_lt.2 ⟨by norm_num, by norm_num⟩)
  have h8 : fsub (5 / 8) (-5 / 32) = (25 / 32) :=
    roundDouble_eq_of_near _ _ (-1) 7036874417766400 (by norm_num)
      (by rw [abs_of_pos (by norm_num)]; norm_num) (by rw [abs_of_pos (by norm_num)]; norm_num)
      (by norm_num) (abs_lt.2 ⟨by norm_num, by norm_num⟩)
  have h9 : fsub (25 / 32) (-5 / 32) = (15 / 16) :=
    roundDouble_eq_of_near _ _ (-1) 8444249301319680 (by norm_num)
      (by rw [abs_of_pos (by norm_num)]; norm_num) (by rw [abs_of_pos (by norm_num)]; norm_num)
      (by norm_num) (abs_lt.2 ⟨by norm_num, by norm_num⟩)
  have h10 : fsub (15 / 16) (-5 / 32) = (35 / 32) :=
    roundDouble_eq_of_near _ _ 0 4925812092436480 (by norm_num)
      (by rw [abs_of_pos (by norm_num)]; norm_num) (by rw [abs_of_pos (by norm_num)]; norm_num)
      (by norm_num) (abs_lt.2 ⟨by norm_num, by norm_num⟩)
  have h11 : fsub (35 / 32) (-5 / 32) = (5 / 4) :=
    roundDouble_eq_of_near _ _ 0 5629499534213120 (by norm_num)
      (by rw [abs_of_pos (by norm_num)]; norm_num) (by rw [abs_of_pos (by norm_num)]; norm_num)
      (by norm_num) (abs_lt.2 ⟨by norm_num, by norm_num⟩)
  have h12 : fsub (5 / 4) (-5 / 32) = (45 / 32) :=
    roundDouble_eq_of_near _ _ 0 6333186975989760 (by norm_num)
      (by rw [abs_of_pos (by norm_num)]; norm_num) (by rw [abs_of_pos (by norm_num)]; norm_num)
      (by norm_num) (abs_lt.2 ⟨by norm_num, by norm_num⟩)
  have h13 : fsub (45 / 32) (-5 / 32) = (25 / 16) :=
    roundDouble_eq_of_near _ _ 0 7036874417766400 (by norm_num)
      (by rw [abs_of_pos (by norm_num)]; norm_num) (by rw [abs_of_pos (by norm_num)]; norm_num)
      (by norm_num) (abs_lt.2 ⟨by norm_num, by norm_num⟩)
  have h14 : fsub (25 / 16) (-5 / 32) = (55 / 32) :=
    roundDouble_eq_of_near _ _ 0 7740561859543040 (by norm_num)
      (by rw [abs_of_pos (by norm_num)]; norm_num) (by rw [abs_of_pos (by norm_num)]; norm_num)
      (by norm_num) (abs_lt.2 ⟨by norm_num, by norm_num⟩)
  have h15 : fsub (55 / 32) (-5 / 32) = (15 / 8) :=
    roundDouble_eq_of_near _ _ 0 8444249301319680 (by norm_num)
      (by rw [abs_of_pos (by norm_num)]; norm_num) (by rw [abs_of_pos (by norm_num)]; norm_num)
      (by norm_num) (abs_lt.2 ⟨by norm_num, by norm_num⟩)
  have h16 : fsub (15 / 8) (-5 / 32) = (65 / 32) :=
    roundDouble_eq_of_near _ _ 1 4573968371548160 (by norm_num)
      (by rw [abs_of_pos (by norm_num)]; norm_num) (by rw [abs_of_pos (by norm_num)]; norm_num)
      (by norm_num) (abs_lt.2 ⟨by norm_num, by norm_num⟩)
  have h17 : fsub (65 / 32) (-5 / 32) = (35 / 16) :=
    roundDouble_eq_of_near _ _ 1 4925812092436480 (by norm_num)
      (by rw [abs_of_pos (by norm_num)]; norm_num) (by rw [abs_of_pos (by norm_num)]; norm_num)
      (by norm_num) (abs_lt.2 ⟨by norm_num, by norm_num⟩)
  have h18 : fsub (35 / 16) (-5 / 32) = (75 / 32) :=
    roundDouble_eq_of_near _ _ 1 5277655813324800 (by norm_num)
      (by rw [abs_of_pos (by norm_num)]; norm_num) (by rw [abs_of_pos (by norm_num)]; norm_num)
      (by norm_num) (abs_lt.2 ⟨by norm_num, by norm_num⟩)
  have h19 : fsub (75 / 32) (-5 / 32) = (5 / 2) :=
    roundDouble_eq_of_near _ _ 1 5629499534213120 (by norm_num)
      (by rw [abs_of_pos (by norm_num)]; norm_num) (by rw [abs_of_pos (by norm_num)]; norm_num)
      (by norm_num) (abs_lt.2 ⟨by norm_num, by norm_num⟩)
  have h20 : fsub (5 / 2) (-5 / 32) = (85 / 32) :=
    roundDouble_eq_of_near _ _ 1 5981343255101440 (by norm_num)
      (by rw [abs_of_pos (by norm_num)]; norm_num) (by rw [abs_of_pos (by norm_num)]; norm_num)
      (by norm_num) (abs_lt.2 ⟨by norm_num, by norm_num⟩)
  have h21 : fsub (85 / 32) (-5 / 32) = (45 / 16) :=
    roundDouble_eq_of_near _ _ 1 6333186975989760 (by norm_num)
      (by rw [abs_of_pos (by norm_num)]; norm_num) (by rw [abs_of_pos (by norm_num)]; norm_num)
      (by norm_num) (abs_lt.2 ⟨by norm_num, by norm_num⟩)
  have h22 : fsub (45 / 16) (-5 / 32) = (95 / 32) :=
    roundDouble_eq_of_near _ _ 1 6685030696878080 (by norm_num)
      (by rw [abs_of_pos (by norm_num)]; norm_num) (by rw [abs_of_pos (by norm_num)]; norm_num)
      (by norm_num) (abs_lt.2 ⟨by norm_num, by norm_num⟩)
  have h23 : fsub (95 / 32) (-5 / 32) = (25 / 8) :=
    roundDouble_eq_of_near _ _ 1 7036874417766400 (by norm_num)
      (by rw [abs_of_pos (by norm_num)]; norm_num) (by rw [abs_of_pos (by norm_num)]; norm_num)
      (by norm_num) (abs_lt.2 ⟨by norm_num, by norm_num⟩)
  have h24 : fsub (25 / 8) (-5 / 32) = (105 / 32) :=
    roundDouble_eq_of_near _ _ 1 7388718138654720 (by norm_num)
      (by rw [abs_of_pos (by norm_num)]; norm_num) (by rw [abs_of_pos (by norm_num)]; norm_num)
      (by norm_num) (abs_lt.2 ⟨by norm_num, by norm_num⟩)
  have h25 : fsub (105 / 32) (-5 / 32) = (55 / 16) :=
    roundDouble_eq_of_near _ _ 1 7740561859543040 (by norm_num)
      (by rw [abs_of_pos (by norm_num)]; norm_num) (by rw [abs_of_pos (by norm_num)]; norm_num)
      (by norm_num) (abs_lt.2 ⟨by norm_num, by norm_num⟩)
  have h26 : fsub (55 / 16) (-5 / 32) = (115 / 32) :=
    roundDouble_eq_of_near _ _ 1 8092405580431360 (by norm_num)
      (by rw [abs_of_pos (by norm_num)]; norm_num) (by rw [abs_of_pos (by norm_num)]; norm_num)
      (by norm_num) (abs_lt.2 ⟨by norm_num, by norm_num⟩)
  have h27 : fsub (115 / 32) (-5 / 32) = (15 / 4) :=
    roundDouble_eq_of_near _ _ 1 8444249301319680 (by norm_num)
      (by rw [abs_of_pos (by norm_num)]; norm_num) (by rw [abs_of_pos (by norm_num)]; norm_num)
      (by norm_num) (abs_lt.2 ⟨by norm_num, by norm_num⟩)
  have h28 : fsub (15 / 4) (-5 / 32) = (125 / 32) :=
    roundDouble_eq_of_near _ _ 1 8796093022208000 (by norm_num)
      (by rw [abs_of_pos (by norm_num)]; norm_num) (by rw [abs_of_pos (by norm_num)]; norm_num)
      (by norm_num) (abs_lt.2 ⟨by norm_num, by norm_num⟩)
  have h29 : fsub (125 / 32) (-5 / 32) = (65 / 16) :=
    roundDouble_eq_of_near _ _ 2 4573968371548160 (by norm_num)
      (by rw [abs_of_pos (by norm_num)]; norm_num) (by rw [abs_of_pos (by norm_num)]; norm_num)
      (by norm_num) (abs_lt.2 ⟨by norm_num, by norm_num⟩)
  have h30 : fsub (65 / 16) (-5 / 32) = (135 / 32) :=
    roundDouble_eq_of_near _ _ 2 4749890231992320 (by norm_num)
      (by rw [abs_of_pos (by norm_num)]; norm_num) (by rw [abs_of_pos (by norm_num)]; norm_num)
      (by norm_num) (abs_lt.2 ⟨by norm_num, by norm_num⟩)
  have h31 : fsub (135 / 32) (-5 / 32) = (35 / 8) :=
    roundDouble_eq_of_near _ _ 2 4925812092436480 (by norm_num)
      (by rw [abs_of_pos (by norm_num)]; norm_num) (by rw [abs_of_pos (by norm_num)]; norm_num)
      (by norm_num) (abs_lt.2 ⟨by norm_num, by norm_num⟩)
  have h32 : fsub (35 / 8) (-5 / 32) = (145 / 32) :=
    roundDouble_eq_of_near _ _ 2 5101733952880640 (by norm_num)
      (by rw [abs_of_pos (by norm_num)]; norm_num) (by rw [abs_of_pos (by norm_num)]; norm_num)
      (by norm_num) (abs_lt.2 ⟨by norm_num, by norm_num⟩)
  have h33 : fsub (145 / 32) (-5 / 32) = (75 / 16) :=
    roundDouble_eq_of_near _ _ 2 5277655813324800 (by norm_num)
      (by rw [abs_of_pos (by norm_num)]; norm_num) (by rw [abs_of_pos (by norm_num)]; norm_num)
      (by norm_num) (abs_lt.2 ⟨by norm_num, by norm_num⟩)
  have h34 : fsub (75 / 16) (-5 / 32) = (155 / 32) :=
    roundDouble_eq_of_near _ _ 2 5453577673768960 (by norm_num)
      (by rw [abs_of_pos (by norm_num)]; norm_num) (by rw [abs_of_pos (by norm_num)]; norm_num)
      (by norm_num) (abs_lt.2 ⟨by norm_num, by norm_num⟩)
  have h35 : fsub (155 / 32) (-5 / 32) = 5 :=
    roundDouble_eq_of_near _ _ 2 5629499534213120 (by norm_num)
      (by rw [abs_of_pos (by norm_num)]; norm_num) (by rw [abs_of_pos (by norm_num)]; norm_num)
      (by norm_num) (abs_lt.2 ⟨by norm_num, by norm_num⟩)
  unfold entropyOfD
  rw [hdist, hsize]
  simp only [List.foldl_cons, List.foldl_nil, Nat.cast_ofNat, Nat.cast_one, h1, h2, h3, h4, h5,
    h6, h7, h8, h9, h10, h11, h12, h13, h14, h15, h16, h17, h18, h19, h20, h21, h22, h23, h24,
    h25, h26, h27, h28, h29, h30, h31, h32, h33, h34, h35]

theorem entropyOfD_thirtyTwo_0_1_high :
    entropyOfD log2Table
        (thirtyTwoLabels.filter (fun s => !goesLow parseDigits (some 0) (JSNum.fin 1) s))
      = 0 := by
  have hdist : forInOrder (valueDistribution
      (thirtyTwoLabels.filter (fun s => !goesLow parseDigits (some 0) (JSNum.fin 1) s)))
      = [] := by
    decide
  have hsize : (thirtyTwoLabels.filter (fun s => !goesLow parseDigits (some 0) (JSNum.fin 1) s)).length
      = 0 := by
    decide
  unfold entropyOfD
  rw [hdist, hsize]
  rfl

theorem totalEntropyOfAttributeD_thirtyTwo_0_1 :
    totalEntropyOfAttributeD log2Table parseDigits thirtyTwoLabels 0 (JSNum.fin 1)
      = some 5 := by
  have hlo : (thirtyTwoLabels.filter (goesLow parseDigits (some 0) (JSNum.fin 1))).length
      = 32 := by
    decide
  have hhi : (thirtyTwoLabels.filter (fun s => !goesLow parseDigits (some 0) (JSNum.fin 1) s)).length
      = 0 := by
    decide
  have hsize : thirtyTwoLabels.length = 32 := by
    decide
  have h1 : fdiv 32 32 = 1 :=
    roundDouble_eq_of_near _ _ 0 4503599627370496 (by norm_num)
      (by rw [abs_of_pos (by norm_num)]; norm_num) (by rw [abs_of_pos (by norm_num)]; norm_num)
      (by norm_num) (abs_lt.2 ⟨by norm_num, by norm_num⟩)
  have h2 : fmul 1 5 = 5 :=
    roundDouble_eq_of_near _ _ 2 5629499534213120 (by norm_num)
      (by rw [abs_of_pos (by norm_num)]; norm_num) (by rw [abs_of_pos (by norm_num)]; norm_num)
      (by norm_num) (abs_lt.2 ⟨by norm_num, by norm_num⟩)
  have h3 : fadd 0 5 = 5 :=
    roundDouble_eq_of_near _ _ 2 5629499534213120 (by norm_num)
      (by rw [abs_of_pos (by norm_num)]; norm_num) (by rw [abs_of_pos (by norm_num)]; norm_num)
      (by norm_num) (abs_lt.2 ⟨by norm_num, by norm_num⟩)
  have h4 : fdiv 0 32 = 0 := by
    unfold fdiv
    norm_num [roundDouble_zero]
  have h5 : fmul 0 0 = 0 := by
    unfold fmul
    norm_num [roundDouble_zero]
  have h6 : fadd 5 0 = 5 :=
    roundDouble_eq_of_near _ _ 2 5629499534213120 (by norm_num)
      (by rw [abs_of_pos (by norm_num)]; norm_num) (by rw [abs_of_pos (by norm_num)]; norm_num)
      (by norm_num) (abs_lt.2 ⟨by norm_num, by norm_num⟩)
  unfold totalEntropyOfAttributeD
  simp only [hlo, hhi, hsize, entropyOfD_thirtyTwo_0_1_low, entropyOfD_thirtyTwo_0_1_high,
    Nat.cast_ofNat, Nat.cast_one, Nat.cast_zero, OfNat.ofNat_ne_zero, if_false, h1, h2, h3, h4,
    h5, h6]

/-! ## The initial value of the selector below thirty-two labels -/

/-- For a non-empty sample list with fewer than 32 distinct labels every weighted
entropy is below 5 in exact arithmetic, and when there is an attribute column the
exact-arithmetic selector returns one of the candidates. -/
theorem sentinel_safe_below_32_labels (parseFloat : String → JSNum) (samples : List Sample)
    (hne : samples ≠ []) (hfew : distinctLabels samples < 32) :
    (∀ (attrIndex : Nat) (attrLimit : JSNum), ∃ e,
        totalEntropyOfAttribute parseFloat samples attrIndex attrLimit = some e ∧ e < 5)
    ∧ (0 < attributeNumber samples →
        ∃ c ∈ candidates parseFloat samples,
          mostInformativeAttribute parseFloat samples = some (some c.1, c.2)) := by
  have hall : ∀ (attrIndex : Nat) (attrLimit : JSNum), ∃ e,
      totalEntropyOfAttribute parseFloat samples attrIndex attrLimit = some e ∧ e < 5 := by
    intro attrIndex attrLimit
    have he := totalEntropyOfAttribute_eq parseFloat samples attrIndex attrLimit hne
    exact ⟨_, he, totalEntropyOfAttribute_lt_five parseFloat samples attrIndex attrLimit _ hfew he⟩
  refine ⟨hall, fun hcol => ?_⟩
  obtain ⟨s, hs⟩ := List.exists_mem_of_ne_nil samples hne
  apply mostInformativeAttribute_of_candidate parseFloat samples hne
  refine ⟨(0, parseField parseFloat (s.get (some 0))), ?_, ?_⟩
  · exact (mem_candidates parseFloat samples _).2 ⟨hcol, s, hs, rfl⟩
  · exact hall 0 _

/-! ## The claims -/

/-- Counterexample to C1 as stated: on the seven samples the candidates `(0, 2)` and
`(1, 1)` have the same weighted entropy `4/7 + (3/7) * log2(3)` in exact real arithmetic
and `(0, 2)` is visited first, but the selector returns `(1, 1)`: in double arithmetic
the weighted entropy of `(1, 1)` comes out one spacing below that of `(0, 2)`. -/
theorem mostInformativeAttribute_not_first_exact_minimum :
    mostInformativeAttributeD log2Table parseDigits tieSamples = some (some 1, JSNum.fin 1)
    ∧ candidates parseDigits tieSamples
        = [(0, JSNum.fin 2), (0, JSNum.fin 2), (0, JSNum.fin 2), (0, JSNum.fin 2),
            (0, JSNum.fin 9), (0, JSNum.fin 9), (0, JSNum.fin 9)]
          ++ (1, JSNum.fin 1) ::
            [(1, JSNum.fin 1), (1, JSNum.fin 9), (1, JSNum.fin 1), (1, JSNum.fin 1),
              (1, JSNum.fin 1), (1, JSNum.fin 1)]
    ∧ totalEntropyOfAttribute parseDigits tieSamples 0 (JSNum.fin 2)
        = totalEntropyOfAttribute parseDigits tieSamples 1 (JSNum.fin 1)
    ∧ totalEntropyOfAttribute parseDigits tieSamples 1 (JSNum.fin 1)
        = some (4 / 7 + 3 / 7 * Real.logb 2 3)
    ∧ totalEntropyOfAttributeD log2Table parseDigits tieSamples 0 (JSNum.fin 2)
        = some (5632644013202001 / 4503599627370496)
    ∧ totalEntropyOfAttributeD log2Table parseDigits tieSamples 1 (JSNum.fin 1)
        = some (5632644013202000 / 4503599627370496) := by
  refine ⟨mostInformativeAttributeD_tieSamples, candidates_tieSamples, ?_,
    totalEntropyOfAttribute_tie_1_1, totalEntropyOfAttributeD_tie_0_2, ?_⟩
  · rw [totalEntropyOfAttribute_tie_0_2, totalEntropyOfAttribute_tie_1_1]
  · rw [totalEntropyOfAttributeD_tie_1_1]
    norm_num

/-- C1, amended: for a non-empty sample list with a candidate whose weighted entropy, as
the code computes it in double arithmetic with whatever `Math.log2` returns, is below 5,
`mostInformativeAttribute` returns a candidate `(i, v)` of an attribute column `i` with
`v` the parsed value of some sample in that column, its computed weighted entropy is at
most that of every candidate, and it is the first one in the order of the scan (columns
first, then samples) that attains this minimum of the computed values: every candidate
before it has a strictly larger computed weighted entropy.  Equal lengths of the samples
are not needed. -/
theorem mostInformativeAttributeD_first_minimum (log2 : ℚ → ℚ) (parseFloat : String → JSNum)
    (samples : List Sample) (hne : samples ≠ [])
    (hex : ∃ c ∈ candidates parseFloat samples, ∃ e,
      totalEntropyOfAttributeD log2 parseFloat samples c.1 c.2 = some e ∧ e < 5) :
    ∃ pre i v post e,
      candidates parseFloat samples = pre ++ (i, v) :: post
      ∧ mostInformativeAttributeD log2 parseFloat samples = some (some i, v)
      ∧ i < attributeNumber samples
      ∧ (∃ s ∈ samples, v = parseField parseFloat (s.get (some i)))
      ∧ totalEntropyOfAttributeD log2 parseFloat samples i v = some e
      ∧ (∀ x ∈ candidates parseFloat samples, ∃ e1,
          totalEntropyOfAttributeD log2 parseFloat samples x.1 x.2 = some e1 ∧ e ≤ e1)
      ∧ (∀ x ∈ pre, ∃ e1,
          totalEntropyOfAttributeD log2 parseFloat samples x.1 x.2 = some e1 ∧ e < e1) := by
  rcases foldl_candStepD_first_min log2 parseFloat samples hne (candidates parseFloat samples)
      (⟨5, none, JSNum.nan⟩ : BestD) with
    ⟨_, hall⟩ | ⟨pre, c, post, e, hcs, hres, hce, _, hpre, hpost⟩
  · obtain ⟨c, hc, e, he, hlt⟩ := hex
    obtain ⟨e1, he1, hle⟩ := hall c hc
    rw [he] at he1
    injection he1 with he1
    subst he1
    exact absurd hlt (not_lt.2 hle)
  · have hmem : c ∈ candidates parseFloat samples := by
      rw [hcs]; exact List.mem_append_right _ (List.mem_cons_self _ _)
    have hc := (mem_candidates parseFloat samples c).1 hmem
    refine ⟨pre, c.1, c.2, post, e, hcs, ?_, hc.1, hc.2, hce, ?_, hpre⟩
    · rw [mostInformativeAttributeD_eq log2 parseFloat samples hne, hres]
    · intro x hx
      rw [hcs, List.mem_append, List.mem_cons] at hx
      rcases hx with hx | rfl | hx
      · obtain ⟨e1, he1, hlt⟩ := hpre x hx
        exact ⟨e1, he1, hlt.le⟩
      · exact ⟨e, hce, le_refl e⟩
      · exact hpost x hx

/-- Witness of C1: the seven samples, fourteen candidates with three different computed
weighted entropies, the least of them attained first at the eighth candidate. -/
theorem mostInformativeAttributeD_first_minimum_witness :
    tieSamples ≠ []
    ∧ (∃ c ∈ candidates parseDigits tieSamples, ∃ e,
        totalEntropyOfAttributeD log2Table parseDigits tieSamples c.1 c.2 = some e ∧ e < 5)
    ∧ ∃ pre i v post e,
      candidates parseDigits tieSamples = pre ++ (i, v) :: post
      ∧ mostInformativeAttributeD log2Table parseDigits tieSamples = some (some i, v)
      ∧ i < attributeNumber tieSamples
      ∧ (∃ s ∈ tieSamples, v = parseField parseDigits (s.get (some i)))
      ∧ totalEntropyOfAttributeD log2Table parseDigits tieSamples i v = some e
      ∧ (∀ x ∈ candidates parseDigits tieSamples, ∃ e1,
          totalEntropyOfAttributeD log2Table parseDigits tieSamples x.1 x.2 = some e1 ∧ e ≤ e1)
      ∧ (∀ x ∈ pre, ∃ e1,
          totalEntropyOfAttributeD log2Table parseDigits tieSamples x.1 x.2 = some e1
            ∧ e < e1) := by
  have hne : tieSamples ≠ [] := by decide
  have hex : ∃ c ∈ candidates parseDigits tieSamples, ∃ e,
      totalEntropyOfAttributeD log2Table parseDigits tieSamples c.1 c.2 = some e ∧ e < 5 :=
    ⟨(0, JSNum.fin 2), by decide, _, totalEntropyOfAttributeD_tie_0_2, by norm_num⟩
  exact ⟨hne, hex, mostInformativeAttributeD_first_minimum log2Table parseDigits tieSamples
    hne hex⟩

/-- Counterexample to C2 as stated: a sample whose field does not parse goes to the
second child although its value is not greater than the threshold, so the samples
with a value `>` the threshold are none. -/
theorem decisionTree_nodes_split_gt_fails :
    ∃ t, decisionTree parseDigits (JSNum.fin 5) [⟨["1"], "A"⟩, ⟨["x"], "B"⟩] ["x", "label"] 0
        = some t
      ∧ t = Tree.Node (some "x") (JSNum.fin 1)
          [Tree.Leaf "A" [⟨["1"], "A"⟩], Tree.Leaf "B" [⟨["x"], "B"⟩]] (some 0)
      ∧ ([⟨["1"], "A"⟩, ⟨["x"], "B"⟩] : List Sample).filter
          (fun s => JSNum.lt (JSNum.fin 1) (parseField parseDigits (s.get (some 0)))) = []
      ∧ ¬ NodesSplitGt parseDigits [⟨["1"], "A"⟩, ⟨["x"], "B"⟩] t := by
  have hlow : ([⟨["1"], "A"⟩, ⟨["x"], "B"⟩] : List Sample).filter
      (goesLow parseDigits (some 0) (JSNum.fin 1)) = [⟨["1"], "A"⟩] := by decide
  have hhigh : ([⟨["1"], "A"⟩, ⟨["x"], "B"⟩] : List Sample).filter
      (fun s => !goesLow parseDigits (some 0) (JSNum.fin 1) s) = [⟨["x"], "B"⟩] := by decide
  have hgt : ([⟨["1"], "A"⟩, ⟨["x"], "B"⟩] : List Sample).filter
      (fun s => JSNum.lt (JSNum.fin 1) (parseField parseDigits (s.get (some 0)))) = [] := by
    decide
  have hent : totalEntropyOfAttribute parseDigits [⟨["1"], "A"⟩, ⟨["x"], "B"⟩] 0
      (JSNum.fin 1) = some 0 := by
    apply totalEntropyOfAttribute_of_pure_sides _ _ _ _ (by simp)
    · rw [hlow]; decide
    · rw [hhigh]; decide
  have hcands : candidates parseDigits [⟨["1"], "A"⟩, ⟨["x"], "B"⟩]
      = [(0, JSNum.fin 1), (0, JSNum.nan)] := by decide
  have hsel : mostInformativeAttribute parseDigits [⟨["1"], "A"⟩, ⟨["x"], "B"⟩]
      = some (some 0, JSNum.fin 1) := by
    rw [mostInformativeAttribute_eq _ _ (by simp), hcands, List.foldl_cons]
    have hstep : candStep parseDigits [⟨["1"], "A"⟩, ⟨["x"], "B"⟩]
        (⟨5, none, JSNum.nan⟩ : Best) (0, JSNum.fin 1) = ⟨0, some 0, JSNum.fin 1⟩ := by
      simp [candStep, hent]
    rw [hstep, foldl_candStep_zero _ _ _ _ rfl]
  refine ⟨_, ?_, rfl, hgt, ?_⟩
  · refine decisionTree_node parseDigits (JSNum.fin 5) _ _ ["x", "label"] 0 (some 0)
      (JSNum.fin 1) _ _ (by decide) (by simp) hsel ?_ ?_ ?_ ?_
    · rw [hlow]; simp
    · rw [hhigh]; simp
    · rw [hlow]
      exact decisionTree_stop _ _ _ _ _ _ (Or.inl (by decide))
    · rw [hhigh]
      exact decisionTree_stop _ _ _ _ _ _ (Or.inl (by decide))
  · simp only [NodesSplitGt]
    rintro ⟨_, h, _⟩
    exact h hgt

/-- C2, amended: for a non-empty sample list `decisionTree` returns a tree in which every Node
has exactly two children, the first built from exactly the samples of the Node whose
parsed value at the attribute index is `<=` the threshold and the second from exactly
the others (a larger value, or a field that is missing or does not parse as a number),
both lists non-empty and together a rearrangement
of the samples of the Node; the samples retained in the Leaves are a rearrangement of
the training samples. -/
theorem decisionTree_nodes_split (parseFloat : String → JSNum) (maxDepth : JSNum)
    (samples : List Sample) (attributes : List String) (depth : Nat) (hne : samples ≠ []) :
    ∃ t, decisionTree parseFloat maxDepth samples attributes depth = some t
      ∧ NodesSplit parseFloat samples t
      ∧ (t.leaves.flatMap fun leaf => leaf.samples).Perm samples := by
  refine decisionTree_cases parseFloat maxDepth attributes
    (fun samples _ t => NodesSplit parseFloat samples t
      ∧ (t.leaves.flatMap fun leaf => leaf.samples).Perm samples) ?_ ?_ ?_ samples depth hne
  · intro s0 rest d _
    refine ⟨by simp [NodesSplit], ?_⟩
    rw [leaves_leaf]
    simp
  · intro s0 rest d i v _ _ _ _
    refine ⟨by simp [NodesSplit], ?_⟩
    rw [leaves_leaf]
    simp
  · intro s0 rest d i v c0 c1 _ _ _ hlow hhigh hP0 hP1
    have hperm : ((s0 :: rest).filter (goesLow parseFloat i v)
        ++ (s0 :: rest).filter (fun s => !goesLow parseFloat i v s)).Perm (s0 :: rest) :=
      List.filter_append_perm _ _
    refine ⟨?_, ?_⟩
    · simp only [NodesSplit]
      exact ⟨hlow, hhigh, hperm, hP0.1, hP1.1⟩
    · rw [leaves_node, List.flatMap_append]
      exact (List.Perm.append hP0.2 hP1.2).trans hperm

/-- Witness of C2: the single sample of the scenario of the specification. -/
theorem decisionTree_nodes_split_witness :
    ([⟨["3"], "C"⟩] : List Sample) ≠ []
    ∧ ∃ t, decisionTree parseDigits (JSNum.fin 5) [⟨["3"], "C"⟩] ["x", "label"] 0 = some t
      ∧ NodesSplit parseDigits [⟨["3"], "C"⟩] t
      ∧ (t.leaves.flatMap fun leaf => leaf.samples).Perm [⟨["3"], "C"⟩] :=
  ⟨by simp, decisionTree_nodes_split parseDigits (JSNum.fin 5) [⟨["3"], "C"⟩] ["x", "label"] 0
    (by simp)⟩

/-- C3: on the tree built from a non-empty training list, every training sample lies in
the samples of some Leaf, and `classify` returns for it the decision of every Leaf whose
retained samples contain it; when the samples of that Leaf share one label, `classify`
returns the label of the sample. -/
theorem classify_training_sample (parseFloat : String → JSNum) (maxDepth : JSNum)
    (samples : List Sample) (attributes : List String) (depth : Nat) (hne : samples ≠ []) :
    ∃ t, decisionTree parseFloat maxDepth samples attributes depth = some t
      ∧ ∀ s ∈ samples,
          (∃ leaf ∈ t.leaves, s ∈ leaf.samples)
          ∧ ∀ leaf ∈ t.leaves, s ∈ leaf.samples →
              classify parseFloat s t = some leaf.decision
              ∧ (SameLabel leaf.samples → classify parseFloat s t = some s.label) := by
  suffices key : ∃ t, decisionTree parseFloat maxDepth samples attributes depth = some t
      ∧ (∀ leaf ∈ t.leaves, ∀ s ∈ leaf.samples, s ∈ samples)
      ∧ (∀ s ∈ samples, ∃ leaf ∈ t.leaves, s ∈ leaf.samples)
      ∧ ∀ leaf ∈ t.leaves, ∀ s ∈ leaf.samples,
          classify parseFloat s t = some leaf.decision
          ∧ (SameLabel leaf.samples → leaf.decision = s.label) by
    obtain ⟨t, ht, _, hcov, hcls⟩ := key
    refine ⟨t, ht, fun s hs => ⟨hcov s hs, fun leaf hleaf hmem => ?_⟩⟩
    obtain ⟨h1, h2⟩ := hcls leaf hleaf s hmem
    exact ⟨h1, fun hsame => by rw [h1, h2 hsame]⟩
  refine decisionTree_cases parseFloat maxDepth attributes
    (fun samples _ t =>
      (∀ leaf ∈ t.leaves, ∀ s ∈ leaf.samples, s ∈ samples)
      ∧ (∀ s ∈ samples, ∃ leaf ∈ t.leaves, s ∈ leaf.samples)
      ∧ ∀ leaf ∈ t.leaves, ∀ s ∈ leaf.samples,
          classify parseFloat s t = some leaf.decision
          ∧ (SameLabel leaf.samples → leaf.decision = s.label)) ?_ ?_ ?_ samples depth hne
  · intro s0 rest d _
    simp only [leaves_leaf, List.mem_singleton, forall_eq]
    refine ⟨fun s hs => hs, fun s hs => ⟨_, rfl, hs⟩, fun s hs => ⟨by simp [classify], ?_⟩⟩
    intro hsame
    exact hsame s0 (List.mem_cons_self _ _) s hs
  · intro s0 rest d i v hnot _ _ _
    simp only [leaves_leaf, List.mem_singleton, forall_eq]
    refine ⟨fun s hs => hs, fun s hs => ⟨_, rfl, hs⟩, fun s hs => ⟨by simp [classify], ?_⟩⟩
    intro hsame
    exact absurd hsame hnot
  · intro s0 rest d i v c0 c1 _ _ _ _ _ hP0 hP1
    obtain ⟨hsub0, hcov0, hcls0⟩ := hP0
    obtain ⟨hsub1, hcov1, hcls1⟩ := hP1
    simp only [leaves_node, List.mem_append]
    refine ⟨?_, ?_, ?_⟩
    · rintro leaf (hl | hl) s hs
      · exact List.mem_of_mem_filter (hsub0 leaf hl s hs)
      · exact List.mem_of_mem_filter (hsub1 leaf hl s hs)
    · intro s hs
      by_cases hg : goesLow parseFloat i v s = true
      · obtain ⟨leaf, hl, hm⟩ := hcov0 s (List.mem_filter.2 ⟨hs, hg⟩)
        exact ⟨leaf, Or.inl hl, hm⟩
      · obtain ⟨leaf, hl, hm⟩ := hcov1 s (List.mem_filter.2 ⟨hs, by simpa using hg⟩)
        exact ⟨leaf, Or.inr hl, hm⟩
    · rintro leaf (hl | hl) s hs
      · have hg : goesLow parseFloat i v s = true :=
          (List.mem_filter.1 (hsub0 leaf hl s hs)).2
        rw [classify_node, if_pos hg]
        exact hcls0 leaf hl s hs
      · have hg : ¬ goesLow parseFloat i v s = true := by
          simpa using (List.mem_filter.1 (hsub1 leaf hl s hs)).2
        rw [classify_node, if_neg hg]
        exact hcls1 leaf hl s hs

/-- Witness of C3: the single sample of the scenario of the specification. -/
theorem classify_training_sample_witness :
    ([⟨["3"], "C"⟩] : List Sample) ≠ []
    ∧ ∃ t, decisionTree parseDigits (JSNum.fin 5) [⟨["3"], "C"⟩] ["x", "label"] 0 = some t
      ∧ ∀ s ∈ ([⟨["3"], "C"⟩] : List Sample),
          (∃ leaf ∈ t.leaves, s ∈ leaf.samples)
          ∧ ∀ leaf ∈ t.leaves, s ∈ leaf.samples →
              classify parseDigits s t = some leaf.decision
              ∧ (SameLabel leaf.samples → classify parseDigits s t = some s.label) :=
  ⟨by simp, classify_training_sample parseDigits (JSNum.fin 5) [⟨["3"], "C"⟩] ["x", "label"] 0
    (by simp)⟩

/-- C4: for a non-empty sample list whose samples all carry the same label, for every
attribute list, every `maxDepth` and every depth, `decisionTree` returns a Leaf whose
decision is that label and whose samples are the whole input. -/
theorem decisionTree_pure_leaf (parseFloat : String → JSNum) (maxDepth : JSNum)
    (samples : List Sample) (attributes : List String) (depth : Nat) (hne : samples ≠ [])
    (hsame : SameLabel samples) :
    ∀ s ∈ samples, decisionTree parseFloat maxDepth samples attributes depth
      = some (Tree.Leaf s.label samples) := by
  intro s hs
  cases samples with
  | nil => exact absurd rfl hne
  | cons s0 rest =>
    rw [decisionTree_stop parseFloat maxDepth s0 rest attributes depth (Or.inl hsame),
      hsame s hs s0 (List.mem_cons_self _ _)]

/-- Witness of C4: the scenario of the specification, the samples `[["3","C"]]` with
the attributes `["x","label"]` give the Leaf with decision "C". -/
theorem decisionTree_pure_leaf_witness :
    ([⟨["3"], "C"⟩] : List Sample) ≠ [] ∧ SameLabel [⟨["3"], "C"⟩]
    ∧ decisionTree parseDigits (JSNum.fin 5) [⟨["3"], "C"⟩] ["x", "label"] 0
        = some (Tree.Leaf "C" [⟨["3"], "C"⟩]) :=
  ⟨by simp, by decide,
    decisionTree_pure_leaf parseDigits (JSNum.fin 5) [⟨["3"], "C"⟩] ["x", "label"] 0 (by simp)
      (by decide) ⟨["3"], "C"⟩ (by simp)⟩

/-- C5: entered with `depth` equal to `maxDepth`, on a non-empty sample list, pure or
not, `decisionTree` returns a single Leaf whose decision is the label of the first
sample and whose samples are the whole input; the result does not depend on
`parseFloat`, the only thing the selector and the partition read. -/
theorem decisionTree_depth_exhausted (parseFloat : String → JSNum) (s0 : Sample)
    (rest : List Sample) (attributes : List String) (depth : Nat) :
    decisionTree parseFloat (JSNum.fin depth) (s0 :: rest) attributes depth
      = some (Tree.Leaf s0.label (s0 :: rest)) :=
  decisionTree_stop parseFloat (JSNum.fin depth) s0 rest attributes depth (Or.inr rfl)

/-- C6: for the four samples of the scenario, with the attributes `["x","y","label"]`
and `maxDepth = 5`, and every `parseFloat` that reads "1" as 1 and "5" as 5, the
selector returns index 0 and threshold 1, a split of weighted entropy 0; `decisionTree`
returns the Node with attribute "x", index 0, threshold 1 and the children Leaf "A" and
Leaf "B" in this order; `classify(["5","5","B"], tree)` returns "B". -/
theorem scenario_two_classes (parseFloat : String → JSNum)
    (h1 : parseFloat "1" = JSNum.fin 1) (h5 : parseFloat "5" = JSNum.fin 5) :
    mostInformativeAttribute parseFloat
        [⟨["1", "1"], "A"⟩, ⟨["1", "2"], "A"⟩, ⟨["5", "5"], "B"⟩, ⟨["5", "6"], "B"⟩]
      = some (some 0, JSNum.fin 1)
    ∧ totalEntropyOfAttribute parseFloat
        [⟨["1", "1"], "A"⟩, ⟨["1", "2"], "A"⟩, ⟨["5", "5"], "B"⟩, ⟨["5", "6"], "B"⟩] 0
        (JSNum.fin 1) = some 0
    ∧ decisionTree parseFloat (JSNum.fin 5)
        [⟨["1", "1"], "A"⟩, ⟨["1", "2"], "A"⟩, ⟨["5", "5"], "B"⟩, ⟨["5", "6"], "B"⟩]
        ["x", "y", "label"] 0
      = some (Tree.Node (some "x") (JSNum.fin 1)
          [Tree.Leaf "A" [⟨["1", "1"], "A"⟩, ⟨["1", "2"], "A"⟩],
           Tree.Leaf "B" [⟨["5", "5"], "B"⟩, ⟨["5", "6"], "B"⟩]] (some 0))
    ∧ classify parseFloat ⟨["5", "5"], "B"⟩
        (Tree.Node (some "x") (JSNum.fin 1)
          [Tree.Leaf "A" [⟨["1", "1"], "A"⟩, ⟨["1", "2"], "A"⟩],
           Tree.Leaf "B" [⟨["5", "5"], "B"⟩, ⟨["5", "6"], "B"⟩]] (some 0))
      = some "B" := by
  have hlow : ([⟨["1", "1"], "A"⟩, ⟨["1", "2"], "A"⟩, ⟨["5", "5"], "B"⟩, ⟨["5", "6"], "B"⟩] :
      List Sample).filter (goesLow parseFloat (some 0) (JSNum.fin 1))
        = [⟨["1", "1"], "A"⟩, ⟨["1", "2"], "A"⟩] := by
    simp [goesLow, Sample.get, Sample.fields, parseField, h1, h5, JSNum.le]
  have hhigh : ([⟨["1", "1"], "A"⟩, ⟨["1", "2"], "A"⟩, ⟨["5", "5"], "B"⟩, ⟨["5", "6"], "B"⟩] :
      List Sample).filter (fun s => !goesLow parseFloat (some 0) (JSNum.fin 1) s)
        = [⟨["5", "5"], "B"⟩, ⟨["5", "6"], "B"⟩] := by
    simp [goesLow, Sample.get, Sample.fields, parseField, h1, h5, JSNum.le]
  have hent : totalEntropyOfAttribute parseFloat
      [⟨["1", "1"], "A"⟩, ⟨["1", "2"], "A"⟩, ⟨["5", "5"], "B"⟩, ⟨["5", "6"], "B"⟩] 0
      (JSNum.fin 1) = some 0 := by
    apply totalEntropyOfAttribute_of_pure_sides _ _ _ _ (by simp)
    · rw [hlow]; decide
    · rw [hhigh]; decide
  have hcands : candidates parseFloat
      [⟨["1", "1"], "A"⟩, ⟨["1", "2"], "A"⟩, ⟨["5", "5"], "B"⟩, ⟨["5", "6"], "B"⟩]
      = (0, JSNum.fin 1) ::
          [(0, parseFloat "1"), (0, parseFloat "5"), (0, parseFloat "5"), (1, parseFloat "1"),
           (1, parseFloat "2"), (1, parseFloat "5"), (1, parseFloat "6")] := by
    rw [← h1]; rfl
  have hsel : mostInformativeAttribute parseFloat
      [⟨["1", "1"], "A"⟩, ⟨["1", "2"], "A"⟩, ⟨["5", "5"], "B"⟩, ⟨["5", "6"], "B"⟩]
      = some (some 0, JSNum.fin 1) := by
    rw [mostInformativeAttribute_eq _ _ (by simp), hcands, List.foldl_cons]
    have hstep : candStep parseFloat
        [⟨["1", "1"], "A"⟩, ⟨["1", "2"], "A"⟩, ⟨["5", "5"], "B"⟩, ⟨["5", "6"], "B"⟩]
        (⟨5, none, JSNum.nan⟩ : Best) (0, JSNum.fin 1) = ⟨0, some 0, JSNum.fin 1⟩ := by
      simp [candStep, hent]
    rw [hstep, foldl_candStep_zero _ _ _ _ rfl]
  refine ⟨hsel, hent, ?_, ?_⟩
  · refine decisionTree_node parseFloat (JSNum.fin 5) _ _ ["x", "y", "label"] 0 (some 0)
      (JSNum.fin 1) _ _ (by decide) (by simp) hsel ?_ ?_ ?_ ?_
    · rw [hlow]; simp
    · rw [hhigh]; simp
    · rw [hlow]
      exact decisionTree_stop _ _ _ _ _ _ (Or.inl (by decide))
    · rw [hhigh]
      exact decisionTree_stop _ _ _ _ _ _ (Or.inl (by decide))
  · rw [classify_node]
    simp [goesLow, Sample.get, Sample.fields, parseField, h5, JSNum.le, classify]

/-- Witness of C6: the digit parser reads "1" as 1 and "5" as 5. -/
theorem scenario_two_classes_witness :
    parseDigits "1" = JSNum.fin 1 ∧ parseDigits "5" = JSNum.fin 5
    ∧ decisionTree parseDigits (JSNum.fin 5)
        [⟨["1", "1"], "A"⟩, ⟨["1", "2"], "A"⟩, ⟨["5", "5"], "B"⟩, ⟨["5", "6"], "B"⟩]
        ["x", "y", "label"] 0
      = some (Tree.Node (some "x") (JSNum.fin 1)
          [Tree.Leaf "A" [⟨["1", "1"], "A"⟩, ⟨["1", "2"], "A"⟩],
           Tree.Leaf "B" [⟨["5", "5"], "B"⟩, ⟨["5", "6"], "B"⟩]] (some 0)) :=
  ⟨by decide, by decide, (scenario_two_classes parseDigits (by decide) (by decide)).2.2.1⟩

/-- C7: for a non-empty sample list and an integer `maxDepth >= 0`, the tree returned
by the top-level call (depth 0) has height at most `maxDepth`. -/
theorem decisionTree_height_le (parseFloat : String → JSNum) (maxDepth : Nat)
    (samples : List Sample) (attributes : List String) (hne : samples ≠ []) :
    ∃ t, decisionTree parseFloat (JSNum.fin maxDepth) samples attributes 0 = some t
      ∧ t.height ≤ maxDepth := by
  suffices key : ∃ t, decisionTree parseFloat (JSNum.fin maxDepth) samples attributes 0 = some t
      ∧ (0 ≤ maxDepth → t.height + 0 ≤ maxDepth) by
    obtain ⟨t, ht, hP⟩ := key
    exact ⟨t, ht, by simpa using hP (Nat.zero_le _)⟩
  refine decisionTree_cases parseFloat (JSNum.fin maxDepth) attributes
    (fun _ depth t => depth ≤ maxDepth → t.height + depth ≤ maxDepth) ?_ ?_ ?_ samples 0 hne
  · intro s0 rest d _ hd
    simpa [Tree.height] using hd
  · intro s0 rest d i v _ _ _ _ hd
    simpa [Tree.height] using hd
  · intro s0 rest d i v c0 c1 _ hneq _ _ _ hP0 hP1 hd
    have hlt : d < maxDepth := by
      refine lt_of_le_of_ne hd ?_
      rintro rfl
      exact hneq rfl
    have h0 := hP0 hlt
    have h1 := hP1 hlt
    rw [height_node]
    rcases max_cases c0.height c1.height with ⟨h, _⟩ | ⟨h, _⟩ <;> rw [h] <;> omega

/-- Witness of C7: the single sample of the scenario of the specification. -/
theorem decisionTree_height_le_witness :
    ([⟨["3"], "C"⟩] : List Sample) ≠ []
    ∧ ∃ t, decisionTree parseDigits (JSNum.fin (5 : Nat)) [⟨["3"], "C"⟩] ["x", "label"] 0 = some t
      ∧ t.height ≤ 5 :=
  ⟨by simp, decisionTree_height_le parseDigits 5 [⟨["3"], "C"⟩] ["x", "label"] (by simp)⟩

/-- C8: `entropyOf(samples)` is 0 exactly when all samples carry the same label; this
holds for every sample list, the empty one included. -/
theorem entropyOf_eq_zero_iff (samples : List Sample) :
    entropyOf samples = 0 ↔ ∀ s ∈ samples, ∀ t ∈ samples, s.label = t.label :=
  entropyOf_eq_zero_iff_sameLabel samples

/-- C9: for a non-empty sample list with `k` distinct labels,
`0 <= entropyOf(samples) <= log2(k)`. -/
theorem entropyOf_bounds (samples : List Sample) (hne : samples ≠ []) :
    0 ≤ entropyOf samples ∧ entropyOf samples ≤ Real.logb 2 (distinctLabels samples) :=
  ⟨entropyOf_nonneg samples, entropyOf_le_logb samples hne⟩

/-- Witness of C9: two samples with two labels. -/
theorem entropyOf_bounds_witness :
    ([⟨["1"], "A"⟩, ⟨["2"], "B"⟩] : List Sample) ≠ []
    ∧ 0 ≤ entropyOf [⟨["1"], "A"⟩, ⟨["2"], "B"⟩]
    ∧ entropyOf [⟨["1"], "A"⟩, ⟨["2"], "B"⟩]
        ≤ Real.logb 2 (distinctLabels [⟨["1"], "A"⟩, ⟨["2"], "B"⟩]) :=
  ⟨by simp, entropyOf_bounds [⟨["1"], "A"⟩, ⟨["2"], "B"⟩] (by simp)⟩

/-- C10: for a non-empty sample list `totalEntropyOfAttribute` returns
`(|low|/n) * entropyOf(low) + (|high|/n) * entropyOf(high)`, with `low` the samples whose
parsed value is `<=` the threshold and `high` the others; `entropyOf` of the empty list
is 0, and when one side is empty its term is 0 and the result is `entropyOf(samples)`. -/
theorem totalEntropyOfAttribute_weighted (parseFloat : String → JSNum) (samples : List Sample)
    (attrIndex : Nat) (attrLimit : JSNum) (hne : samples ≠ []) :
    totalEntropyOfAttribute parseFloat samples attrIndex attrLimit
      = some (((samples.filter fun s =>
                  JSNum.le (parseField parseFloat (s.get (some attrIndex))) attrLimit).length : ℝ)
                / (samples.length : ℝ)
              * entropyOf (samples.filter fun s =>
                  JSNum.le (parseField parseFloat (s.get (some attrIndex))) attrLimit)
            + ((samples.filter fun s =>
                  !JSNum.le (parseField parseFloat (s.get (some attrIndex))) attrLimit).length : ℝ)
                / (samples.length : ℝ)
              * entropyOf (samples.filter fun s =>
                  !JSNum.le (parseField parseFloat (s.get (some attrIndex))) attrLimit))
    ∧ entropyOf [] = 0
    ∧ ((samples.filter fun s =>
          JSNum.le (parseField parseFloat (s.get (some attrIndex))) attrLimit) = [] →
        ((samples.filter fun s =>
            JSNum.le (parseField parseFloat (s.get (some attrIndex))) attrLimit).length : ℝ)
          / (samples.length : ℝ)
          * entropyOf (samples.filter fun s =>
            JSNum.le (parseField parseFloat (s.get (some attrIndex))) attrLimit) = 0
        ∧ totalEntropyOfAttribute parseFloat samples attrIndex attrLimit
            = some (entropyOf samples))
    ∧ ((samples.filter fun s =>
          !JSNum.le (parseField parseFloat (s.get (some attrIndex))) attrLimit) = [] →
        ((samples.filter fun s =>
            !JSNum.le (parseField parseFloat (s.get (some attrIndex))) attrLimit).length : ℝ)
          / (samples.length : ℝ)
          * entropyOf (samples.filter fun s =>
            !JSNum.le (parseField parseFloat (s.get (some attrIndex))) attrLimit) = 0
        ∧ totalEntropyOfAttribute parseFloat samples attrIndex attrLimit
            = some (entropyOf samples)) := by
  have hn : (samples.length : ℝ) ≠ 0 := by
    have : samples.length ≠ 0 := by simpa using hne
    exact_mod_cast this
  have hempty : entropyOf [] = 0 := (entropyOf_eq_zero_iff_sameLabel []).2 (by decide)
  have heq := totalEntropyOfAttribute_eq parseFloat samples attrIndex attrLimit hne
  refine ⟨heq, hempty, ?_, ?_⟩
  · intro hlow
    have hhigh := filter_not_eq_self_of_filter_eq_nil samples
      (goesLow parseFloat (some attrIndex) attrLimit) hlow
    refine ⟨by rw [hlow]; simp, ?_⟩
    rw [heq]
    have hlow2 : samples.filter (goesLow parseFloat (some attrIndex) attrLimit) = [] := hlow
    rw [hlow2, hhigh, div_self hn]
    simp
  · intro hhigh
    have hlow := filter_eq_self_of_filter_not_eq_nil samples
      (goesLow parseFloat (some attrIndex) attrLimit) hhigh
    refine ⟨by rw [hhigh]; simp, ?_⟩
    rw [heq]
    have hhigh2 : samples.filter (fun s => !goesLow parseFloat (some attrIndex) attrLimit s) = [] :=
      hhigh
    rw [hhigh2, hlow, div_self hn]
    simp

/-- Witness of C10: one sample, threshold its own value, so the larger side is empty. -/
theorem totalEntropyOfAttribute_weighted_witness :
    ([⟨["1"], "A"⟩] : List Sample) ≠ []
    ∧ totalEntropyOfAttribute parseDigits [⟨["1"], "A"⟩] 0 (JSNum.fin 1)
        = some (entropyOf [⟨["1"], "A"⟩]) :=
  ⟨by simp,
    ((totalEntropyOfAttribute_weighted parseDigits [⟨["1"], "A"⟩] 0 (JSNum.fin 1)
      (by simp)).2.2.2 (by decide)).2⟩

/-- C11: for a non-empty, non-pure sample list entered at a depth different from
`maxDepth`, when the partition on the pair returned by the selector leaves the smaller
list or the larger list empty, `decisionTree` returns a Leaf whose samples are the whole
input and whose decision is `attributes.at(-1)`, then ": ", then the label of the first
sample; for a non-empty attribute list `attributes.at(-1)` is its last element. -/
theorem decisionTree_degenerate_split (parseFloat : String → JSNum) (maxDepth : JSNum)
    (s0 : Sample) (rest : List Sample) (attributes : List String) (depth : Nat)
    (i : Option Nat) (v : JSNum)
    (hsame : ¬ SameLabel (s0 :: rest)) (hdepth : JSNum.fin depth ≠ maxDepth)
    (hsel : mostInformativeAttribute parseFloat (s0 :: rest) = some (i, v))
    (hdeg : (s0 :: rest).filter (fun s => JSNum.le (parseField parseFloat (s.get i)) v) = []
      ∨ (s0 :: rest).filter
          (fun s => !JSNum.le (parseField parseFloat (s.get i)) v) = []) :
    decisionTree parseFloat maxDepth (s0 :: rest) attributes depth
        = some (Tree.Leaf (jsToString attributes.getLast? ++ ": " ++ s0.label) (s0 :: rest))
    ∧ ∀ front last, attributes = front ++ [last] →
        decisionTree parseFloat maxDepth (s0 :: rest) attributes depth
          = some (Tree.Leaf (last ++ ": " ++ s0.label) (s0 :: rest)) := by
  have h := decisionTree_fallback parseFloat maxDepth s0 rest attributes depth i v hsame hdepth
    hsel hdeg
  refine ⟨h, ?_⟩
  intro front last hattr
  rw [h, hattr]
  simp [jsToString]
/-- Witness of C11: the samples `[["1","A"],["1","B"]]` with the attributes
`["x","label"]` give the Leaf with decision "label: A". -/
theorem decisionTree_degenerate_split_witness :
    ¬ SameLabel [⟨["1"], "A"⟩, ⟨["1"], "B"⟩]
    ∧ JSNum.fin (0 : Nat) ≠ JSNum.fin 5
    ∧ mostInformativeAttribute parseDigits [⟨["1"], "A"⟩, ⟨["1"], "B"⟩]
        = some (some 0, JSNum.fin 1)
    ∧ decisionTree parseDigits (JSNum.fin 5) [⟨["1"], "A"⟩, ⟨["1"], "B"⟩] ["x", "label"] 0
        = some (Tree.Leaf "label: A" [⟨["1"], "A"⟩, ⟨["1"], "B"⟩]) := by
  have hne : ([⟨["1"], "A"⟩, ⟨["1"], "B"⟩] : List Sample) ≠ [] := by simp
  have hnot : ¬ SameLabel [⟨["1"], "A"⟩, ⟨["1"], "B"⟩] := by decide
  have hdepth : JSNum.fin (0 : Nat) ≠ JSNum.fin 5 := by simp
  have hfew : distinctLabels [⟨["1"], "A"⟩, ⟨["1"], "B"⟩] < 32 := by decide
  have hsel : mostInformativeAttribute parseDigits [⟨["1"], "A"⟩, ⟨["1"], "B"⟩]
      = some (some 0, JSNum.fin 1) := by
    obtain ⟨e, he⟩ : ∃ e, totalEntropyOfAttribute parseDigits [⟨["1"], "A"⟩, ⟨["1"], "B"⟩] 0
        (JSNum.fin 1) = some e := ⟨_, totalEntropyOfAttribute_eq _ _ _ _ hne⟩
    obtain ⟨c, hc, hres⟩ := mostInformativeAttribute_of_candidate parseDigits _ hne
      ⟨(0, JSNum.fin 1), by decide, e, he,
        totalEntropyOfAttribute_lt_five _ _ _ _ e hfew he⟩
    have hc2 : c = (0, JSNum.fin 1) := by
      have hcands : candidates parseDigits [⟨["1"], "A"⟩, ⟨["1"], "B"⟩]
          = [(0, JSNum.fin 1), (0, JSNum.fin 1)] := by decide
      rw [hcands] at hc
      simpa using hc
    rw [hres, hc2]
  refine ⟨hnot, hdepth, hsel, ?_⟩
  exact (decisionTree_degenerate_split parseDigits (JSNum.fin 5) ⟨["1"], "A"⟩ [⟨["1"], "B"⟩]
    ["x", "label"] 0 (some 0) (JSNum.fin 1) hnot hdepth hsel (Or.inr (by decide))).2
      ["x"] "label" rfl

/-- Counterexample to C12 as stated: for samples with the label as only column the
selector returns `[NaN, NaN]` and the builder a Leaf; neither signals an error. -/
theorem one_column_no_error :
    mostInformativeAttribute parseDigits [⟨[], "A"⟩, ⟨[], "B"⟩] = some (none, JSNum.nan)
    ∧ decisionTree parseDigits (JSNum.fin 5) [⟨[], "A"⟩, ⟨[], "B"⟩] ["label"] 0
        = some (Tree.Leaf "label: A" [⟨[], "A"⟩, ⟨[], "B"⟩]) := by
  have hsel : mostInformativeAttribute parseDigits [⟨[], "A"⟩, ⟨[], "B"⟩]
      = some (none, JSNum.nan) :=
    mostInformativeAttribute_no_column parseDigits _ (by simp) (by decide)
  refine ⟨hsel, ?_⟩
  rw [decisionTree_fallback parseDigits (JSNum.fin 5) ⟨[], "A"⟩ [⟨[], "B"⟩] ["label"] 0 none
    JSNum.nan (by decide) (by simp) hsel (Or.inl (by decide))]
  rfl

/-- C12, amended: the selector and the builder signal an error for the empty sample
list; for every non-empty sample list both return a value, and when the first sample
has no attribute column the selector returns `[NaN, NaN]` and the builder returns a Leaf
that retains the input. -/
theorem error_only_on_empty (parseFloat : String → JSNum) (maxDepth : JSNum)
    (samples : List Sample) (attributes : List String) (depth : Nat) (hne : samples ≠ []) :
    mostInformativeAttribute parseFloat [] = none
    ∧ decisionTree parseFloat maxDepth [] attributes depth = none
    ∧ (∃ r, mostInformativeAttribute parseFloat samples = some r)
    ∧ (∃ t, decisionTree parseFloat maxDepth samples attributes depth = some t)
    ∧ (attributeNumber samples = 0 →
        mostInformativeAttribute parseFloat samples = some (none, JSNum.nan)
        ∧ ∃ decision, decisionTree parseFloat maxDepth samples attributes depth
            = some (Tree.Leaf decision samples)) := by
  refine ⟨rfl, decisionTree_nil parseFloat maxDepth attributes depth,
    ⟨_, mostInformativeAttribute_eq parseFloat samples hne⟩, ?_, ?_⟩
  · obtain ⟨t, ht, _⟩ := decisionTree_cases parseFloat maxDepth attributes
      (fun _ _ _ => True) (fun _ _ _ _ => trivial) (fun _ _ _ _ _ _ _ _ _ => trivial)
      (fun _ _ _ _ _ _ _ _ _ _ _ _ _ _ => trivial) samples depth hne
    exact ⟨t, ht⟩
  · intro hcol
    have hsel := mostInformativeAttribute_no_column parseFloat samples hne hcol
    refine ⟨hsel, ?_⟩
    cases samples with
    | nil => exact absurd rfl hne
    | cons s0 rest =>
      by_cases hstop : SameLabel (s0 :: rest) ∨ JSNum.fin depth = maxDepth
      · exact ⟨_, decisionTree_stop parseFloat maxDepth s0 rest attributes depth hstop⟩
      · rw [not_or] at hstop
        refine ⟨_, decisionTree_fallback parseFloat maxDepth s0 rest attributes depth none
          JSNum.nan hstop.1 hstop.2 hsel (Or.inl ?_)⟩
        rw [List.filter_eq_nil_iff]
        intro s _
        simp [goesLow_nan_index]

/-- Witness of C12: two samples with the label as only column. -/
theorem error_only_on_empty_witness :
    ([⟨[], "A"⟩, ⟨[], "B"⟩] : List Sample) ≠ []
    ∧ attributeNumber [⟨[], "A"⟩, ⟨[], "B"⟩] = 0
    ∧ mostInformativeAttribute parseDigits [⟨[], "A"⟩, ⟨[], "B"⟩] = some (none, JSNum.nan)
    ∧ ∃ decision, decisionTree parseDigits (JSNum.fin 5) [⟨[], "A"⟩, ⟨[], "B"⟩] ["label"] 0
        = some (Tree.Leaf decision [⟨[], "A"⟩, ⟨[], "B"⟩]) :=
  ⟨by simp, by decide,
    (error_only_on_empty parseDigits (JSNum.fin 5) [⟨[], "A"⟩, ⟨[], "B"⟩] ["label"] 0
      (by simp)).2.2.2.2 (by decide)⟩

/-- Counterexample to C13 as stated: on a Node that tests column 0, `classify`
returns the decision of the second child for a sample whose field is not a number and
for a sample that has no column 3. -/
theorem classify_nan_no_error :
    classify parseDigits ⟨["x"], "B"⟩
        (Tree.Node (some "x") (JSNum.fin 1)
          [Tree.Leaf "A" [⟨["1"], "A"⟩], Tree.Leaf "B" [⟨["5"], "B"⟩]] (some 0)) = some "B"
    ∧ classify parseDigits ⟨["1"], "A"⟩
        (Tree.Node none (JSNum.fin 1)
          [Tree.Leaf "A" [⟨["1"], "A"⟩], Tree.Leaf "B" [⟨["5"], "B"⟩]] (some 3)) = some "B" := by
  constructor <;> decide

/-- C13, amended: when the sample lacks the column at the attribute index of a Node,
or its field there does not parse as a number, `classify` signals no error: the test
`<=` is false and the result is that of `classify` on the second child. -/
theorem classify_nan_second_child (parseFloat : String → JSNum) (sample : Sample)
    (a : Option String) (v : JSNum) (child0 child1 : Tree) (rest : List Tree)
    (index : Option Nat)
    (hnan : parseField parseFloat (sample.get index) = JSNum.nan) :
    classify parseFloat sample (Tree.Node a v (child0 :: child1 :: rest) index)
      = classify parseFloat sample child1 := by
  simp [classify, hnan, JSNum.le]

/-- Witness of C13: a field that is not a number. -/
theorem classify_nan_second_child_witness :
    parseField parseDigits ((⟨["x"], "B"⟩ : Sample).get (some 0)) = JSNum.nan
    ∧ classify parseDigits ⟨["x"], "B"⟩
        (Tree.Node (some "x") (JSNum.fin 1)
          [Tree.Leaf "A" [⟨["1"], "A"⟩], Tree.Leaf "B" [⟨["5"], "B"⟩]] (some 0))
      = classify parseDigits ⟨["x"], "B"⟩ (Tree.Leaf "B" [⟨["5"], "B"⟩]) :=
  ⟨by decide, classify_nan_second_child parseDigits ⟨["x"], "B"⟩ (some "x") (JSNum.fin 1)
    (Tree.Leaf "A" [⟨["1"], "A"⟩]) (Tree.Leaf "B" [⟨["5"], "B"⟩]) [] (some 0) (by decide)⟩

/-- C14: in the tree built from a non-empty sample list, every Leaf, lying at depth `d`
(the root at the depth of the call) with retained samples `L`, has a non-empty `L` and
satisfies one of: all samples of `L` share one label and the decision is that label;
`d` equals `maxDepth` and the decision is the label of the first sample of `L`; the
partition of `L` on the pair returned by `mostInformativeAttribute(L)` leaves one list
empty and the decision is the fallback string. -/
theorem leaf_reasons (parseFloat : String → JSNum) (maxDepth : JSNum)
    (samples : List Sample) (attributes : List String) (depth : Nat) (hne : samples ≠ []) :
    ∃ t, decisionTree parseFloat maxDepth samples attributes depth = some t
      ∧ ∀ leaf ∈ t.leavesAt depth, ∃ s0 rest, leaf.2.samples = s0 :: rest
          ∧ ((SameLabel leaf.2.samples ∧ leaf.2.decision = s0.label)
            ∨ (JSNum.fin leaf.1 = maxDepth ∧ leaf.2.decision = s0.label)
            ∨ ∃ i v, mostInformativeAttribute parseFloat leaf.2.samples = some (i, v)
                ∧ (leaf.2.samples.filter
                      (fun s => JSNum.le (parseField parseFloat (s.get i)) v) = []
                    ∨ leaf.2.samples.filter
                      (fun s => !JSNum.le (parseField parseFloat (s.get i)) v) = [])
                ∧ leaf.2.decision
                    = jsToString attributes.getLast? ++ ": " ++ s0.label) := by
  refine decisionTree_cases parseFloat maxDepth attributes
    (fun _ depth t => ∀ leaf ∈ t.leavesAt depth, ∃ s0 rest, leaf.2.samples = s0 :: rest
          ∧ ((SameLabel leaf.2.samples ∧ leaf.2.decision = s0.label)
            ∨ (JSNum.fin leaf.1 = maxDepth ∧ leaf.2.decision = s0.label)
            ∨ ∃ i v, mostInformativeAttribute parseFloat leaf.2.samples = some (i, v)
                ∧ (leaf.2.samples.filter
                      (fun s => JSNum.le (parseField parseFloat (s.get i)) v) = []
                    ∨ leaf.2.samples.filter
                      (fun s => !JSNum.le (parseField parseFloat (s.get i)) v) = [])
                ∧ leaf.2.decision
                    = jsToString attributes.getLast? ++ ": " ++ s0.label))
    ?_ ?_ ?_ samples depth hne
  · intro s0 rest d hstop leaf hleaf
    rw [leavesAt_leaf, List.mem_singleton] at hleaf
    subst hleaf
    refine ⟨s0, rest, rfl, ?_⟩
    rcases hstop with h | h
    · exact Or.inl ⟨h, rfl⟩
    · exact Or.inr (Or.inl ⟨h, rfl⟩)
  · intro s0 rest d i v _ _ hsel hdeg leaf hleaf
    rw [leavesAt_leaf, List.mem_singleton] at hleaf
    subst hleaf
    exact ⟨s0, rest, rfl, Or.inr (Or.inr ⟨i, v, hsel, hdeg, rfl⟩)⟩
  · intro s0 rest d i v c0 c1 _ _ _ _ _ hP0 hP1 leaf hleaf
    rw [leavesAt_node, List.mem_append] at hleaf
    rcases hleaf with h | h
    · exact hP0 leaf h
    · exact hP1 leaf h

/-- Witness of C14: the single sample of the scenario of the specification. -/
theorem leaf_reasons_witness :
    ([⟨["3"], "C"⟩] : List Sample) ≠ []
    ∧ ∃ t, decisionTree parseDigits (JSNum.fin 5) [⟨["3"], "C"⟩] ["x", "label"] 0 = some t
      ∧ ∀ leaf ∈ t.leavesAt 0, ∃ s0 rest, leaf.2.samples = s0 :: rest
          ∧ ((SameLabel leaf.2.samples ∧ leaf.2.decision = s0.label)
            ∨ (JSNum.fin leaf.1 = JSNum.fin 5 ∧ leaf.2.decision = s0.label)
            ∨ ∃ i v, mostInformativeAttribute parseDigits leaf.2.samples = some (i, v)
                ∧ (leaf.2.samples.filter
                      (fun s => JSNum.le (parseField parseDigits (s.get i)) v) = []
                    ∨ leaf.2.samples.filter
                      (fun s => !JSNum.le (parseField parseDigits (s.get i)) v) = [])
                ∧ leaf.2.decision
                    = jsToString (["x", "label"] : List String).getLast? ++ ": " ++ s0.label) :=
  ⟨by simp, leaf_reasons parseDigits (JSNum.fin 5) [⟨["3"], "C"⟩] ["x", "label"] 0 (by simp)⟩

/-- C15 at the failing input: two samples with the two labels "__proto__" and "A", each
occurring once, have entropy 1/2 and not `log2(2) = 1`, because the label "__proto__"
never becomes a key of `valueDistribution`. -/
theorem entropyOf_proto_label :
    entropyOf [⟨["1"], "__proto__"⟩, ⟨["2"], "A"⟩] = 1 / 2
    ∧ Real.logb 2 (distinctLabels [⟨["1"], "__proto__"⟩, ⟨["2"], "A"⟩]) = 1
    ∧ labelCount [⟨["1"], "__proto__"⟩, ⟨["2"], "A"⟩] "__proto__" = 1
    ∧ labelCount [⟨["1"], "__proto__"⟩, ⟨["2"], "A"⟩] "A" = 1 := by
  have hfilter : (([⟨["1"], "__proto__"⟩, ⟨["2"], "A"⟩] : List Sample).map
      Sample.label).toFinset.filter (fun k => k ≠ "__proto__") = {"A"} := by decide
  have hcount : labelCount [⟨["1"], "__proto__"⟩, ⟨["2"], "A"⟩] "A" = 1 := by decide
  have hk : distinctLabels [⟨["1"], "__proto__"⟩, ⟨["2"], "A"⟩] = 2 := by decide
  refine ⟨?_, ?_, by decide, hcount⟩
  · rw [entropyOf_eq_sum, hfilter, Finset.sum_singleton, hcount]
    have h2 : Real.logb 2 ((1 : ℝ) / 2) = -1 := by
      rw [one_div, Real.logb_inv, Real.logb_self_eq_one (by norm_num)]
    simp only [List.length_cons, List.length_nil]
    norm_num
    rw [h2]
    norm_num
  · rw [hk]
    exact_mod_cast Real.logb_self_eq_one (by norm_num : (1 : ℝ) < 2)

/-- Counterexample to C16 as stated: for twenty-five samples and the proportion
`28 / 100`, as the click handler computes it, the training subset has 8 samples.  The
double product `25 * 0.28` is one spacing above 7, so `round` of it is 7, and so are
`round` and `ceil` of the exact product 7. -/
theorem divideData_not_round :
    (divideData (fun _ => drawZero) (List.replicate 25 ⟨["1"], "A"⟩) (fdiv 28 100)).1.length
      = 8
    ∧ mathRound (fmul 25 (fdiv 28 100)) = 7
    ∧ mathRound ((25 : ℚ) * (28 / 100)) = 7
    ∧ ⌈(25 : ℚ) * (28 / 100)⌉₊ = 7 := by
  have hp : fdiv 28 100 ≤ 1 := by
    rw [fdiv_28_100]
    norm_num
  refine ⟨?_, ?_, ?_, ?_⟩
  · obtain ⟨training, h1, h2, _⟩ := divideData_spec (fun _ => drawZero)
      (List.replicate 25 ⟨["1"], "A"⟩) (fdiv 28 100) hp
      (by rw [List.length_replicate]; norm_num)
    rw [h1, List.length_map, h2, List.length_replicate]
    have h25 : ((25 : ℕ) : ℚ) = 25 := by norm_num
    rw [h25, fmul_25_fdiv_28_100, Nat.ceil_eq_iff (by norm_num)]
    norm_num
  · rw [fmul_25_fdiv_28_100]
    unfold mathRound
    rw [Int.floor_eq_iff]
    norm_num
  · unfold mathRound
    rw [Int.floor_eq_iff]
    norm_num
  · rw [Nat.ceil_eq_iff (by norm_num)]
    norm_num

/-- C16, amended: for a sample list of length `N` (an array length, below `2 ^ 53`), a
proportion `p <= 1` (in particular `p` in `[0, 1]`) and every sequence of random draws,
`divideData` returns a training subset of exactly `ceil(t)` samples, where `t` is the
double product `N * p` as the code computes it: the exact product rounded to the nearest
double.  The test subset has the remaining `N - ceil(t)` samples, and the two together
are a rearrangement of the input. -/
theorem divideData_ceil (random : Nat → Draw) (samples : List Sample) (proportion : ℚ)
    (h1 : proportion ≤ 1) (hlen : samples.length < 2 ^ 53) :
    ∃ training, (divideData random samples proportion).1 = training.map some
      ∧ training.length = ⌈fmul (samples.length : ℚ) proportion⌉₊
      ∧ (divideData random samples proportion).2.length
          = samples.length - ⌈fmul (samples.length : ℚ) proportion⌉₊
      ∧ (training ++ (divideData random samples proportion).2).Perm samples :=
  divideData_spec random samples proportion h1 hlen

/-- Witness of C16: ten samples, the proportion `10 / 100` as the click handler
computes it, and the draw 0 every time.  The double product `10 * 0.1` is 1 and the
training subset has one sample, although the exact product of 10 and the double `0.1`
is above 1. -/
theorem divideData_ceil_witness :
    fdiv 10 100 ≤ 1
    ∧ (List.replicate 10 (⟨["1"], "A"⟩ : Sample)).length < 2 ^ 53
    ∧ (1 : ℚ) < 10 * fdiv 10 100
    ∧ ∃ training : List Sample,
      (divideData (fun _ => drawZero) (List.replicate 10 ⟨["1"], "A"⟩) (fdiv 10 100)).1
        = training.map some
      ∧ training.length = 1
      ∧ (divideData (fun _ => drawZero) (List.replicate 10 ⟨["1"], "A"⟩) (fdiv 10 100)).2.length
        = 9 := by
  have hp : fdiv 10 100 ≤ 1 := by
    rw [fdiv_10_100]
    norm_num
  have hl : (List.replicate 10 (⟨["1"], "A"⟩ : Sample)).length < 2 ^ 53 := by
    rw [List.length_replicate]
    norm_num
  have hc : ⌈fmul (((List.replicate 10 (⟨["1"], "A"⟩ : Sample)).length : ℕ) : ℚ)
      (fdiv 10 100)⌉₊ = 1 := by
    rw [List.length_replicate]
    have h10 : ((10 : ℕ) : ℚ) = 10 := by norm_num
    rw [h10, fmul_10_fdiv_10_100]
    norm_num
  refine ⟨hp, hl, ?_, ?_⟩
  · rw [fdiv_10_100]
    norm_num
  · obtain ⟨training, h1, h2, h3, _⟩ := divideData_ceil (fun _ => drawZero)
      (List.replicate 10 ⟨["1"], "A"⟩) (fdiv 10 100) hp hl
    rw [hc] at h2 h3
    exact ⟨training, h1, h2, by rw [h3, List.length_replicate]⟩

/-- C17 at the failing input: with thirty-two distinct labels and one attribute column of
equal values the weighted entropy of the only candidate is `log2(32) = 5`, in exact
arithmetic and as the code computes it in doubles, which is not below the initial value
5 of the selector, and the selector returns its initial `[NaN, NaN]`. -/
theorem sentinel_attained :
    attributeNumber thirtyTwoLabels = 1
    ∧ distinctLabels thirtyTwoLabels = 32
    ∧ (∀ c ∈ candidates parseDigits thirtyTwoLabels, c = (0, JSNum.fin 1))
    ∧ totalEntropyOfAttribute parseDigits thirtyTwoLabels 0 (JSNum.fin 1) = some 5
    ∧ mostInformativeAttribute parseDigits thirtyTwoLabels = some (none, JSNum.nan)
    ∧ totalEntropyOfAttributeD log2Table parseDigits thirtyTwoLabels 0 (JSNum.fin 1) = some 5
    ∧ mostInformativeAttributeD log2Table parseDigits thirtyTwoLabels
        = some (none, JSNum.nan) := by
  have hne : thirtyTwoLabels ≠ [] := by decide
  have hent : entropyOf thirtyTwoLabels = 5 := by
    rw [entropyOf_uniform thirtyTwoLabels 1 hne (by decide) (by decide),
      show distinctLabels thirtyTwoLabels = 32 by decide]
    exact_mod_cast logb_two_thirty_two
  have htot : totalEntropyOfAttribute parseDigits thirtyTwoLabels 0 (JSNum.fin 1) = some 5 := by
    rw [totalEntropyOfAttribute_of_high_empty parseDigits thirtyTwoLabels 0 (JSNum.fin 1) hne
      (by decide), hent]
  have hcands : ∀ c ∈ candidates parseDigits thirtyTwoLabels, c = (0, JSNum.fin 1) := by
    decide
  refine ⟨by decide, by decide, hcands, htot, ?_, totalEntropyOfAttributeD_thirtyTwo_0_1, ?_⟩
  · apply mostInformativeAttribute_of_no_candidate parseDigits thirtyTwoLabels hne
    intro c hc e he
    rw [hcands c hc, htot] at he
    injection he with he
    exact he.le
  · apply mostInformativeAttributeD_of_no_candidate log2Table parseDigits thirtyTwoLabels hne
    intro c hc e he
    rw [hcands c hc, totalEntropyOfAttributeD_thirtyTwo_0_1] at he
    injection he with he
    exact he.le

/-- C18: for a non-empty sample list and every value of `maxDepth`, `decisionTree`
returns a tree; and whenever it returns a Node, the two recursive calls that built its
children were made on the two lists of the partition, each non-empty and strictly
shorter than the list of the caller. -/
theorem decisionTree_terminates (parseFloat : String → JSNum) (maxDepth : JSNum)
    (samples : List Sample) (attributes : List String) (depth : Nat) (hne : samples ≠ []) :
    ∃ t, decisionTree parseFloat maxDepth samples attributes depth = some t
      ∧ ∀ a v children i, t = Tree.Node a v children i →
          samples.filter (goesLow parseFloat i v) ≠ []
          ∧ (samples.filter (goesLow parseFloat i v)).length < samples.length
          ∧ samples.filter (fun s => !goesLow parseFloat i v s) ≠ []
          ∧ (samples.filter (fun s => !goesLow parseFloat i v s)).length < samples.length
          ∧ ∃ child0 child1, children = [child0, child1]
              ∧ decisionTree parseFloat maxDepth (samples.filter (goesLow parseFloat i v))
                  attributes (depth + 1) = some child0
              ∧ decisionTree parseFloat maxDepth
                  (samples.filter (fun s => !goesLow parseFloat i v s))
                  attributes (depth + 1) = some child1 := by
  suffices key : ∃ t, decisionTree parseFloat maxDepth samples attributes depth = some t
      ∧ (decisionTree parseFloat maxDepth samples attributes depth = some t
        ∧ ∀ a v children i, t = Tree.Node a v children i →
          samples.filter (goesLow parseFloat i v) ≠ []
          ∧ (samples.filter (goesLow parseFloat i v)).length < samples.length
          ∧ samples.filter (fun s => !goesLow parseFloat i v s) ≠ []
          ∧ (samples.filter (fun s => !goesLow parseFloat i v s)).length < samples.length
          ∧ ∃ child0 child1, children = [child0, child1]
              ∧ decisionTree parseFloat maxDepth (samples.filter (goesLow parseFloat i v))
                  attributes (depth + 1) = some child0
              ∧ decisionTree parseFloat maxDepth
                  (samples.filter (fun s => !goesLow parseFloat i v s))
                  attributes (depth + 1) = some child1) by
    obtain ⟨t, ht, _, h⟩ := key
    exact ⟨t, ht, h⟩
  refine decisionTree_cases parseFloat maxDepth attributes
    (fun samples depth t => decisionTree parseFloat maxDepth samples attributes depth = some t
        ∧ ∀ a v children i, t = Tree.Node a v children i →
          samples.filter (goesLow parseFloat i v) ≠ []
          ∧ (samples.filter (goesLow parseFloat i v)).length < samples.length
          ∧ samples.filter (fun s => !goesLow parseFloat i v s) ≠ []
          ∧ (samples.filter (fun s => !goesLow parseFloat i v s)).length < samples.length
          ∧ ∃ child0 child1, children = [child0, child1]
              ∧ decisionTree parseFloat maxDepth (samples.filter (goesLow parseFloat i v))
                  attributes (depth + 1) = some child0
              ∧ decisionTree parseFloat maxDepth
                  (samples.filter (fun s => !goesLow parseFloat i v s))
                  attributes (depth + 1) = some child1)
    ?_ ?_ ?_ samples depth hne
  · intro s0 rest d hstop
    refine ⟨decisionTree_stop parseFloat maxDepth s0 rest attributes d hstop, ?_⟩
    intro a v children i h
    cases h
  · intro s0 rest d i v hsame hdepth hsel hdeg
    refine ⟨decisionTree_fallback parseFloat maxDepth s0 rest attributes d i v hsame hdepth
      hsel hdeg, ?_⟩
    intro a v children i h
    cases h
  · intro s0 rest d i v c0 c1 hsame hdepth hsel hlow hhigh hP0 hP1
    refine ⟨decisionTree_node parseFloat maxDepth s0 rest attributes d i v c0 c1 hsame hdepth
      hsel hlow hhigh hP0.1 hP1.1, ?_⟩
    intro a w children j h
    injection h with _ hv hc hi
    subst hv hc hi
    exact ⟨hlow, length_filter_lt_of_other_ne_nil _ _ hhigh, hhigh,
      length_filter_not_lt_of_other_ne_nil _ _ hlow, c0, c1, rfl, hP0.1, hP1.1⟩

/-- Witness of C18: two classes and a negative `maxDepth`, which no depth can match. -/
theorem decisionTree_terminates_witness :
    ([⟨["1", "1"], "A"⟩, ⟨["1", "2"], "A"⟩, ⟨["5", "5"], "B"⟩, ⟨["5", "6"], "B"⟩] :
        List Sample) ≠ []
    ∧ ∃ t, decisionTree parseDigits (JSNum.fin (-1))
        [⟨["1", "1"], "A"⟩, ⟨["1", "2"], "A"⟩, ⟨["5", "5"], "B"⟩, ⟨["5", "6"], "B"⟩]
        ["x", "y", "label"] 0 = some t :=
  ⟨by simp,
    (decisionTree_terminates parseDigits (JSNum.fin (-1))
      [⟨["1", "1"], "A"⟩, ⟨["1", "2"], "A"⟩, ⟨["5", "5"], "B"⟩, ⟨["5", "6"], "B"⟩]
      ["x", "y", "label"] 0 (by simp)).imp fun _ h => h.1⟩
/-- C19: for a non-empty sample list whose fields in the attribute columns all parse as
numbers, and for which some candidate has a weighted entropy below 5, the selector
returns an attribute column `i` and the value `v` of some sample in that column; the
samples with a value `<= v` are therefore not none, and if the partition leaves a list
empty it is the larger one: every sample has a value `<= v`, the maximum of column `i`. -/
theorem selector_threshold_attained (parseFloat : String → JSNum) (samples : List Sample)
    (hne : samples ≠ [])
    (hnum : ∀ s ∈ samples, ∀ i < attributeNumber samples,
      parseField parseFloat (s.get (some i)) ≠ JSNum.nan)
    (hex : ∃ c ∈ candidates parseFloat samples, ∃ e,
      totalEntropyOfAttribute parseFloat samples c.1 c.2 = some e ∧ e < 5) :
    ∃ i v, mostInformativeAttribute parseFloat samples = some (some i, v)
      ∧ i < attributeNumber samples
      ∧ (∃ s ∈ samples, v = parseField parseFloat (s.get (some i)))
      ∧ samples.filter (fun s => JSNum.le (parseField parseFloat (s.get (some i))) v) ≠ []
      ∧ ((samples.filter (fun s => JSNum.le (parseField parseFloat (s.get (some i))) v) = []
          ∨ samples.filter
              (fun s => !JSNum.le (parseField parseFloat (s.get (some i))) v) = []) →
        samples.filter (fun s => !JSNum.le (parseField parseFloat (s.get (some i))) v) = []
        ∧ ∀ s ∈ samples, JSNum.le (parseField parseFloat (s.get (some i))) v = true) := by
  obtain ⟨c, hc, hres⟩ := mostInformativeAttribute_of_candidate parseFloat samples hne hex
  obtain ⟨hi, s, hs, hv⟩ := (mem_candidates parseFloat samples c).1 hc
  have hlow : samples.filter
      (fun s => JSNum.le (parseField parseFloat (s.get (some c.1))) c.2) ≠ [] := by
    intro hnil
    have := (List.filter_eq_nil_iff.1 hnil) s hs
    rw [← hv, JSNum.le_self c.2 (by rw [hv]; exact hnum s hs c.1 hi)] at this
    exact this rfl
  refine ⟨c.1, c.2, hres, hi, ⟨s, hs, hv⟩, hlow, ?_⟩
  rintro (h | h)
  · exact absurd h hlow
  · refine ⟨h, fun s hs => ?_⟩
    have := (List.filter_eq_nil_iff.1 h) s hs
    simpa using this

/-- Witness of C19: two samples with equal values, so the threshold is the maximum. -/
theorem selector_threshold_attained_witness :
    ([⟨["1"], "A"⟩, ⟨["1"], "B"⟩] : List Sample) ≠ []
    ∧ (∀ s ∈ ([⟨["1"], "A"⟩, ⟨["1"], "B"⟩] : List Sample),
        ∀ i < attributeNumber [⟨["1"], "A"⟩, ⟨["1"], "B"⟩],
          parseField parseDigits (s.get (some i)) ≠ JSNum.nan)
    ∧ ∃ i v, mostInformativeAttribute parseDigits [⟨["1"], "A"⟩, ⟨["1"], "B"⟩]
          = some (some i, v)
      ∧ i < attributeNumber [⟨["1"], "A"⟩, ⟨["1"], "B"⟩]
      ∧ ([⟨["1"], "A"⟩, ⟨["1"], "B"⟩] : List Sample).filter
          (fun s => JSNum.le (parseField parseDigits (s.get (some i))) v) ≠ [] := by
  have hne : ([⟨["1"], "A"⟩, ⟨["1"], "B"⟩] : List Sample) ≠ [] := by simp
  have hnum : ∀ s ∈ ([⟨["1"], "A"⟩, ⟨["1"], "B"⟩] : List Sample),
      ∀ i < attributeNumber [⟨["1"], "A"⟩, ⟨["1"], "B"⟩],
        parseField parseDigits (s.get (some i)) ≠ JSNum.nan := by decide
  obtain ⟨e, he⟩ : ∃ e, totalEntropyOfAttribute parseDigits [⟨["1"], "A"⟩, ⟨["1"], "B"⟩] 0
      (JSNum.fin 1) = some e := ⟨_, totalEntropyOfAttribute_eq _ _ _ _ hne⟩
  obtain ⟨i, v, h1, h2, _, h4, _⟩ := selector_threshold_attained parseDigits
    [⟨["1"], "A"⟩, ⟨["1"], "B"⟩] hne hnum
    ⟨(0, JSNum.fin 1), by decide, e, he,
      totalEntropyOfAttribute_lt_five _ _ _ _ e (by decide) he⟩
  exact ⟨hne, hnum, i, v, h1, h2, h4⟩

end DecisionTree
